import Mathlib

/-!
# devstatscode: the API front door (`cmd/api/api.go`)

A shallow embedding of the request dispatch and project resolution layer:
the project registry (`readProjects`, `nameToDB`), the shared payload checks
(`handleSharedPayload`, `getPayloadStringParam`), the two handlers,
`handleAPI`, and the startup sequence (`checkEnv`, `serveAPI`); then the string
helpers of `map.go`; and of `context.go` the method `Ctx.Init`, with every
statement at which it can end the process, and several of its sections in full.

Conventions of the embedding
* a Go `error` is its message (`err.Error()`), a nil-able error is an `Option String`;
* a Go map with string keys is the list of its entries; a `range` loop over a
  map visits the entries in the order of that list, so a statement for every
  list is a statement for every visiting order;
* the `http.ResponseWriter` is the log of the calls made on it;
* what lives outside the embedded files (package constants, `fmt`, `os`,
  the JSON and YAML decoders, the file system, the parsers of durations, floats,
  dates and regular expressions, the Postgres store) is a field of `Extern`;
* a call that ends the process (`lib.Fatalf`, `lib.FatalOnError`, `FatalNoLog`)
  is the `Except.error` result of the function that makes it; a handler or a
  startup sequence that is cut short this way records the error in a field
  `fatal`, next to what it had done until then.
-/

namespace Devstats

/-! ## Go maps with string keys -/

/-- Comma-ok index expression `v, ok := m[k]`: `some v` when the key is present. -/
def mapIndex {α : Type} : List (String × α) → String → Option α
  | [], _ => none
  | (k', v) :: rest, k => if k' = k then some v else mapIndex rest k

/-- Assignment `m[k] = v`: replaces the value of a present key, adds an absent one. -/
def mapAssign {α : Type} : List (String × α) → String → α → List (String × α)
  | [], k, v => [(k, v)]
  | (k', v') :: rest, k, v =>
    if k' = k then (k, v) :: rest else (k', v') :: mapAssign rest k v

/-- Builtin `len(m)`: the number of distinct keys. -/
def mapLen {α : Type} (m : List (String × α)) : Nat :=
  (m.map Prod.fst).dedup.length

/-! ## Values carried by a decoded JSON payload (`interface{}`) -/

/-- Dynamic value of an `interface{}` filled by `encoding/json`: `nil`, `bool`,
`float64` (kept as its 64-bit pattern), `string`, `[]interface{}` and
`map[string]interface{}`. -/
inductive Value where
  | null : Value
  | bool : Bool → Value
  | number : Fin 18446744073709551616 → Value
  | str : String → Value
  | array : List Value → Value
  | object : List (String × Value) → Value

/-- Type assertion `s, ok := v.(string)`: `some s` exactly for a string value. -/
def Value.assertString : Value → Option String
  | Value.str s => some s
  | _ => none

/-- Go type `map[string]interface{}`; `none` is the nil map, which reads like an empty one. -/
abbrev Payload := Option (List (String × Value))

/-- Builtin `len(payload)`, zero for the nil map. -/
def Payload.len : Payload → Nat
  | none => 0
  | some m => mapLen m

/-- Index expression `v, ok := payload[k]`, never ok on the nil map. -/
def Payload.index : Payload → String → Option Value
  | none, _ => none
  | some m, k => mapIndex m k

/-! ## Data declared by the source -/

/-- Struct `apiPayload`: the decoded request envelope. -/
structure apiPayload where
  API : String
  Payload : Payload

/-- Struct `errorPayload`. -/
structure errorPayload where
  Error : String
  deriving DecidableEq, Repr

/-- Struct `healthPayload`. -/
structure healthPayload where
  Project : String
  DB : String
  Events : Int
  deriving DecidableEq, Repr

/-- Struct `lib.Project`, restricted to the fields `readProjects` reads. -/
structure Project where
  FullName : String
  PDB : String
  Disabled : Bool
  deriving DecidableEq, Repr

/-- Struct `lib.AllProjects`: the map `Projects` from short name to project,
as the list of its entries in the order the `range` loop of `readProjects` visits them. -/
structure AllProjects where
  Projects : List (String × Project)

/-- Struct `lib.Ctx`, restricted to the fields the API reads or sets. -/
structure Ctx where
  DataDir : String
  PgHost : String
  PgPort : String
  PgDB : String
  PgUser : String
  PgPass : String
  PgSSL : String
  Local : Bool
  ProjectsYaml : String
  deriving DecidableEq, Repr

/-- The registry `gNameToDB : map[string]string`. -/
abbrev Registry := List (String × String)

/-- Type `*sql.Rows` as a handler sees it: for each row that `rows.Next()` yields,
the outcome of `rows.Scan(&events)` (the scanned count or the error), and at the
end the value of `rows.Err()`. -/
structure Rows where
  scans : List (Except String Int)
  err : Option String

/-- Outcome of `os.Stat` as `Init` reads it: no error, an error for which
`os.IsNotExist` holds, or any other error. -/
inductive StatResult where
  | found
  | notExist
  | failed (err : String)

/-- What the embedded files take from outside themselves. -/
structure Extern where
  /-- Constant `lib.Health`, the identifier of the health operation. -/
  Health : String
  /-- Constant `lib.DevActCntRepoGrp`, the identifier of the developer-activity operation. -/
  DevActCntRepoGrp : String
  /-- Rendering of a payload value by the verb `%+v` of package `fmt`. -/
  fmtValue : Value → String
  /-- Function `os.Getenv`: the empty string for an unset variable. -/
  Getenv : String → String
  /-- Function `ioutil.ReadFile`. -/
  ReadFile : String → Except String String
  /-- Function `yaml.Unmarshal` into a `lib.AllProjects`. -/
  Unmarshal : String → Except String AllProjects
  /-- Method `json.NewDecoder(body).Decode` into an `apiPayload`. -/
  Decode : String → Except String apiPayload
  /-- Function `lib.PgConnErr`: a connection handle or the error. -/
  PgConnErr : Ctx → Except String Nat
  /-- Function `lib.QuerySQL` on a connection handle: a cursor or the error. -/
  QuerySQL : Nat → Ctx → String → Except String Rows
  /-- Function `os.Stat` on a path. -/
  Stat : String → StatResult
  /-- Function `TimeParseAny` of the package (`time.go`): the message with which
  it ends the process on a date it cannot parse, if it does. -/
  TimeParseAny : String → Option String
  /-- Function `time.ParseDuration`: the error, if any. -/
  ParseDuration : String → Option String
  /-- Function `strconv.ParseFloat` at 64 bits: the error, if any. -/
  ParseFloat : String → Option String
  /-- Function `regexp.MustCompile`: the value of its panic on a pattern that
  does not compile, if any. -/
  MustCompile : String → Option String

/-! ## The response writer -/

/-- One call made on the `http.ResponseWriter` of a request. -/
inductive Call where
  /-- Call `w.Header().Set(key, value)`. -/
  | HeaderSet (key value : String)
  /-- Call `w.WriteHeader(statusCode)`. -/
  | WriteHeader (statusCode : Nat)
  /-- Call `json.NewEncoder(w).Encode(epl)` on an `errorPayload`. -/
  | EncodeError (epl : errorPayload)
  /-- Call `json.NewEncoder(w).Encode(hpl)` on a `healthPayload`. -/
  | EncodeHealth (hpl : healthPayload)
  deriving DecidableEq, Repr

/-- Type `http.ResponseWriter`: the calls made on it so far, oldest first. -/
abbrev ResponseWriter := List Call

/-- Constant `http.StatusBadRequest`. -/
def StatusBadRequest : Nat := 400

/-- Constant `http.StatusOK`. -/
def StatusOK : Nat := 200

/-- Function `returnError`: status 400, then the encoded `errorPayload` of the message. -/
def returnError (w : ResponseWriter) (err : String) : ResponseWriter :=
  let epl : errorPayload := { Error := err }
  w ++ [Call.WriteHeader StatusBadRequest, Call.EncodeError epl]

/-! ## The project registry -/

/-- Function `nameToDB`: the database of a registry key and a nil error, or the
empty string and the not-found error. The read lock taken around the lookup
leaves no trace in a sequential run. -/
def nameToDB (gNameToDB : Registry) (name : String) : String × Option String :=
  match mapIndex gNameToDB name with
  | some db => (db, none)
  | none => ("", some ("database not found for project '" ++ name ++ "'"))

/-- One turn of the loop of `readProjects`: a disabled project is skipped, any
other one gets its short name and its full name assigned to its `PDB`. -/
def readProjectsStep (g : Registry) (entry : String × Project) : Registry :=
  let projName := entry.1
  let projData := entry.2
  let disabled := projData.Disabled
  if disabled then g
  else
    let db := projData.PDB
    mapAssign (mapAssign g projName db) projData.FullName db

/-- The head of `readProjects`: the projects file, under the data directory or
under `./` in local mode, read and parsed. An error of either step ends the
process through `lib.FatalOnError`; here it is the `Except.error` result. -/
def readProjectsFile (x : Extern) (ctx : Ctx) : Except String AllProjects :=
  let dataDir := if ctx.Local then "./" else ctx.DataDir
  match x.ReadFile (dataDir ++ ctx.ProjectsYaml) with
  | Except.error err => Except.error err
  | Except.ok data => x.Unmarshal data

/-- Function `readProjects`: reads and parses the projects file (an error of
either step ends the process through `lib.FatalOnError`, here `Except.error`),
then fills a fresh registry from the projects in visiting order. The result is
the value left in `gNameToDB`. -/
def readProjects (x : Extern) (ctx : Ctx) : Except String Registry :=
  match readProjectsFile x ctx with
  | Except.error err => Except.error err
  | Except.ok projects => Except.ok (projects.Projects.foldl readProjectsStep [])

/-! ## Shared payload checks -/

/-- Function `handleSharedPayload`: the writer after the call and the named
results `(project, db, passed)`. Each early `return` leaves the results at the
values they have at that point. -/
def handleSharedPayload (x : Extern) (gNameToDB : Registry) (apiName : String)
    (w : ResponseWriter) (payload : Payload) : ResponseWriter × String × String × Bool :=
  if payload.len = 0 then
    (returnError w ("API '" ++ apiName ++ "' 'payload' section empty or missing"), "", "", false)
  else
    match payload.index "project" with
    | none =>
      (returnError w ("API '" ++ apiName ++ "' missing 'project' field in 'payload' section"),
        "", "", false)
    | some iproject =>
      match iproject.assertString with
      | none =>
        (returnError w ("API '" ++ apiName ++ "' 'payload' 'project' field '"
          ++ x.fmtValue iproject ++ "' is not a string"), "", "", false)
      | some project =>
        match nameToDB gNameToDB project with
        | (db, some err) => (returnError w err, project, db, false)
        | (db, none) => (w, project, db, true)

/-- Function `getPayloadStringParam`: the writer after the call and the named
results `(param, passed)`. -/
def getPayloadStringParam (x : Extern) (apiName paramName : String)
    (w : ResponseWriter) (payload : Payload) : ResponseWriter × String × Bool :=
  match payload.index paramName with
  | none =>
    (returnError w ("API '" ++ apiName ++ "' missing '" ++ paramName
      ++ "' field in 'payload' section"), "", false)
  | some iparam =>
    match iparam.assertString with
    | none =>
      (returnError w ("API '" ++ apiName ++ "' 'payload' '" ++ paramName ++ "' field '"
        ++ x.fmtValue iparam ++ "' is not a string"), "", false)
    | some param => (w, param, true)

/-! ## The context: `Ctx.Init` (`context.go`) -/

/-- Constant `DefaultDataDir` of the package, as documented at field `DataDir` of `Ctx`. -/
def DefaultDataDir : String := "/etc/gha2db/"

/-- Constant `Localhost` of the package, as documented at field `PgHost` of `Ctx`. -/
def Localhost : String := "localhost"

/-- Constant `GHA` of the package, as documented at field `PgDB` of `Ctx`. -/
def GHA : String := "gha"

/-- Constant `GHAAdmin` of the package, as documented at field `PgUser` of `Ctx`. -/
def GHAAdmin : String := "gha_admin"

/-- Constant `Password` of the package, as documented at field `PgPass` of `Ctx`. -/
def Password : String := "password"

/-- Value of a variable, or the default when it is unset or empty. -/
def envOr (getenv : String → String) (name dflt : String) : String :=
  if getenv name = "" then dflt else getenv name

/-- The statements of `Init` that assign the fields of `Ctx` kept in this
embedding (sections `Data directory`, `Postgres DB`, `Local data files mode`
and `Main projects file`). None of them can end the process, and none reads a
value computed by another statement of `Init`. -/
def Ctx.initFields (getenv : String → String) : Ctx :=
  let dataDir := envOr getenv "GHA2DB_DATADIR" DefaultDataDir
  { DataDir := if dataDir.toList.getLast? = some '/' then dataDir else dataDir ++ "/"
    PgHost := envOr getenv "PG_HOST" Localhost
    PgPort := envOr getenv "PG_PORT" "5432"
    PgDB := envOr getenv "PG_DB" GHA
    PgUser := envOr getenv "PG_USER" GHAAdmin
    PgPass := envOr getenv "PG_PASS" Password
    PgSSL := envOr getenv "PG_SSL" "disable"
    Local := decide (getenv "GHA2DB_LOCAL" ≠ "")
    ProjectsYaml := envOr getenv "GHA2DB_PROJECTS_YAML" "projects.yaml" }

/-- Function `strconv.Atoi` of the standard library, for the 64-bit `int`: an
optional sign, then one or more decimal digits, within the range of `int`. The
text of the error is schematic. -/
def Atoi (s : String) : Except String Int :=
  let signed : Bool × List Char :=
    match s.data with
    | '-' :: ds => (true, ds)
    | '+' :: ds => (false, ds)
    | ds => (false, ds)
  let digits := signed.2
  if digits = [] ∨ digits.all Char.isDigit = false then
    Except.error ("strconv.Atoi: parsing " ++ s ++ ": invalid syntax")
  else
    let n : Int := digits.foldl (fun acc c => acc * 10 + ((c.toNat : Int) - 48)) 0
    let v : Int := if signed.1 then -n else n
    if v < -9223372036854775808 ∨ 9223372036854775807 < v then
      Except.error ("strconv.Atoi: parsing " ++ s ++ ": value out of range")
    else Except.ok v

/-- The section `HTTP Timeout` of `Ctx.Init`: the value left in `ctx.HTTPTimeout`,
which no other statement of `Init` assigns. The call `FatalNoLog(err)` ends the
process on a parse error; here it is the `Except.error` result. -/
def initHTTPTimeout (getenv : String → String) : Except String Int :=
  if getenv "GHA2DB_HTTP_TIMEOUT" = "" then Except.ok 3
  else
    match Atoi (getenv "GHA2DB_HTTP_TIMEOUT") with
    | Except.error err => Except.error err
    | Except.ok size => Except.ok size

/-- The section `HTTP RETRY` of `Ctx.Init`: the value left in `ctx.HTTPRetry`,
which no other statement of `Init` assigns. -/
def initHTTPRetry (getenv : String → String) : Except String Int :=
  if getenv "GHA2DB_HTTP_RETRY" = "" then Except.ok 5
  else
    match Atoi (getenv "GHA2DB_HTTP_RETRY") with
    | Except.error err => Except.error err
    | Except.ok retry => Except.ok retry

/-- The pieces of a character list between the occurrences of `sep`. -/
def splitChars (sep : Char) : List Char → List (List Char)
  | [] => [[]]
  | c :: cs =>
    if c = sep then [] :: splitChars sep cs
    else
      match splitChars sep cs with
      | [] => [[c]]
      | piece :: pieces => (c :: piece) :: pieces

/-- Function `strings.Split` of the standard library, for a separator of one character. -/
def stringsSplit (s : String) (sep : Char) : List String :=
  (splitChars sep s.data).map String.mk

/-- The section `RecalcReciprocal` of `Ctx.Init`: the value left in
`ctx.RecalcReciprocal`, which no other statement of `Init` assigns. The call
`FatalNoLog(err)` ends the process on a parse error; here it is the
`Except.error` result. -/
def initRecalcReciprocal (getenv : String → String) : Except String Int :=
  if getenv "GHA2DB_RECALC_RECIPROCAL" = "" then Except.ok 24
  else
    match Atoi (getenv "GHA2DB_RECALC_RECIPROCAL") with
    | Except.error err => Except.error err
    | Except.ok rr => if rr > 0 then Except.ok rr else Except.ok 24

/-- A variable that `Init` parses with `strconv.Atoi` when it is set, followed
by `FatalNoLog(err)`: the process ends on a value that is not an integer. -/
def atoiIfSet (getenv : String → String) (name : String) : Except String Unit :=
  if getenv name = "" then Except.ok ()
  else
    match Atoi (getenv name) with
    | Except.error err => Except.error err
    | Except.ok _ => Except.ok ()

/-- A loop of `Init` that parses each item of a list with `strconv.Atoi`,
followed by `FatalNoLog(err)`: the process ends on the first item that is not
an integer. -/
def atoiEach : List String → Except String Unit
  | [] => Except.ok ()
  | item :: rest =>
    match Atoi item with
    | Except.error err => Except.error err
    | Except.ok _ => atoiEach rest

/-- A variable holding a comma separated list of integers (`GHA2DB_TRIALS`,
`GHA2DB_DEPLOY_RESULTS`), split and parsed when it is set. -/
def atoiEachIfSet (getenv : String → String) (name : String) : Except String Unit :=
  if getenv name = "" then Except.ok ()
  else atoiEach (stringsSplit (getenv name) ',')

/-- A variable that `Init` hands, when it is set, to a function from outside
that can fail on it: the run ends with the error (through `FatalNoLog(err)`,
or inside the function itself). -/
def parseIfSet (getenv : String → String) (name : String) (parse : String → Option String) :
    Except String Unit :=
  if getenv name = "" then Except.ok ()
  else
    match parse (getenv name) with
    | some err => Except.error err
    | none => Except.ok ()

/-- The section `GitHub OAuth` of `Ctx.Init`: the value left in `ctx.GitHubOAuth`.
An error of `os.Stat` other than a missing file ends the process through
`FatalNoLog(err)`. -/
def initGitHubOAuth (x : Extern) : Except String String :=
  if x.Getenv "GHA2DB_GITHUB_OAUTH" = "" then
    match x.Stat "/etc/github/oauths" with
    | StatResult.found => Except.ok "/etc/github/oauths"
    | StatResult.notExist =>
      match x.Stat "/etc/github/oauth" with
      | StatResult.found => Except.ok "/etc/github/oauth"
      | StatResult.notExist => Except.ok "-"
      | StatResult.failed err => Except.error err
    | StatResult.failed err => Except.error err
  else Except.ok (x.Getenv "GHA2DB_GITHUB_OAUTH")

/-- The section `Actor filtering` of `Ctx.Init`: with `GHA2DB_ACTORS_FILTER`
set, each of the two patterns that is set goes through `regexp.MustCompile`,
which panics on a pattern that does not compile. -/
def initActorsFilter (x : Extern) : Except String Unit :=
  if x.Getenv "GHA2DB_ACTORS_FILTER" = "" then Except.ok ()
  else
    match parseIfSet x.Getenv "GHA2DB_ACTORS_ALLOW" x.MustCompile with
    | Except.error err => Except.error err
    | Except.ok _ => parseIfSet x.Getenv "GHA2DB_ACTORS_FORBID" x.MustCompile

/-- The statements of `Init` at which the process can end, in the order of the
source: the integer parses (`GHA2DB_MIN_GHAPI_POINTS`, `GHA2DB_MAX_GHAPI_WAIT`,
`GHA2DB_MAX_GHAPI_RETRY`, `GHA2DB_DEBUG`, `GHA2DB_CMDDEBUG`,
`GHA2DB_GITHUB_DEBUG`, `GHA2DB_NCPUS`, `GHA2DB_TMOFFSET`), the start date, the
two `os.Stat` calls, the integer lists, the integer parses of
`GHA2DB_ES_BULK_SIZE`, `GHA2DB_HTTP_TIMEOUT` and `GHA2DB_HTTP_RETRY`, the
duration, the two patterns, the float, and the integer parses of
`GHA2DB_RECALC_RECIPROCAL` and `GHA2DB_MAX_HIST`. The result is the error of the
first one that fails. The values these statements leave belong to fields of
`Ctx` that are not kept here. The string slices of the other sections are
taken of non-empty strings only and cannot fail. -/
def Ctx.initExits (x : Extern) : Except String Unit := do
  atoiIfSet x.Getenv "GHA2DB_MIN_GHAPI_POINTS"
  atoiIfSet x.Getenv "GHA2DB_MAX_GHAPI_WAIT"
  atoiIfSet x.Getenv "GHA2DB_MAX_GHAPI_RETRY"
  atoiIfSet x.Getenv "GHA2DB_DEBUG"
  atoiIfSet x.Getenv "GHA2DB_CMDDEBUG"
  atoiIfSet x.Getenv "GHA2DB_GITHUB_DEBUG"
  atoiIfSet x.Getenv "GHA2DB_NCPUS"
  atoiIfSet x.Getenv "GHA2DB_TMOFFSET"
  parseIfSet x.Getenv "GHA2DB_STARTDT" x.TimeParseAny
  let _ ← initGitHubOAuth x
  atoiEachIfSet x.Getenv "GHA2DB_TRIALS"
  atoiEachIfSet x.Getenv "GHA2DB_DEPLOY_RESULTS"
  atoiIfSet x.Getenv "GHA2DB_ES_BULK_SIZE"
  let _ ← initHTTPTimeout x.Getenv
  let _ ← initHTTPRetry x.Getenv
  parseIfSet x.Getenv "GHA2DB_MAX_RUNNING_FLAG_AGE" x.ParseDuration
  initActorsFilter x
  parseIfSet x.Getenv "GHA2DB_PROJECT_SCALE" x.ParseFloat
  let _ ← initRecalcReciprocal x.Getenv
  atoiIfSet x.Getenv "GHA2DB_MAX_HIST"

/-- Method `Ctx.Init`: the process ends at the first statement that fails, here
the `Except.error` result with its error; otherwise `Init` returns and leaves
the context. The dump of the context that `Init` prints on the standard output
under `GHA2DB_CTXOUT` is on no log kept here. -/
def Ctx.Init (x : Extern) : Except String Ctx :=
  match Ctx.initExits x with
  | Except.error err => Except.error err
  | Except.ok _ => Except.ok (Ctx.initFields x.Getenv)

/-! ## Handlers -/

/-- One call made on the store during a request. -/
inductive StoreCall where
  /-- Call `lib.PgConnErr(&ctx)`. -/
  | Connect (ctx : Ctx)
  /-- Call `lib.QuerySQL(c, &ctx, query)`. -/
  | Query (c : Nat) (ctx : Ctx) (query : String)
  /-- Deferred call `rows.Close()`. -/
  | RowsClose
  /-- Deferred call `c.Close()`. -/
  | ConnClose (c : Nat)
  deriving DecidableEq, Repr

/-- Arguments of the call `fmt.Printf("project:%s db:%s params:%+v", project, db, params)`
that ends `apiDevActCntRepoGrp`. -/
structure Printed where
  project : String
  db : String
  params : List (String × String)
  deriving DecidableEq, Repr

/-- The keys of the map literal `params` of `apiDevActCntRepoGrp`, as written. -/
def paramNames : List String :=
  ["range", "metric", "repository_group", "country", "github_id"]

/-- The `for paramName := range params` loop of `apiDevActCntRepoGrp` over the
names still to visit: `none` for the map when a parameter made the handler return. -/
def paramsLoop (x : Extern) (apiName : String) (payload : Payload) :
    List String → ResponseWriter → List (String × String) →
      ResponseWriter × Option (List (String × String))
  | [], w, params => (w, some params)
  | paramName :: rest, w, params =>
    match getPayloadStringParam x apiName paramName w payload with
    | (w1, _, false) => (w1, none)
    | (w1, paramValue, true) =>
      paramsLoop x apiName payload rest w1 (mapAssign params paramName paramValue)

/-- Function `apiDevActCntRepoGrp`: the writer after the call and the `Printf`
calls made. The list `visit` is the order in which the `range` loop visits the keys of `params`. -/
def apiDevActCntRepoGrp (x : Extern) (gNameToDB : Registry) (visit : List String)
    (w : ResponseWriter) (payload : Payload) : ResponseWriter × List Printed :=
  let apiName := x.DevActCntRepoGrp
  match handleSharedPayload x gNameToDB apiName w payload with
  | (w1, _, _, false) => (w1, [])
  | (w1, project, db, true) =>
    let params := paramNames.map (fun name => (name, ""))
    match paramsLoop x apiName payload visit w1 params with
    | (w2, none) => (w2, [])
    | (w2, some params) => (w2, [{ project := project, db := db, params := params }])

/-- The `for rows.Next()` loop of `apiHealth`: the value left in `events`, or the
error of the first failing `Scan`. -/
def scanLoop : List (Except String Int) → Int → Except String Int
  | [], events => Except.ok events
  | Except.ok n :: rest, _ => scanLoop rest n
  | Except.error err :: _, _ => Except.error err

/-- Function `apiHealth`: the writer after the call, the calls made on the
store, the deferred closes included (last deferred first), and the error with
which `ctx.Init()` has ended the run, if it has: then nothing has been written
by the handler, the store has not been reached and no close is pending. -/
def apiHealth (x : Extern) (gNameToDB : Registry) (w : ResponseWriter) (payload : Payload) :
    ResponseWriter × List StoreCall × Option String :=
  let apiName := x.Health
  match handleSharedPayload x gNameToDB apiName w payload with
  | (w1, _, _, false) => (w1, [], none)
  | (w1, project, db, true) =>
    match Ctx.Init x with
    | Except.error fatal => (w1, [], some fatal)
    | Except.ok ctx0 =>
      let ctx : Ctx :=
        { ctx0 with
          PgHost := x.Getenv "PG_HOST_RO"
          PgUser := x.Getenv "PG_USER_RO"
          PgPass := x.Getenv "PG_PASS_RO"
          PgDB := db }
      let query := "select count(*) from gha_events"
      match x.PgConnErr ctx with
      | Except.error err => (returnError w1 err, [StoreCall.Connect ctx], none)
      | Except.ok c =>
        match x.QuerySQL c ctx query with
        | Except.error err =>
          (returnError w1 err,
            [StoreCall.Connect ctx, StoreCall.Query c ctx query, StoreCall.ConnClose c], none)
        | Except.ok rows =>
          let calls := [StoreCall.Connect ctx, StoreCall.Query c ctx query,
            StoreCall.RowsClose, StoreCall.ConnClose c]
          match scanLoop rows.scans 0 with
          | Except.error err => (returnError w1 err, calls, none)
          | Except.ok events =>
            match rows.err with
            | some err => (returnError w1 err, calls, none)
            | none =>
              let hpl : healthPayload := { Project := project, DB := db, Events := events }
              (w1 ++ [Call.WriteHeader StatusOK, Call.EncodeHealth hpl], calls, none)

/-! ## The front door -/

/-- Type `*http.Request`, by its body. -/
structure Request where
  Body : String

/-- The handlers of the dispatch table. -/
inductive Handler where
  | apiHealth
  | apiDevActCntRepoGrp
  deriving DecidableEq, Repr

/-- What a run of `handleAPI` leaves behind. -/
structure Outcome where
  /-- The response writer after the run. -/
  w : ResponseWriter
  /-- The handler the `switch` called, if any. -/
  handler : Option Handler
  /-- The calls made on the store. -/
  store : List StoreCall
  /-- The `Printf` calls of the handlers. -/
  printed : List Printed
  /-- The error with which `ctx.Init()` has cut the run short, if it has. -/
  fatal : Option String
  deriving DecidableEq, Repr

/-- Function `handleAPI`. -/
def handleAPI (x : Extern) (gNameToDB : Registry) (visit : List String)
    (w : ResponseWriter) (req : Request) : Outcome :=
  let w0 := w ++ [Call.HeaderSet "Content-Type" "application/json"]
  match x.Decode req.Body with
  | Except.error err =>
    { w := returnError w0 err, handler := none, store := [], printed := [], fatal := none }
  | Except.ok pl =>
    if pl.API = x.Health then
      let r := apiHealth x gNameToDB w0 pl.Payload
      { w := r.1, handler := some Handler.apiHealth, store := r.2.1, printed := [],
        fatal := r.2.2 }
    else if pl.API = x.DevActCntRepoGrp then
      let r := apiDevActCntRepoGrp x gNameToDB visit w0 pl.Payload
      { w := r.1, handler := some Handler.apiDevActCntRepoGrp, store := [], printed := r.2,
        fatal := none }
    else
      { w := returnError w0 ("unknown API '" ++ pl.API ++ "'"),
        handler := none, store := [], printed := [], fatal := none }

/-- The context `apiHealth` hands to the store for the database `db`: the one
`Init` leaves when it returns, with host, user and password taken from the
read-only variables and the database name set to `db`. -/
def healthCtx (x : Extern) (db : String) : Ctx :=
  { Ctx.initFields x.Getenv with
    PgHost := x.Getenv "PG_HOST_RO"
    PgUser := x.Getenv "PG_USER_RO"
    PgPass := x.Getenv "PG_PASS_RO"
    PgDB := db }

/-- The query `apiHealth` runs. -/
def healthQuery : String := "select count(*) from gha_events"

/-- Number of error payloads encoded on a writer. -/
def errorPayloads (w : ResponseWriter) : Nat :=
  w.countP (fun call => match call with
    | Call.EncodeError _ => true
    | _ => false)

/-- Number of success payloads encoded on a writer. -/
def successPayloads (w : ResponseWriter) : Nat :=
  w.countP (fun call => match call with
    | Call.EncodeHealth _ => true
    | _ => false)

/-- Number of `c.Close()` calls in a store log. -/
def connCloses (calls : List StoreCall) : Nat :=
  calls.countP (fun call => match call with
    | StoreCall.ConnClose _ => true
    | _ => false)

/-- Number of `rows.Close()` calls in a store log. -/
def rowsCloses (calls : List StoreCall) : Nat :=
  calls.countP (fun call => match call with
    | StoreCall.RowsClose => true
    | _ => false)

/-- Number of `lib.PgConnErr` calls of a store log that returned a connection. -/
def connOpens (x : Extern) (calls : List StoreCall) : Nat :=
  calls.countP (fun call => match call with
    | StoreCall.Connect ctx =>
      (match x.PgConnErr ctx with
      | Except.ok _ => true
      | Except.error _ => false)
    | _ => false)

/-- Number of `lib.QuerySQL` calls of a store log that returned a cursor. -/
def cursorOpens (x : Extern) (calls : List StoreCall) : Nat :=
  calls.countP (fun call => match call with
    | StoreCall.Query c ctx query =>
      (match x.QuerySQL c ctx query with
      | Except.ok _ => true
      | Except.error _ => false)
    | _ => false)

/-! ## Startup -/

/-- The slice `requiredEnv` of `checkEnv`. -/
def requiredEnv : List String := ["PG_PASS", "PG_PASS_RO", "PG_USER_RO", "PG_HOST_RO"]

/-- The loop of `checkEnv` over the names still to check. The call of
`lib.Fatalf` on an empty variable ends the process; here it is the
`Except.error` result carrying the message. -/
def checkEnvLoop (getenv : String → String) : List String → Except String Unit
  | [] => Except.ok ()
  | env :: rest =>
    if getenv env = "" then Except.error (env ++ " env variable must be set")
    else checkEnvLoop getenv rest

/-- Function `checkEnv`. -/
def checkEnv (getenv : String → String) : Except String Unit :=
  checkEnvLoop getenv requiredEnv

/-- One step of `serveAPI`, in the order of its statements. -/
inductive StartupStep where
  /-- Call `ctx.Init()`. -/
  | CtxInit
  /-- Call `lib.Printf` with the given text. -/
  | Printf (text : String)
  /-- Call `checkEnv()`. -/
  | CheckEnv
  /-- Call `readProjects(&ctx)`. -/
  | ReadProjects
  /-- Call `signal.Notify` and the start of the goroutine that waits for a signal. -/
  | SignalNotify
  /-- Call `http.HandleFunc(pattern, handleAPI)`. -/
  | HandleFunc (pattern : String)
  /-- Call `http.ListenAndServe(addr, nil)`. -/
  | ListenAndServe (addr : String)
  deriving DecidableEq, Repr

/-- What `serveAPI` has done when the process either has ended on a fatal error
or listens for requests. -/
structure Startup where
  /-- The steps begun, oldest first. -/
  steps : List StartupStep
  /-- The message of the fatal error that ended the process, if any. -/
  fatal : Option String
  /-- The registry left in `gNameToDB`, once `readProjects` has returned. -/
  gNameToDB : Option Registry
  deriving DecidableEq, Repr

/-- Function `serveAPI`, up to the call of `http.ListenAndServe`. -/
def serveAPI (x : Extern) : Startup :=
  match Ctx.Init x with
  | Except.error msg => { steps := [StartupStep.CtxInit], fatal := some msg, gNameToDB := none }
  | Except.ok ctx =>
    let begun := [StartupStep.CtxInit, StartupStep.Printf "Starting API serve\n",
      StartupStep.CheckEnv]
    match checkEnv x.Getenv with
    | Except.error msg => { steps := begun, fatal := some msg, gNameToDB := none }
    | Except.ok _ =>
      match readProjects x ctx with
      | Except.error msg =>
        { steps := begun ++ [StartupStep.ReadProjects], fatal := some msg, gNameToDB := none }
      | Except.ok g =>
        { steps := begun ++ [StartupStep.ReadProjects, StartupStep.SignalNotify,
            StartupStep.HandleFunc "/api/v1", StartupStep.ListenAndServe "0.0.0.0:8080"]
          fatal := none
          gNameToDB := some g }

/-! ## The same request path with the package variables threaded through -/

/-- The package-level variables of `cmd/api`: the registry `gNameToDB` and the
lock `gMtx`, by the number of read locks held on it. -/
structure Globals where
  gNameToDB : Registry
  gMtxReaders : Nat
  deriving DecidableEq, Repr

namespace Threaded

/-- Function `nameToDB` on the package variables: read lock, lookup, read unlock. -/
def nameToDB (name : String) (G : Globals) : (String × Option String) × Globals :=
  let G1 : Globals := { G with gMtxReaders := G.gMtxReaders + 1 }
  let found := mapIndex G1.gNameToDB name
  let G2 : Globals := { G1 with gMtxReaders := G1.gMtxReaders - 1 }
  match found with
  | some db => ((db, none), G2)
  | none => (("", some ("database not found for project '" ++ name ++ "'")), G2)

/-- Function `handleSharedPayload` on the package variables. -/
def handleSharedPayload (x : Extern) (apiName : String) (w : ResponseWriter)
    (payload : Payload) (G : Globals) : (ResponseWriter × String × String × Bool) × Globals :=
  if payload.len = 0 then
    ((returnError w ("API '" ++ apiName ++ "' 'payload' section empty or missing"),
      "", "", false), G)
  else
    match payload.index "project" with
    | none =>
      ((returnError w ("API '" ++ apiName ++ "' missing 'project' field in 'payload' section"),
        "", "", false), G)
    | some iproject =>
      match iproject.assertString with
      | none =>
        ((returnError w ("API '" ++ apiName ++ "' 'payload' 'project' field '"
          ++ x.fmtValue iproject ++ "' is not a string"), "", "", false), G)
      | some project =>
        match nameToDB project G with
        | ((db, some err), G1) => ((returnError w err, project, db, false), G1)
        | ((db, none), G1) => ((w, project, db, true), G1)

/-- Function `apiDevActCntRepoGrp` on the package variables. -/
def apiDevActCntRepoGrp (x : Extern) (visit : List String) (w : ResponseWriter)
    (payload : Payload) (G : Globals) : (ResponseWriter × List Printed) × Globals :=
  let apiName := x.DevActCntRepoGrp
  match handleSharedPayload x apiName w payload G with
  | ((w1, _, _, false), G1) => ((w1, []), G1)
  | ((w1, project, db, true), G1) =>
    let params := paramNames.map (fun name => (name, ""))
    match paramsLoop x apiName payload visit w1 params with
    | (w2, none) => ((w2, []), G1)
    | (w2, some params) => ((w2, [{ project := project, db := db, params := params }]), G1)

/-- Function `apiHealth` on the package variables. -/
def apiHealth (x : Extern) (w : ResponseWriter) (payload : Payload) (G : Globals) :
    (ResponseWriter × List StoreCall × Option String) × Globals :=
  let apiName := x.Health
  match handleSharedPayload x apiName w payload G with
  | ((w1, _, _, false), G1) => ((w1, [], none), G1)
  | ((w1, project, db, true), G1) =>
    match Ctx.Init x with
    | Except.error fatal => ((w1, [], some fatal), G1)
    | Except.ok ctx0 =>
      let ctx : Ctx :=
        { ctx0 with
          PgHost := x.Getenv "PG_HOST_RO"
          PgUser := x.Getenv "PG_USER_RO"
          PgPass := x.Getenv "PG_PASS_RO"
          PgDB := db }
      match x.PgConnErr ctx with
      | Except.error err => ((returnError w1 err, [StoreCall.Connect ctx], none), G1)
      | Except.ok c =>
        match x.QuerySQL c ctx healthQuery with
        | Except.error err =>
          ((returnError w1 err,
            [StoreCall.Connect ctx, StoreCall.Query c ctx healthQuery, StoreCall.ConnClose c],
            none), G1)
        | Except.ok rows =>
          let calls := [StoreCall.Connect ctx, StoreCall.Query c ctx healthQuery,
            StoreCall.RowsClose, StoreCall.ConnClose c]
          match scanLoop rows.scans 0 with
          | Except.error err => ((returnError w1 err, calls, none), G1)
          | Except.ok events =>
            match rows.err with
            | some err => ((returnError w1 err, calls, none), G1)
            | none =>
              let hpl : healthPayload := { Project := project, DB := db, Events := events }
              ((w1 ++ [Call.WriteHeader StatusOK, Call.EncodeHealth hpl], calls, none), G1)

/-- Function `handleAPI` on the package variables. -/
def handleAPI (x : Extern) (visit : List String) (w : ResponseWriter) (req : Request)
    (G : Globals) : Outcome × Globals :=
  let w0 := w ++ [Call.HeaderSet "Content-Type" "application/json"]
  match x.Decode req.Body with
  | Except.error err =>
    ({ w := returnError w0 err, handler := none, store := [], printed := [], fatal := none }, G)
  | Except.ok pl =>
    if pl.API = x.Health then
      let r := apiHealth x w0 pl.Payload G
      ({ w := r.1.1, handler := some Handler.apiHealth, store := r.1.2.1, printed := [],
         fatal := r.1.2.2 }, r.2)
    else if pl.API = x.DevActCntRepoGrp then
      let r := apiDevActCntRepoGrp x visit w0 pl.Payload G
      ({ w := r.1.1, handler := some Handler.apiDevActCntRepoGrp, store := [],
         printed := r.1.2, fatal := none }, r.2)
    else
      ({ w := returnError w0 ("unknown API '" ++ pl.API ++ "'"),
         handler := none, store := [], printed := [], fatal := none }, G)

end Threaded

/-! ## String lists and string sets (`map.go`) -/

/-- Function `SkipEmpty`: the one-element array holding only the empty string
becomes the empty array, every other array is returned as it is. -/
def SkipEmpty (arr : List String) : List String :=
  if arr.length ≠ 1 ∨ (arr.length = 1 ∧ arr.head? ≠ some "") then arr else []

/-- The `for index, str := range strArr` loop of `StringsMapToArray`: the
assignments `outArr[index] = f(str)` from `index` on. -/
def StringsMapToArrayLoop (f : String → String) :
    List String → Nat → List String → List String
  | [], _, outArr => outArr
  | str :: rest, index, outArr =>
    StringsMapToArrayLoop f rest (index + 1) (outArr.set index (f str))

/-- Function `StringsMapToArray`. -/
def StringsMapToArray (f : String → String) (strArr : List String) : List String :=
  let strArr := SkipEmpty strArr
  let outArr := List.replicate strArr.length ""
  StringsMapToArrayLoop f strArr 0 outArr

/-- The `for _, str := range strArr` loop of `StringsMapToSet`: the assignments
`outSet[f(str)] = struct{}{}`. -/
def StringsMapToSetLoop (f : String → String) :
    List String → List (String × Unit) → List (String × Unit)
  | [], outSet => outSet
  | str :: rest, outSet => StringsMapToSetLoop f rest (mapAssign outSet (f str) ())

/-- Function `StringsMapToSet`; a `map[string]struct{}` is the list of its entries. -/
def StringsMapToSet (f : String → String) (strArr : List String) : List (String × Unit) :=
  let strArr := SkipEmpty strArr
  StringsMapToSetLoop f strArr []

/-- Function `sort.Strings` of the standard library: the strings in increasing
order. Go compares strings byte by byte, which on UTF-8 text is the order by
characters used here. -/
def sortStrings (a : List String) : List String :=
  a.insertionSort (fun s t => s ≤ t)

/-- The `for key := range set` loop of `StringsSetKeys`: the assignments
`outArr[index] = key` with `index++`, over the entries in visiting order. -/
def StringsSetKeysLoop : List (String × Unit) → Nat → List String → List String
  | [], _, outArr => outArr
  | entry :: rest, index, outArr =>
    StringsSetKeysLoop rest (index + 1) (outArr.set index entry.1)

/-- Function `StringsSetKeys`. The entries of `set` have distinct keys, as those
of a Go map have, so that every index the loop assigns is below `len(set)`. -/
def StringsSetKeys (set : List (String × Unit)) : List String :=
  let outArr := List.replicate (mapLen set) ""
  sortStrings (StringsSetKeysLoop set 0 outArr)

/-! ## Two more sections of `Ctx.Init`: the project overrides and the forced periods -/

/-- Slice expression `s[lo:]`; `none` is the run-time panic of a bound out of
range. The expression is used with `lo = 1` only, where the bound is in range
exactly for a non-empty string, counted in bytes or in characters alike. -/
def sliceFrom (s : String) (lo : Nat) : Option String :=
  if lo ≤ s.length then some (String.mk (s.data.drop lo)) else none

/-- Slice expression `s[:hi]`; `none` is the run-time panic of a bound out of range. -/
def sliceTo (s : String) (hi : Nat) : Option String :=
  if hi ≤ s.length then some (String.mk (s.data.take hi)) else none

/-- One turn of the loop over the items of `GHA2DB_PROJECTS_OVERRIDE`; `none` is
a slicing panic. An item whose first character is not one byte long is neither
`-` nor `+` in its first byte, and is passed over in bytes as it is here. -/
def overrideStep (m : List (String × Bool)) (override : String) :
    Option (List (String × Bool)) :=
  if override = "" then some m
  else
    match sliceFrom override 1 with
    | none => none
    | some project =>
      if project = "" then some m
      else
        match sliceTo override 1 with
        | none => none
        | some mode =>
          if mode = "-" then some (mapAssign m project false)
          else if mode = "+" then some (mapAssign m project true)
          else some m

/-- The `for _, override := range ary` loop of the section `Projects sync override`. -/
def overrideLoop : List String → List (String × Bool) → Option (List (String × Bool))
  | [], m => some m
  | override :: rest, m =>
    match overrideStep m override with
    | none => none
    | some m1 => overrideLoop rest m1

/-- The section `Projects sync override` of `Ctx.Init`: the map left in
`ctx.ProjectsOverride`, which no other statement of `Init` assigns; `none` is a
slicing panic. -/
def initProjectsOverride (getenv : String → String) : Option (List (String × Bool)) :=
  let overrides := getenv "GHA2DB_PROJECTS_OVERRIDE"
  if overrides ≠ "" then overrideLoop (stringsSplit overrides ',') []
  else some []

/-- The reading of the override list in words: the mode of `name` is given by the
last item that is `-name` (never sync, `false`) or `+name` (always sync, `true`);
there is none when no item is one of the two. -/
def lastOverrideOf (name : String) : List String → Option Bool
  | [] => none
  | item :: rest =>
    match lastOverrideOf name rest with
    | some mode => some mode
    | none =>
      if item = "-" ++ name then some false
      else if item = "+" ++ name then some true
      else none

/-- Function `unicode.IsSpace` of the standard library: the white space characters. -/
def isSpace (c : Char) : Bool :=
  let n := c.toNat
  (9 ≤ n && n ≤ 13) || n == 32 || n == 133 || n == 160 || n == 5760 ||
    (8192 ≤ n && n ≤ 8202) || n == 8232 || n == 8233 || n == 8239 || n == 8287 || n == 12288

/-- Function `strings.TrimSpace` of the standard library: the string without its
leading and trailing white space. -/
def TrimSpace (s : String) : String :=
  String.mk (((s.data.dropWhile isSpace).reverse.dropWhile isSpace).reverse)

/-- Assignment `set[b] = struct{}{}` on a `map[bool]struct{}`, which is the list of its keys. -/
def boolSetInsert (set : List Bool) (b : Bool) : List Bool :=
  if b ∈ set then set else set ++ [b]

/-- One turn of the loop over the items of `GHA2DB_FORCE_PERIODS`, on the value
of `ctx.ComputePeriods`; `none` is the nil map. -/
def periodsStep (cp : Option (List (String × List Bool))) (data : String) :
    Option (List (String × List Bool)) :=
  match stringsSplit data ':' with
  | [period, second] =>
    let shist := TrimSpace second
    if shist ≠ "t" ∧ shist ≠ "f" then cp
    else
      let hist := decide (shist = "t")
      let made : List (String × List Bool) :=
        match cp with
        | none => []
        | some m => m
      let keyed :=
        match mapIndex made period with
        | none => mapAssign made period []
        | some _ => made
      let inner :=
        match mapIndex keyed period with
        | none => []
        | some set => set
      some (mapAssign keyed period (boolSetInsert inner hist))
  | _ => cp

/-- The `for _, data := range ary` loop of the section `Force compute periods`. -/
def periodsLoop : List String → Option (List (String × List Bool)) →
    Option (List (String × List Bool))
  | [], cp => cp
  | data :: rest, cp => periodsLoop rest (periodsStep cp data)

/-- The section `Force compute periods` of `Ctx.Init`: the value left in
`ctx.ComputePeriods`, which no other statement of `Init` assigns, from the value
`cp` it has before (nil in a fresh context). -/
def initComputePeriods (getenv : String → String) (cp : Option (List (String × List Bool))) :
    Option (List (String × List Bool)) :=
  let periods := getenv "GHA2DB_FORCE_PERIODS"
  if periods ≠ "" then periodsLoop (stringsSplit periods ',') cp
  else cp

/-- Membership of the flag `b` in the set `ComputePeriods[period]`. -/
def computePeriodsHas (cp : Option (List (String × List Bool))) (period : String) (b : Bool) :
    Bool :=
  match cp with
  | none => false
  | some m =>
    match mapIndex m period with
    | none => false
    | some set => decide (b ∈ set)

/-- The reading of one item of the period list in words: an item that splits on
`:` into exactly two parts, the second of which is `t` or `f` once trimmed of
white space, names the first part as period with the flag `true` for `t` and
`false` for `f`; any other item names nothing. -/
def forcedPeriodOf (item : String) : Option (String × Bool) :=
  match stringsSplit item ':' with
  | [period, flag] =>
    if TrimSpace flag = "t" then some (period, true)
    else if TrimSpace flag = "f" then some (period, false)
    else none
  | _ => none

/-! ## Sample inputs -/

/-- A collaborator set for the examples: the projects file parses to `projects`,
every request body decodes to `pl`, the store connects and answers every query
with the cursor `rows`, no file of OAuth tokens exists and the parsers accept
what they are given. Values are rendered as `fmt` renders `nil` and booleans. -/
def sampleExtern (projects : List (String × Project)) (pl : apiPayload) (rows : Rows) : Extern :=
  { Health := "health"
    DevActCntRepoGrp := "dev_act_cnt_repo_grp"
    fmtValue := fun v =>
      match v with
      | Value.null => "<nil>"
      | Value.bool true => "true"
      | Value.bool false => "false"
      | _ => "?"
    Getenv := fun _ => ""
    ReadFile := fun _ => Except.ok ""
    Unmarshal := fun _ => Except.ok { Projects := projects }
    Decode := fun _ => Except.ok pl
    PgConnErr := fun _ => Except.ok 1
    QuerySQL := fun _ _ _ => Except.ok rows
    Stat := fun _ => StatResult.notExist
    TimeParseAny := fun _ => none
    ParseDuration := fun _ => none
    ParseFloat := fun _ => none
    MustCompile := fun _ => none }

/-- An envelope with no operation and no payload. -/
def emptyEnvelope : apiPayload := { API := "", Payload := none }

/-- A cursor with no row and no error. -/
def emptyRows : Rows := { scans := [], err := none }

/-- The project list of the registry scenario: `kubernetes` on `db1`, and the disabled `legacy` on `db2`. -/
def scenarioProjects : List (String × Project) :=
  [("kubernetes", { FullName := "Kubernetes", PDB := "db1", Disabled := false }),
   ("legacy", { FullName := "Legacy", PDB := "db2", Disabled := true })]

/-- Two enabled projects that carry the same full name, on different databases. -/
def sharedNameProjects : List (String × Project) :=
  [("k8s", { FullName := "Kubernetes", PDB := "db_a", Disabled := false }),
   ("kubernetes", { FullName := "Kubernetes", PDB := "db_b", Disabled := false })]

/-- A disabled project whose full name is also that of an enabled project. -/
def retiredNameProjects : List (String × Project) :=
  [("kubernetes", { FullName := "Kubernetes", PDB := "db1", Disabled := false }),
   ("legacy", { FullName := "Kubernetes", PDB := "db2", Disabled := true })]

/-- The context of a process started with an empty environment. -/
def sampleCtx : Ctx := Ctx.initFields (fun _ => "")

/-- An environment in which only `GHA2DB_HTTP_TIMEOUT` is set, to a value that is
not an integer. -/
def malformedTimeoutEnv (name : String) : String :=
  if name = "GHA2DB_HTTP_TIMEOUT" then "abc" else ""

/-- The health request of the scenario: project `kubernetes`. -/
def healthEnvelope : apiPayload :=
  { API := "health", Payload := some [("project", Value.str "kubernetes")] }

/-- A developer-activity request with the project and all five parameters given as strings. -/
def devActivityEnvelope : apiPayload :=
  { API := "dev_act_cnt_repo_grp"
    Payload := some [("project", Value.str "kubernetes"), ("range", Value.str "y"),
      ("metric", Value.str "commits"), ("repository_group", Value.str "all"),
      ("country", Value.str "pl"), ("github_id", Value.str "")] }

/-- The cursor of a count query on a table of `n` rows: one row, no error. -/
def countRows (n : Int) : Rows := { scans := [Except.ok n], err := none }

/-- The registry of the scenario. -/
def scenarioRegistry : Registry := [("kubernetes", "db1"), ("Kubernetes", "db1")]

/-- An environment with the read-only and the write credentials all set, to different values. -/
def credentialsEnv (name : String) : String :=
  if name = "PG_HOST_RO" then "replica"
  else if name = "PG_USER_RO" then "ro_user"
  else if name = "PG_PASS_RO" then "ro_pass"
  else if name = "PG_USER" then "gha_admin"
  else if name = "PG_PASS" then "admin_pass"
  else ""

/-- A developer-activity payload in which `range` is `null` and `country` is absent. -/
def twoInvalidPayload : Payload :=
  some [("project", Value.str "kubernetes"), ("range", Value.null),
    ("metric", Value.str "commits"), ("repository_group", Value.str "all"),
    ("github_id", Value.str "")]

/-- A sample function for the string maps: the string without its leading and trailing blanks. -/
def trimSpaces (s : String) : String :=
  String.mk (((s.data.dropWhile (fun c => c == ' ')).reverse.dropWhile
    (fun c => c == ' ')).reverse)

/-! ## Lemmas on maps and on the registry loop -/

theorem mapIndex_mapAssign {α : Type} (m : List (String × α)) (k k' : String) (v : α) :
    mapIndex (mapAssign m k v) k' = if k = k' then some v else mapIndex m k' := by
  induction m with
  | nil => simp [mapAssign, mapIndex]
  | cons e rest ih =>
    obtain ⟨k0, v0⟩ := e
    by_cases h0 : k0 = k
    · subst h0
      by_cases h1 : k0 = k' <;> simp [mapAssign, mapIndex, h1]
    · by_cases h1 : k0 = k'
      · subst h1
        have h2 : ¬ k = k0 := fun h => h0 h.symm
        simp [mapAssign, mapIndex, h0, h2]
      · simp [mapAssign, mapIndex, h0, h1, ih]

theorem mapIndex_readProjectsStep (g : Registry) (e : String × Project) (k : String) :
    mapIndex (readProjectsStep g e) k =
      if e.2.Disabled = true then mapIndex g k
      else if e.2.FullName = k then some e.2.PDB
      else if e.1 = k then some e.2.PDB
      else mapIndex g k := by
  unfold readProjectsStep
  by_cases hd : e.2.Disabled = true
  · simp [hd]
  · simp [hd, mapIndex_mapAssign]

/-- Whatever the loop leaves under a key was there before or is the `PDB` of a
non-disabled project of the list that has the key as a name. -/
theorem mapIndex_foldl_some (ps : List (String × Project)) (g : Registry) (k db : String)
    (h : mapIndex (ps.foldl readProjectsStep g) k = some db) :
    mapIndex g k = some db ∨
      ∃ e ∈ ps, e.2.Disabled = false ∧ (k = e.1 ∨ k = e.2.FullName) ∧ e.2.PDB = db := by
  induction ps generalizing g with
  | nil => exact Or.inl h
  | cons e rest ih =>
    rw [List.foldl_cons] at h
    rcases ih _ h with h1 | ⟨e', he', hrest⟩
    · rw [mapIndex_readProjectsStep] at h1
      by_cases hd : e.2.Disabled = true
      · rw [if_pos hd] at h1
        exact Or.inl h1
      · rw [if_neg hd] at h1
        have hdf : e.2.Disabled = false := by simpa using hd
        by_cases hf : e.2.FullName = k
        · rw [if_pos hf] at h1
          exact Or.inr ⟨e, List.mem_cons_self _ _, hdf, Or.inr hf.symm, Option.some.inj h1⟩
        · rw [if_neg hf] at h1
          by_cases hn : e.1 = k
          · rw [if_pos hn] at h1
            exact Or.inr ⟨e, List.mem_cons_self _ _, hdf, Or.inl hn.symm, Option.some.inj h1⟩
          · rw [if_neg hn] at h1
            exact Or.inl h1
    · exact Or.inr ⟨e', List.mem_cons_of_mem _ he', hrest⟩

/-- A key present before the loop, or a name of a non-disabled project of the
list, is present after the loop. -/
theorem mapIndex_foldl_isSome (ps : List (String × Project)) (g : Registry) (k : String)
    (h : (mapIndex g k).isSome = true ∨
      ∃ e ∈ ps, e.2.Disabled = false ∧ (k = e.1 ∨ k = e.2.FullName)) :
    (mapIndex (ps.foldl readProjectsStep g) k).isSome = true := by
  induction ps generalizing g with
  | nil =>
    rcases h with h | ⟨e, he, _⟩
    · exact h
    · cases he
  | cons e rest ih =>
    rw [List.foldl_cons]
    apply ih
    rcases h with h | ⟨e', he', hd, hk⟩
    · left
      rw [mapIndex_readProjectsStep]
      split_ifs <;> simp [h]
    · rcases List.mem_cons.mp he' with rfl | hmem
      · left
        rw [mapIndex_readProjectsStep]
        rcases hk with hk | hk
        · subst hk
          simp [hd]
        · subst hk
          simp [hd]
      · exact Or.inr ⟨e', hmem, hd, hk⟩

theorem readProjects_of_file (x : Extern) (ctx : Ctx) (projects : AllProjects)
    (hload : readProjectsFile x ctx = Except.ok projects) :
    readProjects x ctx = Except.ok (projects.Projects.foldl readProjectsStep []) := by
  simp [readProjects, hload]

theorem nameToDB_of_some (g : Registry) (k db : String) (h : mapIndex g k = some db) :
    nameToDB g k = (db, none) := by
  simp [nameToDB, h]

theorem nameToDB_of_none (g : Registry) (k : String) (h : mapIndex g k = none) :
    nameToDB g k = ("", some ("database not found for project '" ++ k ++ "'")) := by
  simp [nameToDB, h]

/-! ## The registry built at startup -/

/-- C1 (amended): when the projects file loads to a project list, `readProjects`
builds a registry in which the short name and the full name of every
non-disabled project resolve without error, to the `PDB` of a non-disabled
project of the list that has the key as its short or full name; this is the
project's own `PDB` whenever all non-disabled projects that have the key as a
name agree on the `PDB`. -/
theorem readProjects_enabled_names_resolve (x : Extern) (ctx : Ctx) (projects : AllProjects)
    (hload : readProjectsFile x ctx = Except.ok projects) :
    ∃ g, readProjects x ctx = Except.ok g ∧
      ∀ p ∈ projects.Projects, p.2.Disabled = false →
        ∀ k : String, (k = p.1 ∨ k = p.2.FullName) →
          (∃ e ∈ projects.Projects, e.2.Disabled = false ∧ (k = e.1 ∨ k = e.2.FullName) ∧
            nameToDB g k = (e.2.PDB, none)) ∧
          ((∀ e ∈ projects.Projects, e.2.Disabled = false → (k = e.1 ∨ k = e.2.FullName) →
              e.2.PDB = p.2.PDB) →
            nameToDB g k = (p.2.PDB, none)) := by
  refine ⟨_, readProjects_of_file x ctx projects hload, ?_⟩
  intro p hmem hen k hk
  have hsome : (mapIndex (projects.Projects.foldl readProjectsStep []) k).isSome = true :=
    mapIndex_foldl_isSome _ _ _ (Or.inr ⟨p, hmem, hen, hk⟩)
  obtain ⟨db, hdb⟩ := Option.isSome_iff_exists.mp hsome
  have hsrc := mapIndex_foldl_some _ _ _ _ hdb
  rcases hsrc with h0 | ⟨e, he, hd, hname, hpdb⟩
  · simp [mapIndex] at h0
  · constructor
    · exact ⟨e, he, hd, hname, by rw [hpdb]; exact nameToDB_of_some _ _ _ hdb⟩
    · intro hagree
      rw [← hagree e he hd hname, hpdb]
      exact nameToDB_of_some _ _ _ hdb

/-- Witness of C1 (amended): the scenario list loads and the theorem gives its
registry; in it both names of `kubernetes` resolve to `db1`. -/
theorem readProjects_enabled_names_resolve_witness :
    (readProjectsFile (sampleExtern scenarioProjects emptyEnvelope emptyRows) sampleCtx
        = Except.ok { Projects := scenarioProjects } ∧
    ∃ g, readProjects (sampleExtern scenarioProjects emptyEnvelope emptyRows) sampleCtx
        = Except.ok g ∧
      ∀ p ∈ scenarioProjects, p.2.Disabled = false →
        ∀ k : String, (k = p.1 ∨ k = p.2.FullName) →
          (∃ e ∈ scenarioProjects, e.2.Disabled = false ∧ (k = e.1 ∨ k = e.2.FullName) ∧
            nameToDB g k = (e.2.PDB, none)) ∧
          ((∀ e ∈ scenarioProjects, e.2.Disabled = false → (k = e.1 ∨ k = e.2.FullName) →
              e.2.PDB = p.2.PDB) →
            nameToDB g k = (p.2.PDB, none))) ∧
    (∃ g, readProjects (sampleExtern scenarioProjects emptyEnvelope emptyRows) sampleCtx
        = Except.ok g ∧
      nameToDB g "kubernetes" = ("db1", none) ∧ nameToDB g "Kubernetes" = ("db1", none)) :=
  ⟨⟨rfl, readProjects_enabled_names_resolve
      (sampleExtern scenarioProjects emptyEnvelope emptyRows) sampleCtx
      { Projects := scenarioProjects } rfl⟩,
    ⟨_, rfl, by decide, by decide⟩⟩

/-- C1 fails as stated: two enabled projects share the full name `Kubernetes`;
in either visiting order the registry is built, and the full name of the
project visited first resolves to the database of the other project. -/
theorem readProjects_shared_name_counterexample :
    (∃ g, readProjects (sampleExtern sharedNameProjects emptyEnvelope emptyRows) sampleCtx
        = Except.ok g ∧
      ("k8s", ({ FullName := "Kubernetes", PDB := "db_a", Disabled := false } : Project))
        ∈ sharedNameProjects ∧
      nameToDB g "Kubernetes" = ("db_b", none)) ∧
    (∃ g, readProjects (sampleExtern sharedNameProjects.reverse emptyEnvelope emptyRows) sampleCtx
        = Except.ok g ∧
      ("kubernetes", ({ FullName := "Kubernetes", PDB := "db_b", Disabled := false } : Project))
        ∈ sharedNameProjects.reverse ∧
      nameToDB g "Kubernetes" = ("db_a", none)) :=
  ⟨⟨_, rfl, by decide, by decide⟩, ⟨_, rfl, by decide, by decide⟩⟩

/-- A key that no non-disabled project of the list has as a name is absent from the registry. -/
theorem mapIndex_foldl_none (ps : List (String × Project)) (k : String)
    (hfree : ∀ e ∈ ps, e.2.Disabled = false → ¬ (k = e.1 ∨ k = e.2.FullName)) :
    mapIndex (ps.foldl readProjectsStep []) k = none := by
  cases hidx : mapIndex (ps.foldl readProjectsStep []) k with
  | none => rfl
  | some db =>
    rcases mapIndex_foldl_some ps [] k db hidx with h0 | ⟨e, he, hd, hname, _⟩
    · simp [mapIndex] at h0
    · exact absurd hname (hfree e he hd)

/-- C2 (amended): when the projects file loads to a project list, `readProjects`
builds a registry in which, for every disabled project of the list, a key that
is its short name or its full name is not found exactly when no non-disabled
project of the list has that key as its short or full name. -/
theorem readProjects_disabled_names_unresolved (x : Extern) (ctx : Ctx) (projects : AllProjects)
    (hload : readProjectsFile x ctx = Except.ok projects) :
    ∃ g, readProjects x ctx = Except.ok g ∧
      ∀ p ∈ projects.Projects, p.2.Disabled = true →
        ∀ k : String, (k = p.1 ∨ k = p.2.FullName) →
          (nameToDB g k = ("", some ("database not found for project '" ++ k ++ "'")) ↔
            ∀ e ∈ projects.Projects, e.2.Disabled = false →
              ¬ (k = e.1 ∨ k = e.2.FullName)) := by
  refine ⟨_, readProjects_of_file x ctx projects hload, ?_⟩
  intro p _ _ k _
  constructor
  · intro hfail e he hd hname
    have hsome : (mapIndex (projects.Projects.foldl readProjectsStep []) k).isSome = true :=
      mapIndex_foldl_isSome _ _ _ (Or.inr ⟨e, he, hd, hname⟩)
    obtain ⟨db, hdb⟩ := Option.isSome_iff_exists.mp hsome
    rw [nameToDB_of_some _ _ _ hdb] at hfail
    simp at hfail
  · intro hfree
    exact nameToDB_of_none _ _ (mapIndex_foldl_none _ _ hfree)

/-- Witness of C2 (amended): the scenario list loads and the theorem gives its
registry; in it neither name of the disabled `legacy` is found. -/
theorem readProjects_disabled_names_unresolved_witness :
    (readProjectsFile (sampleExtern scenarioProjects emptyEnvelope emptyRows) sampleCtx
        = Except.ok { Projects := scenarioProjects } ∧
    ∃ g, readProjects (sampleExtern scenarioProjects emptyEnvelope emptyRows) sampleCtx
        = Except.ok g ∧
      ∀ p ∈ scenarioProjects, p.2.Disabled = true →
        ∀ k : String, (k = p.1 ∨ k = p.2.FullName) →
          (nameToDB g k = ("", some ("database not found for project '" ++ k ++ "'")) ↔
            ∀ e ∈ scenarioProjects, e.2.Disabled = false →
              ¬ (k = e.1 ∨ k = e.2.FullName))) ∧
    (∃ g, readProjects (sampleExtern scenarioProjects emptyEnvelope emptyRows) sampleCtx
        = Except.ok g ∧
      nameToDB g "legacy" = ("", some "database not found for project 'legacy'") ∧
      nameToDB g "Legacy" = ("", some "database not found for project 'Legacy'")) :=
  ⟨⟨rfl, readProjects_disabled_names_unresolved
      (sampleExtern scenarioProjects emptyEnvelope emptyRows) sampleCtx
      { Projects := scenarioProjects } rfl⟩,
    ⟨_, rfl, by decide, by decide⟩⟩

/-- C2 fails as stated: the disabled project `legacy` has the full name of the
enabled project `kubernetes`; in either visiting order the registry is built
and that full name of `legacy` resolves, to `db1`, without error. -/
theorem readProjects_retired_name_counterexample :
    (∃ g, readProjects (sampleExtern retiredNameProjects emptyEnvelope emptyRows) sampleCtx
        = Except.ok g ∧
      ("legacy", ({ FullName := "Kubernetes", PDB := "db2", Disabled := true } : Project))
        ∈ retiredNameProjects ∧
      nameToDB g "Kubernetes" = ("db1", none)) ∧
    (∃ g, readProjects (sampleExtern retiredNameProjects.reverse emptyEnvelope emptyRows) sampleCtx
        = Except.ok g ∧
      ("legacy", ({ FullName := "Kubernetes", PDB := "db2", Disabled := true } : Project))
        ∈ retiredNameProjects.reverse ∧
      nameToDB g "Kubernetes" = ("db1", none)) :=
  ⟨⟨_, rfl, by decide, by decide⟩, ⟨_, rfl, by decide, by decide⟩⟩

/-- C3: when the projects file loads to a project list, `readProjects` builds a
registry over which, for every key, `nameToDB` succeeds exactly when the key is
the short name or the full name of some non-disabled project of the list; on
every other key it returns the empty database name and the error
`database not found for project '<key>'`. -/
theorem nameToDB_succeeds_iff_enabled_name (x : Extern) (ctx : Ctx) (projects : AllProjects)
    (hload : readProjectsFile x ctx = Except.ok projects) :
    ∃ g, readProjects x ctx = Except.ok g ∧
      ∀ k : String,
        ((nameToDB g k).2 = none ↔
          ∃ e ∈ projects.Projects, e.2.Disabled = false ∧ (k = e.1 ∨ k = e.2.FullName)) ∧
        ((¬ ∃ e ∈ projects.Projects, e.2.Disabled = false ∧ (k = e.1 ∨ k = e.2.FullName)) →
          nameToDB g k = ("", some ("database not found for project '" ++ k ++ "'"))) := by
  refine ⟨_, readProjects_of_file x ctx projects hload, ?_⟩
  intro k
  refine ⟨?_, ?_⟩
  · constructor
    · intro hok
      cases hidx : mapIndex (projects.Projects.foldl readProjectsStep []) k with
      | none =>
        rw [nameToDB_of_none _ _ hidx] at hok
        simp at hok
      | some db =>
        rcases mapIndex_foldl_some _ _ _ _ hidx with h0 | ⟨e, he, hd, hname, _⟩
        · simp [mapIndex] at h0
        · exact ⟨e, he, hd, hname⟩
    · rintro ⟨e, he, hd, hname⟩
      have hsome : (mapIndex (projects.Projects.foldl readProjectsStep []) k).isSome = true :=
        mapIndex_foldl_isSome _ _ _ (Or.inr ⟨e, he, hd, hname⟩)
      obtain ⟨db, hdb⟩ := Option.isSome_iff_exists.mp hsome
      rw [nameToDB_of_some _ _ _ hdb]
  · intro hno
    apply nameToDB_of_none
    apply mapIndex_foldl_none
    intro e he hd hname
    exact hno ⟨e, he, hd, hname⟩

/-- Witness of C3: the registry scenario. The list with `kubernetes` on `db1` and
the disabled `legacy` on `db2` loads and the theorem gives its registry; in it
the key `kubernetes` resolves to `db1`, and the keys `legacy` and `unknown` are
not found. -/
theorem nameToDB_succeeds_iff_enabled_name_witness :
    (readProjectsFile (sampleExtern scenarioProjects emptyEnvelope emptyRows) sampleCtx
        = Except.ok { Projects := scenarioProjects } ∧
      ∃ g, readProjects (sampleExtern scenarioProjects emptyEnvelope emptyRows) sampleCtx
          = Except.ok g ∧
        ∀ k : String,
          ((nameToDB g k).2 = none ↔
            ∃ e ∈ scenarioProjects, e.2.Disabled = false ∧ (k = e.1 ∨ k = e.2.FullName)) ∧
          ((¬ ∃ e ∈ scenarioProjects, e.2.Disabled = false ∧ (k = e.1 ∨ k = e.2.FullName)) →
            nameToDB g k = ("", some ("database not found for project '" ++ k ++ "'")))) ∧
    (∃ g, readProjects (sampleExtern scenarioProjects emptyEnvelope emptyRows) sampleCtx
        = Except.ok g ∧
      nameToDB g "kubernetes" = ("db1", none) ∧
      nameToDB g "legacy" = ("", some "database not found for project 'legacy'") ∧
      nameToDB g "unknown" = ("", some "database not found for project 'unknown'")) :=
  ⟨⟨rfl, nameToDB_succeeds_iff_enabled_name
      (sampleExtern scenarioProjects emptyEnvelope emptyRows) sampleCtx
      { Projects := scenarioProjects } rfl⟩,
    ⟨_, rfl, by decide, by decide, by decide⟩⟩

/-! ## Shared payload checks: lemmas -/

theorem mapLen_eq_zero_iff {α : Type} (m : List (String × α)) : mapLen m = 0 ↔ m = [] := by
  simp [mapLen]

theorem Payload.len_eq_zero_iff (payload : Payload) :
    payload.len = 0 ↔ payload = none ∨ payload = some [] := by
  cases payload with
  | none => simp [Payload.len]
  | some m => simp [Payload.len, mapLen_eq_zero_iff]

theorem Payload.len_ne_zero_of_index (payload : Payload) (k : String) (v : Value)
    (h : payload.index k = some v) : payload.len ≠ 0 := by
  intro hlen
  rcases (Payload.len_eq_zero_iff payload).mp hlen with rfl | rfl <;>
    simp [Payload.index, mapIndex] at h

theorem Value.assertString_eq_none_iff (v : Value) :
    v.assertString = none ↔ ∀ s, v ≠ Value.str s := by
  cases v <;> simp [Value.assertString]

theorem handleSharedPayload_of_empty (x : Extern) (g : Registry) (apiName : String)
    (w : ResponseWriter) (payload : Payload) (hempty : payload = none ∨ payload = some []) :
    handleSharedPayload x g apiName w payload =
      (returnError w ("API '" ++ apiName ++ "' 'payload' section empty or missing"),
        "", "", false) := by
  have hlen : payload.len = 0 := (Payload.len_eq_zero_iff payload).mpr hempty
  simp [handleSharedPayload, hlen]

/-! ## Dispatch and shared payload checks: the contract -/

/-- C4: a request whose body decodes to an envelope naming an operation that is
neither the health nor the developer-activity identifier gets, whatever its
payload, exactly the content type, status 400 and the error payload
`unknown API '<given-name>'`; no handler is called, the store is not touched
and nothing is printed. -/
theorem handleAPI_unknown_operation (x : Extern) (g : Registry) (visit : List String)
    (w : ResponseWriter) (req : Request) (pl : apiPayload)
    (hdec : x.Decode req.Body = Except.ok pl)
    (hHealth : pl.API ≠ x.Health) (hDev : pl.API ≠ x.DevActCntRepoGrp) :
    handleAPI x g visit w req =
      { w := w ++ [Call.HeaderSet "Content-Type" "application/json",
          Call.WriteHeader 400,
          Call.EncodeError { Error := "unknown API '" ++ pl.API ++ "'" }]
        handler := none
        store := []
        printed := []
        fatal := none } := by
  simp [handleAPI, hdec, hHealth, hDev, returnError, StatusBadRequest]

/-- Witness of C4: an envelope without an `api` field, on a fresh writer. -/
theorem handleAPI_unknown_operation_witness :
    handleAPI (sampleExtern scenarioProjects emptyEnvelope emptyRows) [("kubernetes", "db1")]
        paramNames [] { Body := "" } =
      { w := [Call.HeaderSet "Content-Type" "application/json",
          Call.WriteHeader 400,
          Call.EncodeError { Error := "unknown API '" ++ "" ++ "'" }]
        handler := none
        store := []
        printed := []
        fatal := none } :=
  handleAPI_unknown_operation (sampleExtern scenarioProjects emptyEnvelope emptyRows)
    [("kubernetes", "db1")] paramNames [] { Body := "" } emptyEnvelope rfl
    (by decide) (by decide)

/-- C5: on a payload that is nil or empty, `handleSharedPayload` writes the error
`API '<operation>' 'payload' section empty or missing` and returns `passed = false`,
for every operation name; and a request for either operation of the dispatch
table with such a payload gets exactly the content type, status 400 and that
error for its operation, with no store call and nothing printed; the run is not
cut short. -/
theorem empty_payload_rejected (x : Extern) (g : Registry) (visit : List String)
    (w : ResponseWriter) (payload : Payload) (hempty : payload = none ∨ payload = some []) :
    (∀ apiName : String, handleSharedPayload x g apiName w payload =
      (w ++ [Call.WriteHeader 400, Call.EncodeError
          { Error := "API '" ++ apiName ++ "' 'payload' section empty or missing" }],
        "", "", false)) ∧
    (∀ (req : Request) (pl : apiPayload), x.Decode req.Body = Except.ok pl →
      pl.Payload = payload → (pl.API = x.Health ∨ pl.API = x.DevActCntRepoGrp) →
      (handleAPI x g visit w req).w =
          w ++ [Call.HeaderSet "Content-Type" "application/json", Call.WriteHeader 400,
            Call.EncodeError
              { Error := "API '" ++ pl.API ++ "' 'payload' section empty or missing" }] ∧
        (handleAPI x g visit w req).store = [] ∧
        (handleAPI x g visit w req).printed = [] ∧
        (handleAPI x g visit w req).fatal = none) := by
  constructor
  · intro apiName
    rw [handleSharedPayload_of_empty x g apiName w payload hempty]
    simp [returnError, StatusBadRequest]
  · intro req pl hdec hpl hop
    subst hpl
    by_cases hH : pl.API = x.Health
    · simp [handleAPI, hdec, hH, apiHealth, handleSharedPayload_of_empty x g _ _ _ hempty,
        returnError, StatusBadRequest]
    · have hD : pl.API = x.DevActCntRepoGrp := hop.resolve_left hH
      have hH2 : ¬ x.DevActCntRepoGrp = x.Health := fun h => hH (hD.trans h)
      simp [handleAPI, hdec, hD, hH2, apiDevActCntRepoGrp,
        handleSharedPayload_of_empty x g _ _ _ hempty, returnError, StatusBadRequest]

/-- Witness of C5: the nil payload, with a health request on a fresh writer. -/
theorem empty_payload_rejected_witness :
    ((none : Payload) = none ∨ (none : Payload) = some []) ∧
    (handleAPI (sampleExtern scenarioProjects { API := "health", Payload := none } emptyRows)
        [("kubernetes", "db1")] paramNames [] { Body := "" }).w =
      [Call.HeaderSet "Content-Type" "application/json", Call.WriteHeader 400,
        Call.EncodeError { Error := "API 'health' 'payload' section empty or missing" }] :=
  ⟨Or.inl rfl,
    ((empty_payload_rejected
      (sampleExtern scenarioProjects { API := "health", Payload := none } emptyRows)
      [("kubernetes", "db1")] paramNames [] none (Or.inl rfl)).2
      { Body := "" } { API := "health", Payload := none } rfl rfl (Or.inl rfl)).1⟩

/-- C6: on a non-empty payload without a `project` key, `handleSharedPayload`
writes exactly the error `API '<operation>' missing 'project' field in 'payload' section`
and returns `passed = false`, for every operation name and the same for every registry. -/
theorem handleSharedPayload_missing_project (x : Extern) (apiName : String)
    (w : ResponseWriter) (m : List (String × Value))
    (hne : m ≠ []) (hkey : mapIndex m "project" = none) :
    ∀ g : Registry, handleSharedPayload x g apiName w (some m) =
      (w ++ [Call.WriteHeader 400, Call.EncodeError
          { Error := "API '" ++ apiName ++ "' missing 'project' field in 'payload' section" }],
        "", "", false) := by
  intro g
  have hlen : ¬ Payload.len (some m) = 0 := by
    rw [Payload.len_eq_zero_iff]
    simp [hne]
  have hidx : Payload.index (some m) "project" = none := hkey
  simp [handleSharedPayload, hlen, hidx, returnError, StatusBadRequest]

/-- Witness of C6: operation `health`, a payload holding only the key `range`. -/
theorem handleSharedPayload_missing_project_witness :
    ([("range", Value.str "y")] ≠ [] ∧ mapIndex [("range", Value.str "y")] "project" = none) ∧
    handleSharedPayload (sampleExtern scenarioProjects emptyEnvelope emptyRows)
        [("kubernetes", "db1")] "health" [] (some [("range", Value.str "y")]) =
      ([Call.WriteHeader 400, Call.EncodeError
          { Error := "API 'health' missing 'project' field in 'payload' section" }],
        "", "", false) :=
  ⟨⟨by simp, rfl⟩,
    handleSharedPayload_missing_project (sampleExtern scenarioProjects emptyEnvelope emptyRows)
      "health" [] [("range", Value.str "y")] (by simp) rfl [("kubernetes", "db1")]⟩

/-- C7: on a payload whose `project` value is present but is not a string,
`handleSharedPayload` returns `passed = false` and writes the error
`API '<operation>' 'payload' 'project' field '<value>' is not a string`, where
`<value>` is the rendering of the offending value; the message contains the
operation name and that rendering. -/
theorem handleSharedPayload_project_not_string (x : Extern) (g : Registry) (apiName : String)
    (w : ResponseWriter) (payload : Payload) (v : Value)
    (hkey : payload.index "project" = some v) (hv : ∀ s : String, v ≠ Value.str s) :
    ∃ msg : String,
      msg = "API '" ++ apiName ++ "' 'payload' 'project' field '"
        ++ x.fmtValue v ++ "' is not a string" ∧
      handleSharedPayload x g apiName w payload =
        (w ++ [Call.WriteHeader 400, Call.EncodeError { Error := msg }], "", "", false) ∧
      apiName.data <:+: msg.data ∧ (x.fmtValue v).data <:+: msg.data := by
  have hlen : ¬ payload.len = 0 := Payload.len_ne_zero_of_index payload _ _ hkey
  have hassert : v.assertString = none := (Value.assertString_eq_none_iff v).mpr hv
  refine ⟨_, rfl, ?_, ?_, ?_⟩
  · simp [handleSharedPayload, hlen, hkey, hassert, returnError, StatusBadRequest]
  · exact ⟨"API '".data,
      ("' 'payload' 'project' field '" ++ x.fmtValue v ++ "' is not a string").data,
      by simp [String.data_append]⟩
  · exact ⟨("API '" ++ apiName ++ "' 'payload' 'project' field '").data,
      "' is not a string".data, by simp [String.data_append]⟩

/-- Witness of C7: operation `health`, the project given as the boolean `true`. -/
theorem handleSharedPayload_project_not_string_witness :
    ∃ msg : String,
      msg = "API '" ++ "health" ++ "' 'payload' 'project' field '" ++ "true"
        ++ "' is not a string" ∧
      handleSharedPayload (sampleExtern scenarioProjects emptyEnvelope emptyRows)
          [("kubernetes", "db1")] "health" [] (some [("project", Value.bool true)]) =
        ([Call.WriteHeader 400, Call.EncodeError { Error := msg }], "", "", false) ∧
      "health".data <:+: msg.data ∧ "true".data <:+: msg.data :=
  handleSharedPayload_project_not_string (sampleExtern scenarioProjects emptyEnvelope emptyRows)
    [("kubernetes", "db1")] "health" [] (some [("project", Value.bool true)]) (Value.bool true)
    rfl (fun _ h => Value.noConfusion h)

/-- C8: on a payload whose `project` value is a string that is not a key of the
registry, `handleSharedPayload` returns `passed = false` (with the project name
and an empty database name) and writes exactly the error
`database not found for project '<p>'`. -/
theorem handleSharedPayload_unknown_project (x : Extern) (g : Registry) (apiName : String)
    (w : ResponseWriter) (payload : Payload) (p : String)
    (hkey : payload.index "project" = some (Value.str p)) (hreg : mapIndex g p = none) :
    handleSharedPayload x g apiName w payload =
      (w ++ [Call.WriteHeader 400, Call.EncodeError
          { Error := "database not found for project '" ++ p ++ "'" }],
        p, "", false) := by
  have hlen : ¬ payload.len = 0 := Payload.len_ne_zero_of_index payload _ _ hkey
  simp [handleSharedPayload, hlen, hkey, Value.assertString, nameToDB_of_none g p hreg,
    returnError, StatusBadRequest]

/-- Witness of C8: the project `legacy` against a registry holding only `kubernetes`. -/
theorem handleSharedPayload_unknown_project_witness :
    handleSharedPayload (sampleExtern scenarioProjects emptyEnvelope emptyRows)
        [("kubernetes", "db1")] "health" [] (some [("project", Value.str "legacy")]) =
      ([Call.WriteHeader 400, Call.EncodeError
          { Error := "database not found for project '" ++ "legacy" ++ "'" }],
        "legacy", "", false) :=
  handleSharedPayload_unknown_project (sampleExtern scenarioProjects emptyEnvelope emptyRows)
    [("kubernetes", "db1")] "health" [] (some [("project", Value.str "legacy")]) "legacy"
    rfl (by decide)

/-- C9: on a payload whose `project` value is a string that is a key of the
registry, `handleSharedPayload` returns that project name, the database the
registry holds for it and `passed = true`, and leaves the writer as it was. -/
theorem handleSharedPayload_known_project (x : Extern) (g : Registry) (apiName : String)
    (w : ResponseWriter) (payload : Payload) (p db : String)
    (hkey : payload.index "project" = some (Value.str p)) (hreg : mapIndex g p = some db) :
    handleSharedPayload x g apiName w payload = (w, p, db, true) := by
  have hlen : ¬ payload.len = 0 := Payload.len_ne_zero_of_index payload _ _ hkey
  simp [handleSharedPayload, hlen, hkey, Value.assertString, nameToDB_of_some g p db hreg]

/-- Witness of C9: the project `kubernetes` against a registry holding it on `db1`. -/
theorem handleSharedPayload_known_project_witness :
    handleSharedPayload (sampleExtern scenarioProjects emptyEnvelope emptyRows)
        [("kubernetes", "db1")] "health" [] (some [("project", Value.str "kubernetes")]) =
      ([], "kubernetes", "db1", true) :=
  handleSharedPayload_known_project (sampleExtern scenarioProjects emptyEnvelope emptyRows)
    [("kubernetes", "db1")] "health" [] (some [("project", Value.str "kubernetes")])
    "kubernetes" "db1" rfl (by decide)

theorem append_two_ne_self (w : ResponseWriter) (a b : Call) : w ++ [a, b] ≠ w := by
  intro h
  have hl := congrArg List.length h
  simp at hl

/-- Each run of `handleSharedPayload` ends in one of two ways: one error written
and `passed = false`, or nothing written and `passed = true`. -/
theorem handleSharedPayload_cases (x : Extern) (g : Registry) (apiName : String)
    (w : ResponseWriter) (payload : Payload) :
    (∃ msg, (handleSharedPayload x g apiName w payload).1 = returnError w msg ∧
        (handleSharedPayload x g apiName w payload).2.2.2 = false) ∨
      ((handleSharedPayload x g apiName w payload).1 = w ∧
        (handleSharedPayload x g apiName w payload).2.2.2 = true) := by
  by_cases hlen : payload.len = 0
  · exact Or.inl ⟨"API '" ++ apiName ++ "' 'payload' section empty or missing", by
      simp [handleSharedPayload, hlen]⟩
  · cases hidx : payload.index "project" with
    | none =>
      exact Or.inl ⟨"API '" ++ apiName ++ "' missing 'project' field in 'payload' section", by
        simp [handleSharedPayload, hlen, hidx]⟩
    | some iproject =>
      cases hstr : iproject.assertString with
      | none =>
        exact Or.inl ⟨"API '" ++ apiName ++ "' 'payload' 'project' field '"
          ++ x.fmtValue iproject ++ "' is not a string", by
          simp [handleSharedPayload, hlen, hidx, hstr]⟩
      | some project =>
        cases hdb : mapIndex g project with
        | none =>
          exact Or.inl ⟨"database not found for project '" ++ project ++ "'", by
            simp [handleSharedPayload, hlen, hidx, hstr, nameToDB_of_none g project hdb]⟩
        | some db =>
          exact Or.inr (by
            simp [handleSharedPayload, hlen, hidx, hstr, nameToDB_of_some g project db hdb])

/-- Each run of `getPayloadStringParam` ends in one of the same two ways. -/
theorem getPayloadStringParam_cases (x : Extern) (apiName paramName : String)
    (w : ResponseWriter) (payload : Payload) :
    (∃ msg, (getPayloadStringParam x apiName paramName w payload).1 = returnError w msg ∧
        (getPayloadStringParam x apiName paramName w payload).2.2 = false) ∨
      ((getPayloadStringParam x apiName paramName w payload).1 = w ∧
        (getPayloadStringParam x apiName paramName w payload).2.2 = true) := by
  cases hidx : payload.index paramName with
  | none =>
    exact Or.inl ⟨"API '" ++ apiName ++ "' missing '" ++ paramName
      ++ "' field in 'payload' section", by simp [getPayloadStringParam, hidx]⟩
  | some iparam =>
    cases hstr : iparam.assertString with
    | none =>
      exact Or.inl ⟨"API '" ++ apiName ++ "' 'payload' '" ++ paramName ++ "' field '"
        ++ x.fmtValue iparam ++ "' is not a string", by
        simp [getPayloadStringParam, hidx, hstr]⟩
    | some param => exact Or.inr (by simp [getPayloadStringParam, hidx, hstr])

/-- C10: for every input, `handleSharedPayload` and `getPayloadStringParam` each
return `passed = false` exactly when they have added one error payload with
status 400 to the response, and when they return `passed = true` they have
written nothing. -/
theorem passed_false_iff_one_error_written (x : Extern) (g : Registry)
    (apiName paramName : String) (w : ResponseWriter) (payload : Payload) :
    (((handleSharedPayload x g apiName w payload).2.2.2 = false ↔
        ∃ msg, (handleSharedPayload x g apiName w payload).1 =
          w ++ [Call.WriteHeader 400, Call.EncodeError { Error := msg }]) ∧
      ((handleSharedPayload x g apiName w payload).2.2.2 = true →
        (handleSharedPayload x g apiName w payload).1 = w)) ∧
    (((getPayloadStringParam x apiName paramName w payload).2.2 = false ↔
        ∃ msg, (getPayloadStringParam x apiName paramName w payload).1 =
          w ++ [Call.WriteHeader 400, Call.EncodeError { Error := msg }]) ∧
      ((getPayloadStringParam x apiName paramName w payload).2.2 = true →
        (getPayloadStringParam x apiName paramName w payload).1 = w)) := by
  constructor
  · rcases handleSharedPayload_cases x g apiName w payload with ⟨msg, hw, hp⟩ | ⟨hw, hp⟩
    · refine ⟨⟨fun _ => ⟨msg, hw⟩, fun _ => hp⟩, fun ht => ?_⟩
      rw [hp] at ht
      cases ht
    · refine ⟨⟨fun hf => ?_, fun hex => ?_⟩, fun _ => hw⟩
      · rw [hp] at hf
        cases hf
      · obtain ⟨msg, hmsg⟩ := hex
        rw [hw] at hmsg
        exact absurd hmsg.symm (append_two_ne_self w _ _)
  · rcases getPayloadStringParam_cases x apiName paramName w payload with
      ⟨msg, hw, hp⟩ | ⟨hw, hp⟩
    · refine ⟨⟨fun _ => ⟨msg, hw⟩, fun _ => hp⟩, fun ht => ?_⟩
      rw [hp] at ht
      cases ht
    · refine ⟨⟨fun hf => ?_, fun hex => ?_⟩, fun _ => hw⟩
      · rw [hp] at hf
        cases hf
      · obtain ⟨msg, hmsg⟩ := hex
        rw [hw] at hmsg
        exact absurd hmsg.symm (append_two_ne_self w _ _)

/-! ## String parameters -/

/-- C11: `getPayloadStringParam` is a presence check followed by a type check.
An absent key gives the error `API '<operation>' missing '<param>' field in 'payload' section`;
a value that is present but not a string gives
`API '<operation>' 'payload' '<param>' field '<value>' is not a string`; a stored
string, the empty one included, is returned as it is with `passed = true` and
nothing written. -/
theorem getPayloadStringParam_contract (x : Extern) (apiName paramName : String)
    (w : ResponseWriter) (payload : Payload) :
    (payload.index paramName = none →
      getPayloadStringParam x apiName paramName w payload =
        (w ++ [Call.WriteHeader 400, Call.EncodeError
          { Error := "API '" ++ apiName ++ "' missing '" ++ paramName
              ++ "' field in 'payload' section" }], "", false)) ∧
    (∀ v : Value, payload.index paramName = some v → (∀ s : String, v ≠ Value.str s) →
      getPayloadStringParam x apiName paramName w payload =
        (w ++ [Call.WriteHeader 400, Call.EncodeError
          { Error := "API '" ++ apiName ++ "' 'payload' '" ++ paramName ++ "' field '"
              ++ x.fmtValue v ++ "' is not a string" }], "", false)) ∧
    (∀ s : String, payload.index paramName = some (Value.str s) →
      getPayloadStringParam x apiName paramName w payload = (w, s, true)) := by
  refine ⟨?_, ?_, ?_⟩
  · intro hidx
    simp [getPayloadStringParam, hidx, returnError, StatusBadRequest]
  · intro v hidx hv
    have hassert : v.assertString = none := (Value.assertString_eq_none_iff v).mpr hv
    simp [getPayloadStringParam, hidx, hassert, returnError, StatusBadRequest]
  · intro s hidx
    simp [getPayloadStringParam, hidx, Value.assertString]

/-- Witness of C11: on the developer-activity request of the examples, the
parameter `github_id` holds the empty string and is returned as such; the
parameter `since` is absent; the parameter `range` given as `null` is rejected. -/
theorem getPayloadStringParam_contract_witness :
    getPayloadStringParam (sampleExtern scenarioProjects emptyEnvelope emptyRows)
        "dev_act_cnt_repo_grp" "github_id" [] devActivityEnvelope.Payload = ([], "", true) ∧
    getPayloadStringParam (sampleExtern scenarioProjects emptyEnvelope emptyRows)
        "dev_act_cnt_repo_grp" "since" [] devActivityEnvelope.Payload =
      ([Call.WriteHeader 400, Call.EncodeError
        { Error := "API '" ++ "dev_act_cnt_repo_grp" ++ "' missing '" ++ "since"
            ++ "' field in 'payload' section" }], "", false) ∧
    getPayloadStringParam (sampleExtern scenarioProjects emptyEnvelope emptyRows)
        "dev_act_cnt_repo_grp" "range" [] (some [("range", Value.null)]) =
      ([Call.WriteHeader 400, Call.EncodeError
        { Error := "API '" ++ "dev_act_cnt_repo_grp" ++ "' 'payload' '" ++ "range"
            ++ "' field '" ++ "<nil>" ++ "' is not a string" }], "", false) :=
  ⟨(getPayloadStringParam_contract (sampleExtern scenarioProjects emptyEnvelope emptyRows)
      "dev_act_cnt_repo_grp" "github_id" [] devActivityEnvelope.Payload).2.2 "" rfl,
    (getPayloadStringParam_contract (sampleExtern scenarioProjects emptyEnvelope emptyRows)
      "dev_act_cnt_repo_grp" "since" [] devActivityEnvelope.Payload).1 rfl,
    (getPayloadStringParam_contract (sampleExtern scenarioProjects emptyEnvelope emptyRows)
      "dev_act_cnt_repo_grp" "range" [] (some [("range", Value.null)])).2.1 Value.null rfl
      (fun _ h => Value.noConfusion h)⟩

/-! ## The parameter loop: lemmas -/

theorem Value.eq_str_of_assertString (v : Value) (s : String)
    (h : v.assertString = some s) : v = Value.str s := by
  cases v <;> simp [Value.assertString] at h
  rw [h]

theorem getPayloadStringParam_of_string (x : Extern) (apiName paramName : String)
    (w : ResponseWriter) (payload : Payload) (s : String)
    (h : payload.index paramName = some (Value.str s)) :
    getPayloadStringParam x apiName paramName w payload = (w, s, true) := by
  simp [getPayloadStringParam, h, Value.assertString]

theorem getPayloadStringParam_of_invalid (x : Extern) (apiName paramName : String)
    (w : ResponseWriter) (payload : Payload)
    (h : ∀ s : String, payload.index paramName ≠ some (Value.str s)) :
    ∃ msg, getPayloadStringParam x apiName paramName w payload =
      (returnError w msg, "", false) := by
  cases hidx : payload.index paramName with
  | none => exact ⟨_, by simp [getPayloadStringParam, hidx]; rfl⟩
  | some v =>
    cases hstr : v.assertString with
    | none => exact ⟨_, by simp [getPayloadStringParam, hidx, hstr]; rfl⟩
    | some s =>
      have hv := Value.eq_str_of_assertString v s hstr
      subst hv
      exact absurd hidx (h s)

theorem handleSharedPayload_of_known (x : Extern) (g : Registry) (apiName : String)
    (w : ResponseWriter) (payload : Payload) (p db : String)
    (hkey : payload.index "project" = some (Value.str p)) (hreg : mapIndex g p = some db) :
    handleSharedPayload x g apiName w payload = (w, p, db, true) := by
  have hlen : ¬ payload.len = 0 := Payload.len_ne_zero_of_index payload _ _ hkey
  simp [handleSharedPayload, hlen, hkey, Value.assertString, nameToDB_of_some g p db hreg]

theorem map_fst_mapAssign_of_mem {α : Type} (m : List (String × α)) (k : String) (v : α)
    (h : k ∈ m.map Prod.fst) : (mapAssign m k v).map Prod.fst = m.map Prod.fst := by
  induction m with
  | nil => simp at h
  | cons e rest ih =>
    obtain ⟨k0, v0⟩ := e
    by_cases h0 : k0 = k
    · simp [mapAssign, h0]
    · have hrest : k ∈ rest.map Prod.fst := by
        simp only [List.map_cons, List.mem_cons] at h
        rcases h with h | h
        · exact absurd h.symm h0
        · exact h
      simp [mapAssign, h0, ih hrest]

/-- A run of the parameter loop either stops on one error, or writes nothing and
yields a map. -/
theorem paramsLoop_cases (x : Extern) (apiName : String) (payload : Payload)
    (visit : List String) (w : ResponseWriter) (params : List (String × String)) :
    (∃ msg, paramsLoop x apiName payload visit w params = (returnError w msg, none)) ∨
      (∃ params', paramsLoop x apiName payload visit w params = (w, some params')) := by
  induction visit generalizing params with
  | nil => exact Or.inr ⟨params, rfl⟩
  | cons name rest ih =>
    rcases hg : getPayloadStringParam x apiName name w payload with ⟨w1, value, passed⟩
    rcases getPayloadStringParam_cases x apiName name w payload with ⟨msg, hw, hp⟩ | ⟨hw, hp⟩
    · rw [hg] at hw hp
      simp only at hw hp
      subst hw hp
      exact Or.inl ⟨msg, by simp [paramsLoop, hg]⟩
    · rw [hg] at hw hp
      simp only at hw hp
      subst hw hp
      rcases ih (mapAssign params name value) with ⟨msg, h⟩ | ⟨params', h⟩
      · exact Or.inl ⟨msg, by simp [paramsLoop, hg, h]⟩
      · exact Or.inr ⟨params', by simp [paramsLoop, hg, h]⟩

/-- When some visited name has no string in the payload, the loop stops on the
error of a visited name that has none, and yields no map. -/
theorem paramsLoop_fail (x : Extern) (apiName : String) (payload : Payload)
    (visit : List String) (w : ResponseWriter) (params : List (String × String))
    (h : ∃ name ∈ visit, ∀ s : String, payload.index name ≠ some (Value.str s)) :
    ∃ name ∈ visit, (∀ s : String, payload.index name ≠ some (Value.str s)) ∧
      paramsLoop x apiName payload visit w params =
        ((getPayloadStringParam x apiName name w payload).1, none) := by
  induction visit generalizing params with
  | nil =>
    obtain ⟨name, hmem, _⟩ := h
    cases hmem
  | cons name rest ih =>
    by_cases hvalid : ∃ s : String, payload.index name = some (Value.str s)
    · obtain ⟨s, hs⟩ := hvalid
      have hrest : ∃ n ∈ rest, ∀ t : String, payload.index n ≠ some (Value.str t) := by
        obtain ⟨n, hmem, hn⟩ := h
        rcases List.mem_cons.mp hmem with rfl | hmem'
        · exact absurd hs (hn s)
        · exact ⟨n, hmem', hn⟩
      obtain ⟨n, hmem, hn, hloop⟩ := ih (mapAssign params name s) hrest
      refine ⟨n, List.mem_cons_of_mem _ hmem, hn, ?_⟩
      simp [paramsLoop, getPayloadStringParam_of_string x apiName name w payload s hs, hloop]
    · have hinv : ∀ s : String, payload.index name ≠ some (Value.str s) :=
        fun s hs => hvalid ⟨s, hs⟩
      obtain ⟨msg, hmsg⟩ := getPayloadStringParam_of_invalid x apiName name w payload hinv
      refine ⟨name, List.mem_cons_self _ _, hinv, ?_⟩
      simp [paramsLoop, hmsg]

/-- When every visited name has a string in the payload, the loop writes nothing
and yields a map that holds that string under every visited name and is the
starting map elsewhere; its keys are those of the starting map when every
visited name is one of them. -/
theorem paramsLoop_ok (x : Extern) (apiName : String) (payload : Payload)
    (visit : List String) (w : ResponseWriter) (params : List (String × String))
    (h : ∀ name ∈ visit, ∃ s : String, payload.index name = some (Value.str s)) :
    ∃ params', paramsLoop x apiName payload visit w params = (w, some params') ∧
      (∀ k ∈ visit, ∀ s : String, payload.index k = some (Value.str s) →
        mapIndex params' k = some s) ∧
      (∀ k, k ∉ visit → mapIndex params' k = mapIndex params k) ∧
      ((∀ name ∈ visit, name ∈ params.map Prod.fst) →
        params'.map Prod.fst = params.map Prod.fst) := by
  induction visit generalizing params with
  | nil =>
    exact ⟨params, rfl, fun k hk => (by cases hk), fun _ _ => rfl, fun _ => rfl⟩
  | cons name rest ih =>
    obtain ⟨s, hs⟩ := h name (List.mem_cons_self _ _)
    obtain ⟨params', hloop, hin, hout, hkeys⟩ :=
      ih (mapAssign params name s) (fun n hn => h n (List.mem_cons_of_mem _ hn))
    refine ⟨params', ?_, ?_, ?_, ?_⟩
    · simp [paramsLoop, getPayloadStringParam_of_string x apiName name w payload s hs, hloop]
    · intro k hk t ht
      by_cases hkrest : k ∈ rest
      · exact hin k hkrest t ht
      · have hkn : k = name := by
          rcases List.mem_cons.mp hk with h1 | h1
          · exact h1
          · exact absurd h1 hkrest
        subst hkn
        rw [hout k hkrest, mapIndex_mapAssign]
        rw [hs] at ht
        have hst : s = t := by
          injection ht with ht'
          injection ht'
        simp [hst]
    · intro k hk
      have hkrest : k ∉ rest := fun hmem => hk (List.mem_cons_of_mem _ hmem)
      have hkn : ¬ name = k := fun heq => hk (heq ▸ List.mem_cons_self _ _)
      rw [hout k hkrest, mapIndex_mapAssign, if_neg hkn]
    · intro hsub
      have hname : name ∈ params.map Prod.fst := hsub name (List.mem_cons_self _ _)
      have hk1 := map_fst_mapAssign_of_mem params name s hname
      rw [hkeys (fun n hn => by rw [hk1]; exact hsub n (List.mem_cons_of_mem _ hn)), hk1]

/-! ## The developer-activity handler -/

/-- C13: in `apiDevActCntRepoGrp`, with a project that is a string and a key of
the registry, and for every order in which the five parameter names are
visited: when one of `range`, `metric`, `repository_group`, `country`,
`github_id` is absent or not a string, one error is written and nothing is
handed off; when all five are strings, nothing is written and the map handed
off has exactly those five keys, each with the string the payload holds. -/
theorem apiDevActCntRepoGrp_validates_params (x : Extern) (g : Registry)
    (visit : List String) (w : ResponseWriter) (payload : Payload) (p db : String)
    (hkey : payload.index "project" = some (Value.str p)) (hreg : mapIndex g p = some db)
    (hvisit : visit.Perm paramNames) :
    ((∃ name ∈ paramNames, ∀ s : String, payload.index name ≠ some (Value.str s)) →
      ∃ msg, apiDevActCntRepoGrp x g visit w payload =
        (w ++ [Call.WriteHeader 400, Call.EncodeError { Error := msg }], [])) ∧
    ((∀ name ∈ paramNames, ∃ s : String, payload.index name = some (Value.str s)) →
      ∃ params, apiDevActCntRepoGrp x g visit w payload =
          (w, [{ project := p, db := db, params := params }]) ∧
        params.map Prod.fst = paramNames ∧
        ∀ name ∈ paramNames, (mapIndex params name).map Value.str = payload.index name) := by
  have hshared := handleSharedPayload_of_known x g x.DevActCntRepoGrp w payload p db hkey hreg
  constructor
  · rintro ⟨name, hmem, hinv⟩
    obtain ⟨n, _, hn, hloop⟩ := paramsLoop_fail x x.DevActCntRepoGrp payload visit w
      (paramNames.map (fun name => (name, ""))) ⟨name, hvisit.mem_iff.mpr hmem, hinv⟩
    obtain ⟨msg, hmsg⟩ := getPayloadStringParam_of_invalid x x.DevActCntRepoGrp n w payload hn
    rw [hmsg] at hloop
    exact ⟨msg, by simp [apiDevActCntRepoGrp, hshared, hloop, returnError, StatusBadRequest]⟩
  · intro hall
    obtain ⟨params, hloop, hin, _, hkeys⟩ := paramsLoop_ok x x.DevActCntRepoGrp payload visit w
      (paramNames.map (fun name => (name, "")))
      (fun n hn => hall n (hvisit.mem_iff.mp hn))
    refine ⟨params, by simp [apiDevActCntRepoGrp, hshared, hloop], ?_, ?_⟩
    · have hsub : ∀ n ∈ visit,
          n ∈ (paramNames.map (fun name => (name, ""))).map Prod.fst := by
        intro n hn
        simpa using hvisit.mem_iff.mp hn
      simpa using hkeys hsub
    · intro name hmem
      obtain ⟨s, hs⟩ := hall name hmem
      rw [hin name (hvisit.mem_iff.mpr hmem) s hs, hs]
      rfl

/-- Witness of C13: the developer-activity request of the examples, visited in
the reverse of the written order, hands off its five strings; the same request
without `country` gets one error and no hand-off. -/
theorem apiDevActCntRepoGrp_validates_params_witness :
    (∃ params, apiDevActCntRepoGrp (sampleExtern scenarioProjects emptyEnvelope emptyRows)
          scenarioRegistry paramNames.reverse [] devActivityEnvelope.Payload =
          ([], [{ project := "kubernetes", db := "db1", params := params }]) ∧
        params.map Prod.fst = paramNames ∧
        ∀ name ∈ paramNames,
          (mapIndex params name).map Value.str = devActivityEnvelope.Payload.index name) ∧
    (∃ msg, apiDevActCntRepoGrp (sampleExtern scenarioProjects emptyEnvelope emptyRows)
        scenarioRegistry paramNames.reverse []
        (some [("project", Value.str "kubernetes"), ("range", Value.str "y"),
          ("metric", Value.str "commits"), ("repository_group", Value.str "all"),
          ("github_id", Value.str "")]) =
      ([Call.WriteHeader 400, Call.EncodeError { Error := msg }], [])) :=
  ⟨(apiDevActCntRepoGrp_validates_params (sampleExtern scenarioProjects emptyEnvelope emptyRows)
      scenarioRegistry paramNames.reverse [] devActivityEnvelope.Payload "kubernetes" "db1"
      rfl (by decide) (List.reverse_perm paramNames)).2
      (by
        intro name hmem
        simp only [paramNames, List.mem_cons, List.mem_singleton, List.not_mem_nil,
          or_false] at hmem
        rcases hmem with rfl | rfl | rfl | rfl | rfl <;> exact ⟨_, rfl⟩),
    (apiDevActCntRepoGrp_validates_params (sampleExtern scenarioProjects emptyEnvelope emptyRows)
      scenarioRegistry paramNames.reverse []
      (some [("project", Value.str "kubernetes"), ("range", Value.str "y"),
        ("metric", Value.str "commits"), ("repository_group", Value.str "all"),
        ("github_id", Value.str "")]) "kubernetes" "db1"
      rfl (by decide) (List.reverse_perm paramNames)).1
      ⟨"country", by decide, fun s h => by
        have h2 : (none : Option Value) = some (Value.str s) := h
        cases h2⟩⟩

/-! ## The health handler: lemmas -/

theorem scanLoop_oks (vals : List Int) (n events : Int) :
    scanLoop ((vals ++ [n]).map Except.ok) events = Except.ok n := by
  induction vals generalizing events with
  | nil => simp [scanLoop]
  | cons v rest ih =>
    simp only [List.cons_append, List.map_cons, scanLoop]
    exact ih v

theorem scanLoop_all_ok (vals : List Int) (events : Int) :
    ∃ n, scanLoop (vals.map Except.ok) events = Except.ok n := by
  induction vals generalizing events with
  | nil => exact ⟨events, by simp [scanLoop]⟩
  | cons v rest ih =>
    obtain ⟨n, hn⟩ := ih v
    exact ⟨n, by simp [scanLoop, hn]⟩

theorem scanLoop_first_error (vals : List Int) (e : String) (rest : List (Except String Int))
    (events : Int) :
    scanLoop (vals.map Except.ok ++ Except.error e :: rest) events = Except.error e := by
  induction vals generalizing events with
  | nil => simp [scanLoop]
  | cons v more ih => simp [scanLoop, ih]

/-- When `Init` returns, the context it leaves is the one of `Ctx.initFields`. -/
theorem init_returns_fields (x : Extern) (ctx : Ctx) (h : Ctx.Init x = Except.ok ctx) :
    ctx = Ctx.initFields x.Getenv := by
  unfold Ctx.Init at h
  cases hx : Ctx.initExits x with
  | error err =>
    rw [hx] at h
    cases h
  | ok u =>
    rw [hx] at h
    cases h
    rfl

/-- `Init` either ends the process or returns the context of `Ctx.initFields`. -/
theorem init_cases (x : Extern) :
    (∃ err, Ctx.Init x = Except.error err) ∨
      Ctx.Init x = Except.ok (Ctx.initFields x.Getenv) := by
  unfold Ctx.Init
  cases Ctx.initExits x with
  | error err => exact Or.inl ⟨err, rfl⟩
  | ok u => exact Or.inr rfl

/-- The run of `apiHealth` once the shared fields have passed and `Init` has
returned, by the answers of the store. -/
theorem apiHealth_of_known (x : Extern) (g : Registry) (w : ResponseWriter)
    (payload : Payload) (p db : String) (ctx0 : Ctx)
    (hkey : payload.index "project" = some (Value.str p)) (hreg : mapIndex g p = some db)
    (hinit : Ctx.Init x = Except.ok ctx0) :
    apiHealth x g w payload =
      match x.PgConnErr (healthCtx x db) with
      | Except.error err => (returnError w err, [StoreCall.Connect (healthCtx x db)], none)
      | Except.ok c =>
        match x.QuerySQL c (healthCtx x db) healthQuery with
        | Except.error err =>
          (returnError w err, [StoreCall.Connect (healthCtx x db),
            StoreCall.Query c (healthCtx x db) healthQuery, StoreCall.ConnClose c], none)
        | Except.ok rows =>
          match scanLoop rows.scans 0 with
          | Except.error err =>
            (returnError w err, [StoreCall.Connect (healthCtx x db),
              StoreCall.Query c (healthCtx x db) healthQuery,
              StoreCall.RowsClose, StoreCall.ConnClose c], none)
          | Except.ok events =>
            match rows.err with
            | some err =>
              (returnError w err, [StoreCall.Connect (healthCtx x db),
                StoreCall.Query c (healthCtx x db) healthQuery,
                StoreCall.RowsClose, StoreCall.ConnClose c], none)
            | none =>
              (w ++ [Call.WriteHeader 200,
                  Call.EncodeHealth { Project := p, DB := db, Events := events }],
                [StoreCall.Connect (healthCtx x db),
                  StoreCall.Query c (healthCtx x db) healthQuery,
                  StoreCall.RowsClose, StoreCall.ConnClose c], none) := by
  have hshared := handleSharedPayload_of_known x g x.Health w payload p db hkey hreg
  have hctx := init_returns_fields x ctx0 hinit
  subst hctx
  simp only [apiHealth, hshared, hinit, healthCtx, healthQuery, StatusOK]

/-- The run of `apiHealth` once the shared fields have passed, when `Init` ends
the process: the handler has written nothing and has not reached the store. -/
theorem apiHealth_of_fatal (x : Extern) (g : Registry) (w : ResponseWriter)
    (payload : Payload) (p db fatal : String)
    (hkey : payload.index "project" = some (Value.str p)) (hreg : mapIndex g p = some db)
    (hinit : Ctx.Init x = Except.error fatal) :
    apiHealth x g w payload = (w, [], some fatal) := by
  have hshared := handleSharedPayload_of_known x g x.Health w payload p db hkey hreg
  simp only [apiHealth, hshared, hinit]

/-- A run of `handleSharedPayload` that passes leaves the writer as it was and
returns a project that is a string of the payload and a key of the registry. -/
theorem handleSharedPayload_passed (x : Extern) (g : Registry) (apiName : String)
    (w : ResponseWriter) (payload : Payload) (w1 : ResponseWriter) (p db : String)
    (h : handleSharedPayload x g apiName w payload = (w1, p, db, true)) :
    w1 = w ∧ payload.index "project" = some (Value.str p) ∧ mapIndex g p = some db := by
  by_cases hlen : payload.len = 0
  · simp [handleSharedPayload, hlen] at h
  · cases hidx : payload.index "project" with
    | none => simp [handleSharedPayload, hlen, hidx] at h
    | some iproject =>
      cases hstr : iproject.assertString with
      | none => simp [handleSharedPayload, hlen, hidx, hstr] at h
      | some project =>
        have hv := Value.eq_str_of_assertString iproject project hstr
        cases hdb : mapIndex g project with
        | none =>
          simp [handleSharedPayload, hlen, hidx, hstr, nameToDB_of_none g project hdb] at h
        | some db' =>
          simp [handleSharedPayload, hlen, hidx, hstr, nameToDB_of_some g project db' hdb] at h
          obtain ⟨h1, h2, h3⟩ := h
          subst h1 h2 h3 hv
          exact ⟨rfl, rfl, hdb⟩

/-- A run of `handleSharedPayload` that does not pass has written one error. -/
theorem handleSharedPayload_failed (x : Extern) (g : Registry) (apiName : String)
    (w : ResponseWriter) (payload : Payload) (w1 : ResponseWriter) (p db : String)
    (h : handleSharedPayload x g apiName w payload = (w1, p, db, false)) :
    ∃ msg, w1 = returnError w msg := by
  rcases handleSharedPayload_cases x g apiName w payload with ⟨msg, hw, _⟩ | ⟨_, hp⟩
  · rw [h] at hw
    exact ⟨msg, hw⟩
  · rw [h] at hp
    cases hp

/-! ## The health handler: the contract -/

/-- C14: for a health request whose project `p` is a key of the registry with
database `db`, in a run in which `ctx.Init()` returns, when the store connects,
runs the count query and the cursor yields its rows without a scan error, the
last one holding `n`, and reports no final error, `apiHealth` writes status 200
and the payload with project `p`, database `db` and `n` events, and nothing
else, and the run is not cut short. -/
theorem apiHealth_success (x : Extern) (g : Registry) (w : ResponseWriter)
    (payload : Payload) (p db : String) (ctx0 : Ctx) (c : Nat) (rows : Rows)
    (vals : List Int) (n : Int)
    (hkey : payload.index "project" = some (Value.str p)) (hreg : mapIndex g p = some db)
    (hinit : Ctx.Init x = Except.ok ctx0)
    (hconn : x.PgConnErr (healthCtx x db) = Except.ok c)
    (hquery : x.QuerySQL c (healthCtx x db) healthQuery = Except.ok rows)
    (hscans : rows.scans = (vals ++ [n]).map Except.ok) (herr : rows.err = none) :
    (apiHealth x g w payload).1 =
        w ++ [Call.WriteHeader 200,
          Call.EncodeHealth { Project := p, DB := db, Events := n }] ∧
      (apiHealth x g w payload).2.2 = none := by
  rw [apiHealth_of_known x g w payload p db ctx0 hkey hreg hinit]
  simp only [hconn, hquery, hscans, scanLoop_oks, herr, and_self]

/-- Witness of C14: the health scenario. With an empty environment `Init`
returns; project `kubernetes` resolves to `db1`, whose count query yields 42;
the response is status 200 with project `kubernetes`, database `db1` and 42
events, also through `handleAPI`. -/
theorem apiHealth_success_witness :
    Ctx.Init (sampleExtern scenarioProjects healthEnvelope (countRows 42)) =
      Except.ok sampleCtx ∧
    (apiHealth (sampleExtern scenarioProjects healthEnvelope (countRows 42)) scenarioRegistry []
        healthEnvelope.Payload).1 =
      [Call.WriteHeader 200,
        Call.EncodeHealth { Project := "kubernetes", DB := "db1", Events := 42 }] ∧
    (handleAPI (sampleExtern scenarioProjects healthEnvelope (countRows 42)) scenarioRegistry
        paramNames [] { Body := "" }).w =
      [Call.HeaderSet "Content-Type" "application/json", Call.WriteHeader 200,
        Call.EncodeHealth { Project := "kubernetes", DB := "db1", Events := 42 }] :=
  ⟨rfl,
    (apiHealth_success (sampleExtern scenarioProjects healthEnvelope (countRows 42))
      scenarioRegistry [] healthEnvelope.Payload "kubernetes" "db1" sampleCtx 1 (countRows 42)
      [] 42 rfl (by decide) rfl rfl rfl rfl rfl).1,
    by decide⟩

/-- C15: for a health request whose shared fields have passed, in a run in which
`ctx.Init()` returns, if a store step fails with the error `e` (the connection
cannot be opened, or the query fails, or a row fails to scan, or the cursor
reports a final error), `apiHealth` writes status 400 and the error payload of
`e` and nothing else: no success payload and no status 200 is added to the
response, and the run is not cut short. -/
theorem apiHealth_store_failure (x : Extern) (g : Registry) (w : ResponseWriter)
    (payload : Payload) (p db e : String) (ctx0 : Ctx)
    (hkey : payload.index "project" = some (Value.str p)) (hreg : mapIndex g p = some db)
    (hinit : Ctx.Init x = Except.ok ctx0)
    (hfail : x.PgConnErr (healthCtx x db) = Except.error e ∨
      (∃ c, x.PgConnErr (healthCtx x db) = Except.ok c ∧
        x.QuerySQL c (healthCtx x db) healthQuery = Except.error e) ∨
      (∃ (c : Nat) (rows : Rows) (vals : List Int) (rest : List (Except String Int)),
        x.PgConnErr (healthCtx x db) = Except.ok c ∧
        x.QuerySQL c (healthCtx x db) healthQuery = Except.ok rows ∧
        rows.scans = vals.map Except.ok ++ Except.error e :: rest) ∨
      (∃ (c : Nat) (rows : Rows) (vals : List Int),
        x.PgConnErr (healthCtx x db) = Except.ok c ∧
        x.QuerySQL c (healthCtx x db) healthQuery = Except.ok rows ∧
        rows.scans = vals.map Except.ok ∧ rows.err = some e)) :
    (apiHealth x g w payload).1 =
        w ++ [Call.WriteHeader 400, Call.EncodeError { Error := e }] ∧
      successPayloads (apiHealth x g w payload).1 = successPayloads w ∧
      (Call.WriteHeader 200 ∈ (apiHealth x g w payload).1 → Call.WriteHeader 200 ∈ w) ∧
      (apiHealth x g w payload).2.2 = none := by
  have hw : (apiHealth x g w payload).1 =
        w ++ [Call.WriteHeader 400, Call.EncodeError { Error := e }] ∧
      (apiHealth x g w payload).2.2 = none := by
    rw [apiHealth_of_known x g w payload p db ctx0 hkey hreg hinit]
    rcases hfail with hconn | ⟨c, hconn, hquery⟩ | ⟨c, rows, vals, rest, hconn, hquery, hscans⟩ |
      ⟨c, rows, vals, hconn, hquery, hscans, herr⟩
    · simp only [hconn, returnError, StatusBadRequest, and_self]
    · simp only [hconn, hquery, returnError, StatusBadRequest, and_self]
    · simp only [hconn, hquery, hscans, scanLoop_first_error, returnError, StatusBadRequest,
        and_self]
    · obtain ⟨n, hn⟩ := scanLoop_all_ok vals 0
      simp only [hconn, hquery, hscans, hn, herr, returnError, StatusBadRequest, and_self]
  rw [hw.1]
  refine ⟨rfl, ?_, ?_, hw.2⟩
  · simp [successPayloads]
  · intro hmem
    simpa using hmem

/-- Witness of C15: on the health scenario, where `Init` returns, a refused
connection and a failing scan each give status 400 with the error of the store. -/
theorem apiHealth_store_failure_witness :
    (apiHealth { sampleExtern scenarioProjects healthEnvelope emptyRows with
          PgConnErr := fun _ => Except.error "connection refused" }
        scenarioRegistry [] healthEnvelope.Payload).1 =
      [] ++ [Call.WriteHeader 400, Call.EncodeError { Error := "connection refused" }] ∧
    (apiHealth (sampleExtern scenarioProjects healthEnvelope
          { scans := [Except.error "converting NULL to int is unsupported"], err := none })
        scenarioRegistry [] healthEnvelope.Payload).1 =
      [] ++ [Call.WriteHeader 400,
        Call.EncodeError { Error := "converting NULL to int is unsupported" }] :=
  ⟨(apiHealth_store_failure { sampleExtern scenarioProjects healthEnvelope emptyRows with
        PgConnErr := fun _ => Except.error "connection refused" }
      scenarioRegistry [] healthEnvelope.Payload "kubernetes" "db1" "connection refused"
      sampleCtx rfl (by decide) rfl (Or.inl rfl)).1,
    (apiHealth_store_failure (sampleExtern scenarioProjects healthEnvelope
        { scans := [Except.error "converting NULL to int is unsupported"], err := none })
      scenarioRegistry [] healthEnvelope.Payload "kubernetes" "db1"
      "converting NULL to int is unsupported" sampleCtx rfl (by decide) rfl
      (Or.inr (Or.inr (Or.inl ⟨1, _, [], [], rfl, rfl, rfl⟩)))).1⟩

/-- C17: a request whose body fails to decode gets exactly the content type,
status 400 and the error payload carrying the decode error; no handler is
called, the store is not touched and nothing is printed. The run ends with
this outcome for every body, registry and collaborator set. -/
theorem handleAPI_decode_failure (x : Extern) (g : Registry) (visit : List String)
    (w : ResponseWriter) (req : Request) (err : String)
    (hdec : x.Decode req.Body = Except.error err) :
    handleAPI x g visit w req =
      { w := w ++ [Call.HeaderSet "Content-Type" "application/json",
          Call.WriteHeader 400, Call.EncodeError { Error := err }]
        handler := none
        store := []
        printed := []
        fatal := none } := by
  simp [handleAPI, hdec, returnError, StatusBadRequest]

/-- Witness of C17: a truncated body, on a fresh writer. -/
theorem handleAPI_decode_failure_witness :
    handleAPI { sampleExtern scenarioProjects emptyEnvelope emptyRows with
          Decode := fun _ => Except.error "unexpected EOF" }
        scenarioRegistry paramNames [] { Body := "\x7b" } =
      { w := [Call.HeaderSet "Content-Type" "application/json",
          Call.WriteHeader 400, Call.EncodeError { Error := "unexpected EOF" }]
        handler := none
        store := []
        printed := []
        fatal := none } :=
  handleAPI_decode_failure { sampleExtern scenarioProjects emptyEnvelope emptyRows with
      Decode := fun _ => Except.error "unexpected EOF" }
    scenarioRegistry paramNames [] { Body := "\x7b" } "unexpected EOF" rfl

/-! ## One response per request: lemmas -/

/-- A run of `apiDevActCntRepoGrp` either writes one error and hands nothing off,
or writes nothing and hands off once. -/
theorem apiDevActCntRepoGrp_cases (x : Extern) (g : Registry) (visit : List String)
    (w : ResponseWriter) (payload : Payload) :
    (∃ msg, apiDevActCntRepoGrp x g visit w payload = (returnError w msg, [])) ∨
      (∃ pr, apiDevActCntRepoGrp x g visit w payload = (w, [pr])) := by
  rcases hsp : handleSharedPayload x g x.DevActCntRepoGrp w payload with ⟨w1, p, db, passed⟩
  cases passed with
  | false =>
    obtain ⟨msg, hmsg⟩ := handleSharedPayload_failed x g _ w payload w1 p db hsp
    subst hmsg
    exact Or.inl ⟨msg, by simp [apiDevActCntRepoGrp, hsp]⟩
  | true =>
    obtain ⟨hw, _, _⟩ := handleSharedPayload_passed x g _ w payload w1 p db hsp
    subst hw
    rcases paramsLoop_cases x x.DevActCntRepoGrp payload visit w1
        (paramNames.map (fun name => (name, ""))) with ⟨msg, hloop⟩ | ⟨params, hloop⟩
    · exact Or.inl ⟨msg, by simp [apiDevActCntRepoGrp, hsp, hloop]⟩
    · exact Or.inr ⟨_, by simp [apiDevActCntRepoGrp, hsp, hloop]; rfl⟩

/-- The paths of `apiHealth`: the shared fields fail and the store is not
reached; or they pass and `Init` ends the process, or `Init` returns and the
connection fails, the query fails, the cursor fails in a scan or at its end, or
the count is answered. -/
theorem apiHealth_paths (x : Extern) (g : Registry) (w : ResponseWriter) (payload : Payload) :
    (∃ msg, apiHealth x g w payload = (returnError w msg, [], none)) ∨
    (∃ p db, payload.index "project" = some (Value.str p) ∧ mapIndex g p = some db ∧
      ((∃ fatal, Ctx.Init x = Except.error fatal ∧
          apiHealth x g w payload = (w, [], some fatal)) ∨
        (∃ e, x.PgConnErr (healthCtx x db) = Except.error e ∧
          apiHealth x g w payload =
            (returnError w e, [StoreCall.Connect (healthCtx x db)], none)) ∨
        (∃ c e, x.PgConnErr (healthCtx x db) = Except.ok c ∧
          x.QuerySQL c (healthCtx x db) healthQuery = Except.error e ∧
          apiHealth x g w payload =
            (returnError w e, [StoreCall.Connect (healthCtx x db),
              StoreCall.Query c (healthCtx x db) healthQuery, StoreCall.ConnClose c], none)) ∨
        (∃ c rows e, x.PgConnErr (healthCtx x db) = Except.ok c ∧
          x.QuerySQL c (healthCtx x db) healthQuery = Except.ok rows ∧
          apiHealth x g w payload =
            (returnError w e, [StoreCall.Connect (healthCtx x db),
              StoreCall.Query c (healthCtx x db) healthQuery,
              StoreCall.RowsClose, StoreCall.ConnClose c], none)) ∨
        (∃ c rows n, x.PgConnErr (healthCtx x db) = Except.ok c ∧
          x.QuerySQL c (healthCtx x db) healthQuery = Except.ok rows ∧
          apiHealth x g w payload =
            (w ++ [Call.WriteHeader 200,
                Call.EncodeHealth { Project := p, DB := db, Events := n }],
              [StoreCall.Connect (healthCtx x db),
                StoreCall.Query c (healthCtx x db) healthQuery,
                StoreCall.RowsClose, StoreCall.ConnClose c], none)))) := by
  rcases hsp : handleSharedPayload x g x.Health w payload with ⟨w1, p, db, passed⟩
  cases passed with
  | false =>
    obtain ⟨msg, hmsg⟩ := handleSharedPayload_failed x g _ w payload w1 p db hsp
    subst hmsg
    exact Or.inl ⟨msg, by simp [apiHealth, hsp]⟩
  | true =>
    obtain ⟨_, hkey, hreg⟩ := handleSharedPayload_passed x g _ w payload w1 p db hsp
    refine Or.inr ⟨p, db, hkey, hreg, ?_⟩
    cases hinit : Ctx.Init x with
    | error fatal =>
      exact Or.inl ⟨fatal, rfl, apiHealth_of_fatal x g w payload p db fatal hkey hreg hinit⟩
    | ok ctx0 =>
      right
      rw [apiHealth_of_known x g w payload p db ctx0 hkey hreg hinit]
      cases hconn : x.PgConnErr (healthCtx x db) with
      | error e => exact Or.inl ⟨e, rfl, rfl⟩
      | ok c =>
        cases hquery : x.QuerySQL c (healthCtx x db) healthQuery with
        | error e => exact Or.inr (Or.inl ⟨c, e, rfl, hquery, by simp only [hquery]⟩)
        | ok rows =>
          cases hscan : scanLoop rows.scans 0 with
          | error e =>
            exact Or.inr (Or.inr (Or.inl
              ⟨c, rows, e, rfl, hquery, by simp only [hquery, hscan]⟩))
          | ok n =>
            cases herr : rows.err with
            | some e =>
              exact Or.inr (Or.inr (Or.inl
                ⟨c, rows, e, rfl, hquery, by simp only [hquery, hscan, herr]⟩))
            | none =>
              exact Or.inr (Or.inr (Or.inr
                ⟨c, rows, n, rfl, hquery, by simp only [hquery, hscan, herr]⟩))

/-- The writer of `apiHealth` gains one error, or status 200 and one health
payload; or it gains nothing, when `Init` has ended the process. -/
theorem apiHealth_cases (x : Extern) (g : Registry) (w : ResponseWriter) (payload : Payload) :
    (∃ msg, (apiHealth x g w payload).1 = returnError w msg ∧
        (apiHealth x g w payload).2.2 = none) ∨
      (∃ hpl, (apiHealth x g w payload).1 =
          w ++ [Call.WriteHeader 200, Call.EncodeHealth hpl] ∧
        (apiHealth x g w payload).2.2 = none) ∨
      (∃ fatal, Ctx.Init x = Except.error fatal ∧
        apiHealth x g w payload = (w, [], some fatal)) := by
  rcases apiHealth_paths x g w payload with ⟨msg, h⟩ |
    ⟨p, db, _, _, ⟨fatal, hinit, h⟩ | ⟨e, _, h⟩ | ⟨c, e, _, _, h⟩ | ⟨c, rows, e, _, _, h⟩ |
      ⟨c, rows, n, _, _, h⟩⟩
  · exact Or.inl ⟨msg, by rw [h], by rw [h]⟩
  · exact Or.inr (Or.inr ⟨fatal, hinit, h⟩)
  · exact Or.inl ⟨e, by rw [h], by rw [h]⟩
  · exact Or.inl ⟨e, by rw [h], by rw [h]⟩
  · exact Or.inl ⟨e, by rw [h], by rw [h]⟩
  · exact Or.inr (Or.inl ⟨_, by rw [h], by rw [h]⟩)

/-- What a request adds to the writer after the content type: one error with
status 400; or status 200 and one health payload, from `apiHealth`; or nothing,
when `apiDevActCntRepoGrp` has handed off; or nothing, when `Init` has ended
the process in `apiHealth` before the store was reached. -/
theorem handleAPI_shape (x : Extern) (g : Registry) (visit : List String)
    (w : ResponseWriter) (req : Request) :
    ∃ tail, (handleAPI x g visit w req).w =
        w ++ [Call.HeaderSet "Content-Type" "application/json"] ++ tail ∧
      ((∃ msg, tail = [Call.WriteHeader 400, Call.EncodeError { Error := msg }] ∧
          (handleAPI x g visit w req).printed = [] ∧
          (handleAPI x g visit w req).fatal = none) ∨
        (∃ hpl, tail = [Call.WriteHeader 200, Call.EncodeHealth hpl] ∧
          (handleAPI x g visit w req).handler = some Handler.apiHealth ∧
          (handleAPI x g visit w req).printed = [] ∧
          (handleAPI x g visit w req).fatal = none) ∨
        (tail = [] ∧
          (handleAPI x g visit w req).handler = some Handler.apiDevActCntRepoGrp ∧
          (∃ pr, (handleAPI x g visit w req).printed = [pr]) ∧
          (handleAPI x g visit w req).fatal = none) ∨
        (tail = [] ∧
          (handleAPI x g visit w req).handler = some Handler.apiHealth ∧
          (handleAPI x g visit w req).printed = [] ∧
          (handleAPI x g visit w req).store = [] ∧
          ∃ fatal, Ctx.Init x = Except.error fatal ∧
            (handleAPI x g visit w req).fatal = some fatal)) := by
  cases hdec : x.Decode req.Body with
  | error err =>
    exact ⟨[Call.WriteHeader 400, Call.EncodeError { Error := err }],
      by simp [handleAPI, hdec, returnError, StatusBadRequest],
      Or.inl ⟨err, rfl, by simp [handleAPI, hdec], by simp [handleAPI, hdec]⟩⟩
  | ok pl =>
    by_cases hH : pl.API = x.Health
    · rcases apiHealth_cases x g (w ++ [Call.HeaderSet "Content-Type" "application/json"])
        pl.Payload with ⟨msg, h, hf⟩ | ⟨hpl, h, hf⟩ | ⟨fatal, hinit, h⟩
      · exact ⟨[Call.WriteHeader 400, Call.EncodeError { Error := msg }],
          by simp [handleAPI, hdec, hH, h, returnError, StatusBadRequest],
          Or.inl ⟨msg, rfl, by simp [handleAPI, hdec, hH], by simp [handleAPI, hdec, hH, hf]⟩⟩
      · exact ⟨[Call.WriteHeader 200, Call.EncodeHealth hpl],
          by simp [handleAPI, hdec, hH, h],
          Or.inr (Or.inl ⟨hpl, rfl, by simp [handleAPI, hdec, hH],
            by simp [handleAPI, hdec, hH], by simp [handleAPI, hdec, hH, hf]⟩)⟩
      · exact ⟨[], by simp [handleAPI, hdec, hH, h],
          Or.inr (Or.inr (Or.inr ⟨rfl, by simp [handleAPI, hdec, hH],
            by simp [handleAPI, hdec, hH], by simp [handleAPI, hdec, hH, h],
            fatal, hinit, by simp [handleAPI, hdec, hH, h]⟩))⟩
    · by_cases hD : pl.API = x.DevActCntRepoGrp
      · have hH2 : ¬ x.DevActCntRepoGrp = x.Health := fun h' => hH (hD.trans h')
        rcases apiDevActCntRepoGrp_cases x g visit
          (w ++ [Call.HeaderSet "Content-Type" "application/json"]) pl.Payload with
          ⟨msg, h⟩ | ⟨pr, h⟩
        · exact ⟨[Call.WriteHeader 400, Call.EncodeError { Error := msg }],
            by simp [handleAPI, hdec, hH2, hD, h, returnError, StatusBadRequest],
            Or.inl ⟨msg, rfl, by simp [handleAPI, hdec, hH2, hD, h],
              by simp [handleAPI, hdec, hH2, hD]⟩⟩
        · exact ⟨[], by simp [handleAPI, hdec, hH2, hD, h],
            Or.inr (Or.inr (Or.inl ⟨rfl, by simp [handleAPI, hdec, hH2, hD],
              ⟨pr, by simp [handleAPI, hdec, hH2, hD, h]⟩,
              by simp [handleAPI, hdec, hH2, hD]⟩))⟩
      · exact ⟨[Call.WriteHeader 400,
            Call.EncodeError { Error := "unknown API '" ++ pl.API ++ "'" }],
          by simp [handleAPI, hdec, hH, hD, returnError, StatusBadRequest],
          Or.inl ⟨_, rfl, by simp [handleAPI, hdec, hH, hD], by simp [handleAPI, hdec, hH, hD]⟩⟩

/-- A health request in an environment where `GHA2DB_HTTP_TIMEOUT` is not an
integer: the shared fields pass, `Init` ends the process on the parse, and the
run leaves the content type alone on the response, with no payload, no store
call and nothing handed off. -/
theorem handleAPI_init_fatal_example :
    ∃ fatal, Atoi "abc" = Except.error fatal ∧
      Ctx.Init { sampleExtern scenarioProjects healthEnvelope (countRows 42) with
          Getenv := malformedTimeoutEnv } = Except.error fatal ∧
      handleAPI { sampleExtern scenarioProjects healthEnvelope (countRows 42) with
            Getenv := malformedTimeoutEnv }
          scenarioRegistry paramNames [] { Body := "" } =
        { w := [Call.HeaderSet "Content-Type" "application/json"]
          handler := some Handler.apiHealth
          store := []
          printed := []
          fatal := some fatal } :=
  ⟨_, rfl, rfl, rfl⟩

/-! ## One response per request: the contract -/

/-- C12 (amended): every run of `handleAPI` adds at most one payload to the
response and never both kinds. It adds exactly one error payload, or exactly
one success payload, in every run that neither hands off nor is cut short; in
the run in which `apiDevActCntRepoGrp` hands the validated parameters off, it
adds no payload at all; and in a health run in which `ctx.Init()` ends the
process, after the shared fields have passed and before the store is reached,
it adds no payload either and hands nothing off. -/
theorem handleAPI_at_most_one_payload (x : Extern) (g : Registry) (visit : List String)
    (w : ResponseWriter) (req : Request) :
    ((handleAPI x g visit w req).fatal = none ∧
        (handleAPI x g visit w req).printed = [] ∧
        errorPayloads (handleAPI x g visit w req).w = errorPayloads w + 1 ∧
        successPayloads (handleAPI x g visit w req).w = successPayloads w) ∨
      ((handleAPI x g visit w req).fatal = none ∧
        (handleAPI x g visit w req).printed = [] ∧
        errorPayloads (handleAPI x g visit w req).w = errorPayloads w ∧
        successPayloads (handleAPI x g visit w req).w = successPayloads w + 1) ∨
      ((handleAPI x g visit w req).fatal = none ∧
        (∃ pr, (handleAPI x g visit w req).printed = [pr]) ∧
        (handleAPI x g visit w req).handler = some Handler.apiDevActCntRepoGrp ∧
        errorPayloads (handleAPI x g visit w req).w = errorPayloads w ∧
        successPayloads (handleAPI x g visit w req).w = successPayloads w) ∨
      ((∃ fatal, Ctx.Init x = Except.error fatal ∧
          (handleAPI x g visit w req).fatal = some fatal) ∧
        (handleAPI x g visit w req).printed = [] ∧
        (handleAPI x g visit w req).handler = some Handler.apiHealth ∧
        (handleAPI x g visit w req).store = [] ∧
        errorPayloads (handleAPI x g visit w req).w = errorPayloads w ∧
        successPayloads (handleAPI x g visit w req).w = successPayloads w) := by
  obtain ⟨tail, hw, hcases⟩ := handleAPI_shape x g visit w req
  rcases hcases with ⟨msg, htail, hpr, hf⟩ | ⟨hpl, htail, _, hpr, hf⟩ | ⟨htail, hh, hpr, hf⟩ |
    ⟨htail, hh, hpr, hst, hf⟩
  · left
    subst htail
    refine ⟨hf, hpr, ?_, ?_⟩ <;> rw [hw] <;> simp [errorPayloads, successPayloads]
  · right
    left
    subst htail
    refine ⟨hf, hpr, ?_, ?_⟩ <;> rw [hw] <;> simp [errorPayloads, successPayloads]
  · right
    right
    left
    subst htail
    refine ⟨hf, hpr, hh, ?_, ?_⟩ <;> rw [hw] <;> simp [errorPayloads, successPayloads]
  · right
    right
    right
    subst htail
    refine ⟨hf, hpr, hh, hst, ?_, ?_⟩ <;> rw [hw] <;> simp [errorPayloads, successPayloads]

/-- C12 fails as stated: a developer-activity request with a known project and
all five parameters given as strings is dispatched to `apiDevActCntRepoGrp`,
which prints the parameters; the response gets the content type and no
payload, neither a success nor an error one, and the run is not cut short. -/
theorem handleAPI_no_payload_counterexample :
    handleAPI (sampleExtern scenarioProjects devActivityEnvelope emptyRows) scenarioRegistry
        paramNames [] { Body := "" } =
      { w := [Call.HeaderSet "Content-Type" "application/json"]
        handler := some Handler.apiDevActCntRepoGrp
        store := []
        printed := [{
          project := "kubernetes"
          db := "db1"
          params := [("range", "y"), ("metric", "commits"), ("repository_group", "all"),
            ("country", "pl"), ("github_id", "")] }]
        fatal := none } ∧
    errorPayloads (handleAPI (sampleExtern scenarioProjects devActivityEnvelope emptyRows)
        scenarioRegistry paramNames [] { Body := "" }).w = 0 ∧
    successPayloads (handleAPI (sampleExtern scenarioProjects devActivityEnvelope emptyRows)
        scenarioRegistry paramNames [] { Body := "" }).w = 0 := by
  decide

/-- C16: `returnError` writes status 400 and then the error payload whose single
field holds the message; and every error payload that a run of `handleAPI` adds
to the response is written that way: after the content type the run adds
status 400 and that payload, and nothing else. -/
theorem error_responses_uniform (x : Extern) (g : Registry) (visit : List String)
    (w : ResponseWriter) (req : Request) :
    (∀ (w' : ResponseWriter) (err : String),
      returnError w' err = w' ++ [Call.WriteHeader 400, Call.EncodeError { Error := err }]) ∧
    ∃ tail, (handleAPI x g visit w req).w =
        w ++ [Call.HeaderSet "Content-Type" "application/json"] ++ tail ∧
      ∀ epl : errorPayload, Call.EncodeError epl ∈ tail →
        tail = [Call.WriteHeader 400, Call.EncodeError { Error := epl.Error }] ∧
        (handleAPI x g visit w req).w =
          returnError (w ++ [Call.HeaderSet "Content-Type" "application/json"]) epl.Error := by
  refine ⟨fun _ _ => rfl, ?_⟩
  obtain ⟨tail, hw, hcases⟩ := handleAPI_shape x g visit w req
  refine ⟨tail, hw, ?_⟩
  intro epl hmem
  rcases hcases with ⟨msg, htail, _⟩ | ⟨hpl, htail, _, _⟩ | ⟨htail, _, _⟩ | ⟨htail, _, _⟩
  · subst htail
    have hepl : epl = { Error := msg } := by simpa using hmem
    subst hepl
    exact ⟨rfl, by rw [hw]; rfl⟩
  · subst htail
    simp at hmem
  · subst htail
    simp at hmem
  · subst htail
    simp at hmem

/-! ## Connection and cursor are released -/

/-- C18: in every run of `apiHealth` the connection is opened at most once and
closed as many times as it was opened, and likewise the cursor; when the
connection was opened, the close of that connection is the last call of the
run and the only one; when the query returned a cursor, the run ends with the
close of the cursor followed by the close of the connection, and the cursor is
not closed before. -/
theorem apiHealth_closes_what_it_opens (x : Extern) (g : Registry) (w : ResponseWriter)
    (payload : Payload) :
    connCloses (apiHealth x g w payload).2.1 = connOpens x (apiHealth x g w payload).2.1 ∧
    rowsCloses (apiHealth x g w payload).2.1 = cursorOpens x (apiHealth x g w payload).2.1 ∧
    connOpens x (apiHealth x g w payload).2.1 ≤ 1 ∧
    cursorOpens x (apiHealth x g w payload).2.1 ≤ 1 ∧
    (∀ (ctx : Ctx) (c : Nat), StoreCall.Connect ctx ∈ (apiHealth x g w payload).2.1 →
      x.PgConnErr ctx = Except.ok c →
        (apiHealth x g w payload).2.1.getLast? = some (StoreCall.ConnClose c) ∧
        (apiHealth x g w payload).2.1.count (StoreCall.ConnClose c) = 1) ∧
    (∀ (c : Nat) (ctx : Ctx) (query : String) (rows : Rows),
      StoreCall.Query c ctx query ∈ (apiHealth x g w payload).2.1 →
      x.QuerySQL c ctx query = Except.ok rows →
        ∃ pre, (apiHealth x g w payload).2.1 =
            pre ++ [StoreCall.RowsClose, StoreCall.ConnClose c] ∧
          StoreCall.RowsClose ∉ pre) := by
  rcases apiHealth_paths x g w payload with ⟨msg, h⟩ |
    ⟨p, db, _, _, ⟨fatal, _, h⟩ | ⟨e, hconn, h⟩ | ⟨c, e, hconn, hquery, h⟩ |
      ⟨c, rows, e, hconn, hquery, h⟩ | ⟨c, rows, n, hconn, hquery, h⟩⟩
  · rw [h]
    simp [connCloses, connOpens, rowsCloses, cursorOpens]
  · rw [h]
    simp [connCloses, connOpens, rowsCloses, cursorOpens]
  · rw [h]
    refine ⟨?_, ?_, ?_, ?_, ?_, ?_⟩
    · simp [connCloses, connOpens, hconn]
    · simp [rowsCloses, cursorOpens]
    · simp [connOpens, hconn]
    · simp [cursorOpens]
    · intro ctx c' hmem hok
      simp only [List.mem_singleton, StoreCall.Connect.injEq] at hmem
      subst hmem
      rw [hconn] at hok
      cases hok
    · intro c' ctx query rows' hmem
      simp at hmem
  · rw [h]
    refine ⟨?_, ?_, ?_, ?_, ?_, ?_⟩
    · simp [connCloses, connOpens, hconn]
    · simp [rowsCloses, cursorOpens, hquery]
    · simp [connOpens, hconn]
    · simp [cursorOpens, hquery]
    · intro ctx c' hmem hok
      simp at hmem
      subst hmem
      rw [hconn] at hok
      cases hok
      simp
    · intro c' ctx query rows' hmem hok
      simp at hmem
      obtain ⟨h1, h2, h3⟩ := hmem
      subst h1 h2 h3
      rw [hquery] at hok
      cases hok
  · rw [h]
    refine ⟨?_, ?_, ?_, ?_, ?_, ?_⟩
    · simp [connCloses, connOpens, hconn]
    · simp [rowsCloses, cursorOpens, hquery]
    · simp [connOpens, hconn]
    · simp [cursorOpens, hquery]
    · intro ctx c' hmem hok
      simp at hmem
      subst hmem
      rw [hconn] at hok
      cases hok
      simp
    · intro c' ctx query rows' hmem hok
      simp at hmem
      obtain ⟨h1, h2, h3⟩ := hmem
      subst h1 h2 h3
      exact ⟨[StoreCall.Connect (healthCtx x db),
        StoreCall.Query c' (healthCtx x db) healthQuery], by simp, by simp⟩
  · rw [h]
    refine ⟨?_, ?_, ?_, ?_, ?_, ?_⟩
    · simp [connCloses, connOpens, hconn]
    · simp [rowsCloses, cursorOpens, hquery]
    · simp [connOpens, hconn]
    · simp [cursorOpens, hquery]
    · intro ctx c' hmem hok
      simp at hmem
      subst hmem
      rw [hconn] at hok
      cases hok
      simp
    · intro c' ctx query rows' hmem hok
      simp at hmem
      obtain ⟨h1, h2, h3⟩ := hmem
      subst h1 h2 h3
      exact ⟨[StoreCall.Connect (healthCtx x db),
        StoreCall.Query c' (healthCtx x db) healthQuery], by simp, by simp⟩

/-- Witness of C18: on the health scenario the connection 1 is opened, the
query returns a cursor, and the run ends with the close of the cursor and then
the close of connection 1. -/
theorem apiHealth_closes_what_it_opens_witness :
    (apiHealth (sampleExtern scenarioProjects healthEnvelope (countRows 42)) scenarioRegistry []
        healthEnvelope.Payload).2.1.getLast? = some (StoreCall.ConnClose 1) ∧
    (apiHealth (sampleExtern scenarioProjects healthEnvelope (countRows 42)) scenarioRegistry []
        healthEnvelope.Payload).2.1.count (StoreCall.ConnClose 1) = 1 :=
  (apiHealth_closes_what_it_opens (sampleExtern scenarioProjects healthEnvelope (countRows 42))
    scenarioRegistry [] healthEnvelope.Payload).2.2.2.2.1
    (healthCtx (sampleExtern scenarioProjects healthEnvelope (countRows 42)) "db1") 1
    (by decide) rfl

/-! ## Startup -/

theorem checkEnvLoop_error_iff (getenv : String → String) (names : List String) :
    (∃ msg, checkEnvLoop getenv names = Except.error msg) ↔
      ∃ name ∈ names, getenv name = "" := by
  induction names with
  | nil => simp [checkEnvLoop]
  | cons env rest ih =>
    by_cases h : getenv env = ""
    · simp [checkEnvLoop, h]
    · simp [checkEnvLoop, h, ih]

/-- The runs of `serveAPI`: `Init` ends the process; or `Init` returns and
`checkEnv` ends it, or `readProjects` ends it, or the endpoint is bound. -/
theorem serveAPI_cases (x : Extern) :
    (∃ fatal, Ctx.Init x = Except.error fatal ∧
      serveAPI x = { steps := [StartupStep.CtxInit], fatal := some fatal, gNameToDB := none }) ∨
    (∃ ctx, Ctx.Init x = Except.ok ctx ∧
      ((∃ msg, checkEnv x.Getenv = Except.error msg ∧
          serveAPI x =
            { steps := [StartupStep.CtxInit, StartupStep.Printf "Starting API serve\n",
                StartupStep.CheckEnv]
              fatal := some msg
              gNameToDB := none }) ∨
        (∃ msg, checkEnv x.Getenv = Except.ok () ∧ readProjects x ctx = Except.error msg ∧
          serveAPI x =
            { steps := [StartupStep.CtxInit, StartupStep.Printf "Starting API serve\n",
                StartupStep.CheckEnv, StartupStep.ReadProjects]
              fatal := some msg
              gNameToDB := none }) ∨
        (∃ g, checkEnv x.Getenv = Except.ok () ∧ readProjects x ctx = Except.ok g ∧
          serveAPI x =
            { steps := [StartupStep.CtxInit, StartupStep.Printf "Starting API serve\n",
                StartupStep.CheckEnv, StartupStep.ReadProjects, StartupStep.SignalNotify,
                StartupStep.HandleFunc "/api/v1", StartupStep.ListenAndServe "0.0.0.0:8080"]
              fatal := none
              gNameToDB := some g }))) := by
  cases hinit : Ctx.Init x with
  | error fatal => exact Or.inl ⟨fatal, rfl, by simp [serveAPI, hinit]⟩
  | ok ctx =>
    refine Or.inr ⟨ctx, rfl, ?_⟩
    cases hcheck : checkEnv x.Getenv with
    | error msg => exact Or.inl ⟨msg, rfl, by simp [serveAPI, hinit, hcheck]⟩
    | ok u =>
      cases hread : readProjects x ctx with
      | error msg => exact Or.inr (Or.inl ⟨msg, rfl, rfl, by simp [serveAPI, hinit, hcheck, hread]⟩)
      | ok g => exact Or.inr (Or.inr ⟨g, rfl, rfl, by simp [serveAPI, hinit, hcheck, hread]⟩)

/-- C19: `checkEnv` is fatal exactly when one of `PG_PASS`, `PG_PASS_RO`,
`PG_USER_RO`, `PG_HOST_RO` is unset or empty. In a run of `serveAPI` in which
`Init` returns it is the third step, after `Init` and the start message: when
it is fatal the process ends there, and the reading of the projects and the
binding of the endpoint come after it. A run in which `Init` ends the process
stops at `Init`. So in every run in which the projects are read or the endpoint
is bound, `checkEnv` has run before and has returned; and in every run with a
variable of the four unset, the projects file is not read, no registry is
built, the endpoint is not bound and the process ends on a fatal error. -/
theorem checkEnv_fatal_iff_and_first (x : Extern) :
    ((∃ msg, checkEnv x.Getenv = Except.error msg) ↔
      (x.Getenv "PG_PASS" = "" ∨ x.Getenv "PG_PASS_RO" = "" ∨
        x.Getenv "PG_USER_RO" = "" ∨ x.Getenv "PG_HOST_RO" = "")) ∧
    (∀ ctx msg, Ctx.Init x = Except.ok ctx → checkEnv x.Getenv = Except.error msg →
      serveAPI x =
        { steps := [StartupStep.CtxInit, StartupStep.Printf "Starting API serve\n",
            StartupStep.CheckEnv]
          fatal := some msg
          gNameToDB := none }) ∧
    (∀ ctx, Ctx.Init x = Except.ok ctx →
      ∃ rest, (serveAPI x).steps =
          [StartupStep.CtxInit, StartupStep.Printf "Starting API serve\n",
            StartupStep.CheckEnv] ++ rest ∧
        StartupStep.CheckEnv ∉ rest ∧
        ((∃ msg, checkEnv x.Getenv = Except.error msg) → rest = []) ∧
        (StartupStep.HandleFunc "/api/v1" ∈ rest → StartupStep.ReadProjects ∈ rest)) ∧
    (∀ fatal, Ctx.Init x = Except.error fatal →
      serveAPI x = { steps := [StartupStep.CtxInit], fatal := some fatal, gNameToDB := none }) ∧
    ((StartupStep.ReadProjects ∈ (serveAPI x).steps ∨
        StartupStep.HandleFunc "/api/v1" ∈ (serveAPI x).steps ∨
        StartupStep.ListenAndServe "0.0.0.0:8080" ∈ (serveAPI x).steps) →
      checkEnv x.Getenv = Except.ok () ∧
      ∃ rest, (serveAPI x).steps =
          [StartupStep.CtxInit, StartupStep.Printf "Starting API serve\n",
            StartupStep.CheckEnv] ++ rest ∧
        StartupStep.CheckEnv ∉ rest) ∧
    ((∃ msg, checkEnv x.Getenv = Except.error msg) →
      StartupStep.ReadProjects ∉ (serveAPI x).steps ∧
      StartupStep.HandleFunc "/api/v1" ∉ (serveAPI x).steps ∧
      StartupStep.ListenAndServe "0.0.0.0:8080" ∉ (serveAPI x).steps ∧
      (serveAPI x).gNameToDB = none ∧
      ∃ msg, (serveAPI x).fatal = some msg) := by
  refine ⟨?_, ?_, ?_, ?_, ?_, ?_⟩
  · unfold checkEnv
    rw [checkEnvLoop_error_iff]
    simp [requiredEnv]
  · intro ctx msg hinit hmsg
    simp [serveAPI, hinit, hmsg]
  · intro ctx hinit
    rcases serveAPI_cases x with ⟨fatal, hf, _⟩ |
      ⟨ctx', _, ⟨msg, hcheck, h⟩ | ⟨msg, hcheck, _, h⟩ | ⟨g, hcheck, _, h⟩⟩
    · rw [hinit] at hf
      cases hf
    · exact ⟨[], by rw [h]; rfl, by simp, fun _ => rfl, by simp⟩
    · exact ⟨[StartupStep.ReadProjects], by rw [h]; rfl, by simp, by simp [hcheck], by simp⟩
    · exact ⟨[StartupStep.ReadProjects, StartupStep.SignalNotify,
          StartupStep.HandleFunc "/api/v1", StartupStep.ListenAndServe "0.0.0.0:8080"],
        by rw [h]; rfl, by simp, by simp [hcheck], by simp⟩
  · intro fatal hinit
    simp [serveAPI, hinit]
  · intro hmem
    rcases serveAPI_cases x with ⟨fatal, _, h⟩ |
      ⟨ctx', _, ⟨msg, hcheck, h⟩ | ⟨msg, hcheck, _, h⟩ | ⟨g, hcheck, _, h⟩⟩
    · rw [h] at hmem
      simp at hmem
    · rw [h] at hmem
      simp at hmem
    · exact ⟨hcheck, [StartupStep.ReadProjects], by rw [h]; rfl, by simp⟩
    · exact ⟨hcheck, [StartupStep.ReadProjects, StartupStep.SignalNotify,
          StartupStep.HandleFunc "/api/v1", StartupStep.ListenAndServe "0.0.0.0:8080"],
        by rw [h]; rfl, by simp⟩
  · rintro ⟨msg0, hmsg0⟩
    rcases serveAPI_cases x with ⟨fatal, _, h⟩ |
      ⟨ctx', _, ⟨msg, hcheck, h⟩ | ⟨msg, hcheck, _, h⟩ | ⟨g, hcheck, _, h⟩⟩
    · rw [h]
      simp
    · rw [h]
      simp
    · rw [hcheck] at hmsg0
      cases hmsg0
    · rw [hcheck] at hmsg0
      cases hmsg0

/-- Witness of C19: with an empty environment `Init` returns, `checkEnv` is
fatal on `PG_PASS` and `serveAPI` ends after its third step; with all four
variables set, the projects are read and the endpoint is bound; with a
`GHA2DB_HTTP_TIMEOUT` that is not an integer the process ends in `Init`, before
`checkEnv` is reached. -/
theorem checkEnv_fatal_iff_and_first_witness :
    Ctx.Init (sampleExtern scenarioProjects emptyEnvelope emptyRows) = Except.ok sampleCtx ∧
    serveAPI (sampleExtern scenarioProjects emptyEnvelope emptyRows) =
      { steps := [StartupStep.CtxInit, StartupStep.Printf "Starting API serve\n",
          StartupStep.CheckEnv]
        fatal := some "PG_PASS env variable must be set"
        gNameToDB := none } ∧
    (serveAPI { sampleExtern scenarioProjects emptyEnvelope emptyRows with
        Getenv := fun name => if name ∈ requiredEnv then "set" else "" }).steps =
      [StartupStep.CtxInit, StartupStep.Printf "Starting API serve\n", StartupStep.CheckEnv,
        StartupStep.ReadProjects, StartupStep.SignalNotify,
        StartupStep.HandleFunc "/api/v1", StartupStep.ListenAndServe "0.0.0.0:8080"] ∧
    ∃ fatal, Atoi "abc" = Except.error fatal ∧
      serveAPI { sampleExtern scenarioProjects emptyEnvelope emptyRows with
          Getenv := malformedTimeoutEnv } =
        { steps := [StartupStep.CtxInit], fatal := some fatal, gNameToDB := none } :=
  ⟨rfl,
    (checkEnv_fatal_iff_and_first (sampleExtern scenarioProjects emptyEnvelope emptyRows)).2.1
      sampleCtx "PG_PASS env variable must be set" rfl rfl,
    by decide,
    ⟨_, rfl, rfl⟩⟩

/-! ## The registry is only read -/

theorem threaded_nameToDB_eq (name : String) (G : Globals) :
    Threaded.nameToDB name G = (nameToDB G.gNameToDB name, G) := by
  cases h : mapIndex G.gNameToDB name <;> simp [Threaded.nameToDB, nameToDB, h]

theorem threaded_handleSharedPayload_eq (x : Extern) (apiName : String) (w : ResponseWriter)
    (payload : Payload) (G : Globals) :
    Threaded.handleSharedPayload x apiName w payload G =
      (handleSharedPayload x G.gNameToDB apiName w payload, G) := by
  by_cases hlen : payload.len = 0
  · simp [Threaded.handleSharedPayload, handleSharedPayload, hlen]
  · cases hidx : payload.index "project" with
    | none => simp [Threaded.handleSharedPayload, handleSharedPayload, hlen, hidx]
    | some iproject =>
      cases hstr : iproject.assertString with
      | none => simp [Threaded.handleSharedPayload, handleSharedPayload, hlen, hidx, hstr]
      | some project =>
        cases hdb : mapIndex G.gNameToDB project with
        | none =>
          simp [Threaded.handleSharedPayload, handleSharedPayload, hlen, hidx, hstr,
            threaded_nameToDB_eq, nameToDB_of_none _ _ hdb]
        | some db =>
          simp [Threaded.handleSharedPayload, handleSharedPayload, hlen, hidx, hstr,
            threaded_nameToDB_eq, nameToDB_of_some _ _ _ hdb]

theorem threaded_apiDevActCntRepoGrp_eq (x : Extern) (visit : List String)
    (w : ResponseWriter) (payload : Payload) (G : Globals) :
    Threaded.apiDevActCntRepoGrp x visit w payload G =
      (apiDevActCntRepoGrp x G.gNameToDB visit w payload, G) := by
  rcases hsp : handleSharedPayload x G.gNameToDB x.DevActCntRepoGrp w payload with
    ⟨w1, p, db, passed⟩
  cases passed with
  | false =>
    simp [Threaded.apiDevActCntRepoGrp, apiDevActCntRepoGrp, threaded_handleSharedPayload_eq, hsp]
  | true =>
    rcases hloop : paramsLoop x x.DevActCntRepoGrp payload visit w1
      (paramNames.map (fun name => (name, ""))) with ⟨w2, result⟩
    cases result <;>
      simp [Threaded.apiDevActCntRepoGrp, apiDevActCntRepoGrp, threaded_handleSharedPayload_eq,
        hsp, hloop]

theorem threaded_apiHealth_eq (x : Extern) (w : ResponseWriter) (payload : Payload)
    (G : Globals) :
    Threaded.apiHealth x w payload G = (apiHealth x G.gNameToDB w payload, G) := by
  rcases hsp : handleSharedPayload x G.gNameToDB x.Health w payload with ⟨w1, p, db, passed⟩
  cases passed with
  | false => simp [Threaded.apiHealth, apiHealth, threaded_handleSharedPayload_eq, hsp]
  | true =>
    simp only [Threaded.apiHealth, apiHealth, threaded_handleSharedPayload_eq, hsp, healthQuery]
    cases Ctx.Init x with
    | error fatal => rfl
    | ok ctx0 =>
      simp only []
      cases x.PgConnErr _ with
      | error e => rfl
      | ok c =>
        simp only []
        cases x.QuerySQL c _ _ with
        | error e => rfl
        | ok rows =>
          simp only []
          cases scanLoop rows.scans 0 with
          | error e => rfl
          | ok n =>
            simp only []
            cases rows.err <;> rfl

/-- C20: with the package variables threaded through the request path, every
run of `handleAPI` leaves them as they were: the registry after the request is
the registry before it and no read lock stays held, for every request,
registry and outcome of the validation and of the store. The run is the one
of `handleAPI` over that registry. -/
theorem handleAPI_leaves_registry (x : Extern) (visit : List String) (w : ResponseWriter)
    (req : Request) (G : Globals) :
    (Threaded.handleAPI x visit w req G).2 = G ∧
    (Threaded.handleAPI x visit w req G).2.gNameToDB = G.gNameToDB ∧
    (Threaded.handleAPI x visit w req G).1 = handleAPI x G.gNameToDB visit w req := by
  have h : Threaded.handleAPI x visit w req G = (handleAPI x G.gNameToDB visit w req, G) := by
    cases hdec : x.Decode req.Body with
    | error err => simp [Threaded.handleAPI, handleAPI, hdec]
    | ok pl =>
      by_cases hH : pl.API = x.Health
      · simp [Threaded.handleAPI, handleAPI, hdec, hH, threaded_apiHealth_eq]
      · by_cases hD : pl.API = x.DevActCntRepoGrp
        · have hH2 : ¬ x.DevActCntRepoGrp = x.Health := fun h' => hH (hD.trans h')
          simp [Threaded.handleAPI, handleAPI, hdec, hH2, hD, threaded_apiDevActCntRepoGrp_eq]
        · simp [Threaded.handleAPI, handleAPI, hdec, hH, hD]
  rw [h]
  exact ⟨rfl, rfl, rfl⟩

/-! ## The same health request twice -/

theorem threaded_handleAPI_eq (x : Extern) (visit : List String) (w : ResponseWriter)
    (req : Request) (G : Globals) :
    Threaded.handleAPI x visit w req G = (handleAPI x G.gNameToDB visit w req, G) := by
  cases hdec : x.Decode req.Body with
  | error err => simp [Threaded.handleAPI, handleAPI, hdec]
  | ok pl =>
    by_cases hH : pl.API = x.Health
    · simp [Threaded.handleAPI, handleAPI, hdec, hH, threaded_apiHealth_eq]
    · by_cases hD : pl.API = x.DevActCntRepoGrp
      · have hH2 : ¬ x.DevActCntRepoGrp = x.Health := fun h' => hH (hD.trans h')
        simp [Threaded.handleAPI, handleAPI, hdec, hH2, hD, threaded_apiDevActCntRepoGrp_eq]
      · simp [Threaded.handleAPI, handleAPI, hdec, hH, hD]

/-- The run of `Init` depends on the collaborators only through the
environment, the file system and the parsers. -/
theorem init_congr (x x' : Extern) (henv : x'.Getenv = x.Getenv) (hstat : x'.Stat = x.Stat)
    (htime : x'.TimeParseAny = x.TimeParseAny) (hdur : x'.ParseDuration = x.ParseDuration)
    (hfloat : x'.ParseFloat = x.ParseFloat) (hre : x'.MustCompile = x.MustCompile) :
    Ctx.Init x' = Ctx.Init x := by
  simp only [Ctx.Init, Ctx.initExits, initGitHubOAuth, initActorsFilter, henv, hstat, htime,
    hdur, hfloat, hre]

/-- The run of `apiHealth` depends on the collaborators only through the health
identifier, the rendering of values, the environment, the file system and the
parsers that `Init` consults, and the answers of the store. -/
theorem apiHealth_congr (x x' : Extern) (g : Registry) (w : ResponseWriter) (payload : Payload)
    (hH : x'.Health = x.Health) (hfmt : x'.fmtValue = x.fmtValue)
    (henv : x'.Getenv = x.Getenv) (hconn : x'.PgConnErr = x.PgConnErr)
    (hquery : x'.QuerySQL = x.QuerySQL) (hstat : x'.Stat = x.Stat)
    (htime : x'.TimeParseAny = x.TimeParseAny) (hdur : x'.ParseDuration = x.ParseDuration)
    (hfloat : x'.ParseFloat = x.ParseFloat) (hre : x'.MustCompile = x.MustCompile) :
    apiHealth x' g w payload = apiHealth x g w payload := by
  simp only [apiHealth, handleSharedPayload, init_congr x x' henv hstat htime hdur hfloat hre,
    hH, hfmt, henv, hconn, hquery]

/-- C21: a health request handled twice, each time on a fresh writer, the second
time on the package variables the first run has left, in the same environment
(the variables, and the file system and the parsers that `Init` consults) and
with a store that answers as in the first run, gets the same outcome both
times: the same calls on the response writer, so the same status and the same
payload with the same event count, and the same calls on the store. -/
theorem health_request_repeatable (x x' : Extern) (visit visit' : List String)
    (w : ResponseWriter) (req : Request) (pl : apiPayload) (G : Globals)
    (hdec : x.Decode req.Body = Except.ok pl) (hdec' : x'.Decode req.Body = Except.ok pl)
    (hop : pl.API = x.Health) (hH : x'.Health = x.Health)
    (hfmt : x'.fmtValue = x.fmtValue) (henv : x'.Getenv = x.Getenv)
    (hconn : x'.PgConnErr = x.PgConnErr) (hquery : x'.QuerySQL = x.QuerySQL)
    (hstat : x'.Stat = x.Stat) (htime : x'.TimeParseAny = x.TimeParseAny)
    (hdur : x'.ParseDuration = x.ParseDuration) (hfloat : x'.ParseFloat = x.ParseFloat)
    (hre : x'.MustCompile = x.MustCompile) :
    (Threaded.handleAPI x' visit' w req (Threaded.handleAPI x visit w req G).2).1 =
        (Threaded.handleAPI x visit w req G).1 ∧
      ∀ hpl : healthPayload,
        Call.EncodeHealth hpl ∈
            (Threaded.handleAPI x' visit' w req (Threaded.handleAPI x visit w req G).2).1.w ↔
          Call.EncodeHealth hpl ∈ (Threaded.handleAPI x visit w req G).1.w := by
  have hrun : (Threaded.handleAPI x' visit' w req (Threaded.handleAPI x visit w req G).2).1 =
      (Threaded.handleAPI x visit w req G).1 := by
    rw [threaded_handleAPI_eq x visit w req G, threaded_handleAPI_eq x' visit' w req G]
    have hop' : pl.API = x'.Health := hop.trans hH.symm
    simp only [handleAPI, hdec, hdec', hop, hop', if_true,
      apiHealth_congr x x' G.gNameToDB _ pl.Payload hH hfmt henv hconn hquery hstat htime
        hdur hfloat hre]
    rw [if_pos hH.symm]
  exact ⟨hrun, fun hpl => by rw [hrun]⟩

/-- Witness of C21: the health scenario handled twice, the second time by a
process whose projects file is gone and which visits parameters in another
order, gives status 200 with 42 events both times. -/
theorem health_request_repeatable_witness :
    (Threaded.handleAPI
        { sampleExtern scenarioProjects healthEnvelope (countRows 42) with
          ReadFile := fun _ => Except.error "no such file" }
        paramNames.reverse [] { Body := "" }
        (Threaded.handleAPI (sampleExtern scenarioProjects healthEnvelope (countRows 42))
          paramNames [] { Body := "" }
          { gNameToDB := scenarioRegistry, gMtxReaders := 0 }).2).1 =
      (Threaded.handleAPI (sampleExtern scenarioProjects healthEnvelope (countRows 42))
        paramNames [] { Body := "" } { gNameToDB := scenarioRegistry, gMtxReaders := 0 }).1 ∧
    (Threaded.handleAPI (sampleExtern scenarioProjects healthEnvelope (countRows 42))
        paramNames [] { Body := "" } { gNameToDB := scenarioRegistry, gMtxReaders := 0 }).1.w =
      [Call.HeaderSet "Content-Type" "application/json", Call.WriteHeader 200,
        Call.EncodeHealth { Project := "kubernetes", DB := "db1", Events := 42 }] :=
  ⟨(health_request_repeatable (sampleExtern scenarioProjects healthEnvelope (countRows 42))
      { sampleExtern scenarioProjects healthEnvelope (countRows 42) with
        ReadFile := fun _ => Except.error "no such file" }
      paramNames paramNames.reverse [] { Body := "" } healthEnvelope
      { gNameToDB := scenarioRegistry, gMtxReaders := 0 }
      rfl rfl rfl rfl rfl rfl rfl rfl rfl rfl rfl rfl rfl).1,
    by decide⟩

/-! ## The connection configuration -/

/-- C22: every context that `apiHealth` hands to the store, when it connects and
when it queries, is `healthCtx` for the database the registry holds for the
project of the request: its host, user and password are the values of
`PG_HOST_RO`, `PG_USER_RO` and `PG_PASS_RO`, its database name is that database.
The context does not depend on the write credentials: two environments that
differ only in `PG_USER` and `PG_PASS` give the same context. -/
theorem apiHealth_readonly_config (x : Extern) (g : Registry) (w : ResponseWriter)
    (payload : Payload) :
    (∀ call ∈ (apiHealth x g w payload).2.1, ∀ ctx : Ctx,
      (call = StoreCall.Connect ctx ∨ ∃ c query, call = StoreCall.Query c ctx query) →
        ctx.PgHost = x.Getenv "PG_HOST_RO" ∧ ctx.PgUser = x.Getenv "PG_USER_RO" ∧
        ctx.PgPass = x.Getenv "PG_PASS_RO" ∧
        ∃ p, payload.index "project" = some (Value.str p) ∧ mapIndex g p = some ctx.PgDB ∧
          ctx = healthCtx x ctx.PgDB) ∧
    (∀ (x' : Extern) (db : String),
      (∀ name : String, name ≠ "PG_USER" → name ≠ "PG_PASS" → x'.Getenv name = x.Getenv name) →
        healthCtx x' db = healthCtx x db) := by
  constructor
  · have hctx : ∀ (p db : String), payload.index "project" = some (Value.str p) →
        mapIndex g p = some db → ∀ ctx : Ctx, ctx = healthCtx x db →
        ctx.PgHost = x.Getenv "PG_HOST_RO" ∧ ctx.PgUser = x.Getenv "PG_USER_RO" ∧
        ctx.PgPass = x.Getenv "PG_PASS_RO" ∧
        ∃ p, payload.index "project" = some (Value.str p) ∧ mapIndex g p = some ctx.PgDB ∧
          ctx = healthCtx x ctx.PgDB := by
      intro p db hkey hreg ctx hc
      subst hc
      exact ⟨rfl, rfl, rfl, p, hkey, hreg, rfl⟩
    intro call hmem ctx hcall
    rcases apiHealth_paths x g w payload with ⟨msg, h⟩ |
      ⟨p, db, hkey, hreg, ⟨fatal, _, h⟩ | ⟨e, _, h⟩ | ⟨c, e, _, _, h⟩ | ⟨c, rows, e, _, _, h⟩ |
        ⟨c, rows, n, _, _, h⟩⟩
    · rw [h] at hmem
      cases hmem
    · rw [h] at hmem
      cases hmem
    all_goals
      rw [h] at hmem
      apply hctx p db hkey hreg
      rcases hcall with rfl | ⟨c', q, rfl⟩ <;> simp at hmem <;> simp [hmem]
  · intro x' db hsame
    simp [healthCtx, Ctx.initFields, envOr, hsame]

/-- Witness of C22: on the health scenario with all credentials set, the context
of the connect call has the read-only host, user and password, and the database `db1`. -/
theorem apiHealth_readonly_config_witness :
    (healthCtx { sampleExtern scenarioProjects healthEnvelope (countRows 42) with
        Getenv := credentialsEnv } "db1").PgHost = "replica" ∧
    (healthCtx { sampleExtern scenarioProjects healthEnvelope (countRows 42) with
        Getenv := credentialsEnv } "db1").PgUser = "ro_user" ∧
    (healthCtx { sampleExtern scenarioProjects healthEnvelope (countRows 42) with
        Getenv := credentialsEnv } "db1").PgPass = "ro_pass" ∧
    ∃ p, healthEnvelope.Payload.index "project" = some (Value.str p) ∧
      mapIndex scenarioRegistry p = some (healthCtx
        { sampleExtern scenarioProjects healthEnvelope (countRows 42) with
          Getenv := credentialsEnv } "db1").PgDB ∧
      healthCtx { sampleExtern scenarioProjects healthEnvelope (countRows 42) with
          Getenv := credentialsEnv } "db1" =
        healthCtx { sampleExtern scenarioProjects healthEnvelope (countRows 42) with
          Getenv := credentialsEnv }
          (healthCtx { sampleExtern scenarioProjects healthEnvelope (countRows 42) with
            Getenv := credentialsEnv } "db1").PgDB :=
  (apiHealth_readonly_config { sampleExtern scenarioProjects healthEnvelope (countRows 42) with
      Getenv := credentialsEnv } scenarioRegistry [] healthEnvelope.Payload).1
    (StoreCall.Connect (healthCtx { sampleExtern scenarioProjects healthEnvelope (countRows 42)
      with Getenv := credentialsEnv } "db1"))
    (by decide)
    (healthCtx { sampleExtern scenarioProjects healthEnvelope (countRows 42) with
      Getenv := credentialsEnv } "db1")
    (Or.inl rfl)

/-! ## The registry is built before the endpoint is bound -/

/-- In every run of `serveAPI` that binds the endpoint, `Init` and `readProjects`
have returned before: the step of reading the projects precedes the binding,
and the registry left in `gNameToDB` is the one `readProjects` has built. This
is the sequential part of the publication of the registry; what concurrent
callers of `nameToDB` observe is outside a sequential embedding. -/
theorem serveAPI_registry_before_bind (x : Extern)
    (hbound : StartupStep.HandleFunc "/api/v1" ∈ (serveAPI x).steps) :
    ∃ ctx g, Ctx.Init x = Except.ok ctx ∧ readProjects x ctx = Except.ok g ∧
      (serveAPI x).gNameToDB = some g ∧
      (serveAPI x).fatal = none ∧
      ∃ pre post, (serveAPI x).steps =
        pre ++ [StartupStep.ReadProjects] ++ post ∧
        StartupStep.HandleFunc "/api/v1" ∉ pre ∧
        StartupStep.ListenAndServe "0.0.0.0:8080" ∉ pre := by
  rcases serveAPI_cases x with ⟨fatal, _, h⟩ |
    ⟨ctx, hinit, ⟨msg, _, h⟩ | ⟨msg, _, _, h⟩ | ⟨g, _, hread, h⟩⟩
  · rw [h] at hbound
    simp at hbound
  · rw [h] at hbound
    simp at hbound
  · rw [h] at hbound
    simp at hbound
  · refine ⟨ctx, g, hinit, hread, by rw [h], by rw [h],
      [StartupStep.CtxInit, StartupStep.Printf "Starting API serve\n", StartupStep.CheckEnv],
      [StartupStep.SignalNotify, StartupStep.HandleFunc "/api/v1",
        StartupStep.ListenAndServe "0.0.0.0:8080"], ?_, by simp, by simp⟩
    rw [h]
    rfl

/-! ## String lists and string sets -/

/-- C24: `SkipEmpty` returns the empty list for the one-element list holding only
the empty string, and its input unchanged for every other list. -/
theorem SkipEmpty_contract :
    SkipEmpty [""] = [] ∧ ∀ arr : List String, arr ≠ [""] → SkipEmpty arr = arr := by
  constructor
  · simp [SkipEmpty]
  · intro arr hne
    cases arr with
    | nil => simp [SkipEmpty]
    | cons a rest =>
      cases rest with
      | nil =>
        have ha : a ≠ "" := fun h => hne (by rw [h])
        simp [SkipEmpty, ha]
      | cons b more => simp [SkipEmpty]

/-- Witness of C24: the empty list, a list of one non-empty string and a list of
two empty strings are returned unchanged. -/
theorem SkipEmpty_contract_witness :
    SkipEmpty [] = [] ∧ SkipEmpty ["x"] = ["x"] ∧ SkipEmpty ["", ""] = ["", ""] :=
  ⟨SkipEmpty_contract.2 [] (by decide), SkipEmpty_contract.2 ["x"] (by decide),
    SkipEmpty_contract.2 ["", ""] (by decide)⟩

theorem set_length_append (pre : List String) (a b : String) (tl : List String) :
    (pre ++ a :: tl).set pre.length b = pre ++ b :: tl := by
  induction pre with
  | nil => rfl
  | cons p rest ih => simp [List.set, ih]

theorem StringsMapToArrayLoop_eq (f : String → String) (rest pre : List String) :
    StringsMapToArrayLoop f rest pre.length (pre ++ List.replicate rest.length "") =
      pre ++ rest.map f := by
  induction rest generalizing pre with
  | nil => simp [StringsMapToArrayLoop]
  | cons str more ih =>
    have hset : (pre ++ List.replicate (more.length + 1) "").set pre.length (f str) =
        (pre ++ [f str]) ++ List.replicate more.length "" := by
      rw [List.replicate_succ, set_length_append]
      simp
    have hlen : pre.length + 1 = (pre ++ [f str]).length := by simp
    simp only [StringsMapToArrayLoop, List.length_cons, hset]
    rw [hlen, ih (pre ++ [f str])]
    simp

/-- C25: `StringsMapToArray(f, arr)` is the element-wise image of `SkipEmpty(arr)`
under `f`: the same length, and at every index `f` of the element at that index. -/
theorem StringsMapToArray_contract (f : String → String) (arr : List String) :
    StringsMapToArray f arr = (SkipEmpty arr).map f ∧
    (StringsMapToArray f arr).length = (SkipEmpty arr).length ∧
    ∀ i : Nat, (StringsMapToArray f arr)[i]? = ((SkipEmpty arr)[i]?).map f := by
  have h : StringsMapToArray f arr = (SkipEmpty arr).map f := by
    have hloop := StringsMapToArrayLoop_eq f (SkipEmpty arr) []
    simpa [StringsMapToArray] using hloop
  rw [h]
  exact ⟨rfl, by simp, fun i => by simp⟩

/-- Witness of C25: trimming blanks over three padded strings. -/
theorem StringsMapToArray_contract_witness :
    StringsMapToArray trimSpaces [" a", " b ", "c "] = ["a", "b", "c"] :=
  (StringsMapToArray_contract trimSpaces [" a", " b ", "c "]).1.trans (by decide)

theorem StringsMapToSetLoop_isSome (f : String → String) (l : List String)
    (outSet : List (String × Unit)) (k : String) :
    (mapIndex (StringsMapToSetLoop f l outSet) k).isSome = true ↔
      (mapIndex outSet k).isSome = true ∨ ∃ s ∈ l, k = f s := by
  induction l generalizing outSet with
  | nil => simp [StringsMapToSetLoop]
  | cons str rest ih =>
    simp only [StringsMapToSetLoop]
    rw [ih, mapIndex_mapAssign]
    by_cases hk : f str = k
    · simp [hk]
    · have hk' : ¬ k = f str := fun h => hk h.symm
      simp [hk, hk']

/-- C26: a string `k` is a member of `StringsMapToSet(f, arr)` exactly when
`k = f(s)` for some element `s` of `SkipEmpty(arr)`; the input that holds only
the empty string gives the empty set. -/
theorem StringsMapToSet_contract (f : String → String) (arr : List String) (k : String) :
    ((mapIndex (StringsMapToSet f arr) k).isSome = true ↔ ∃ s ∈ SkipEmpty arr, k = f s) ∧
    StringsMapToSet f [""] = [] := by
  constructor
  · simp [StringsMapToSet, StringsMapToSetLoop_isSome, mapIndex]
  · simp [StringsMapToSet, SkipEmpty, StringsMapToSetLoop]

/-- Witness of C26: trimming blanks over two strings with the same image and a third one. -/
theorem StringsMapToSet_contract_witness :
    StringsMapToSet trimSpaces [" a", "a ", "b"] = [("a", ()), ("b", ())] ∧
    ((mapIndex (StringsMapToSet trimSpaces [" a", "a ", "b"]) "a").isSome = true ↔
      ∃ s ∈ SkipEmpty [" a", "a ", "b"], "a" = trimSpaces s) :=
  ⟨by decide, (StringsMapToSet_contract trimSpaces [" a", "a ", "b"] "a").1⟩

theorem mapIndex_isSome_iff_mem {α : Type} (m : List (String × α)) (k : String) :
    (mapIndex m k).isSome = true ↔ k ∈ m.map Prod.fst := by
  induction m with
  | nil => simp [mapIndex]
  | cons e rest ih =>
    obtain ⟨k0, v0⟩ := e
    by_cases h : k0 = k
    · simp [mapIndex, h]
    · have h' : ¬ k = k0 := fun hk => h hk.symm
      simp [mapIndex, h, h', ih]

theorem StringsSetKeysLoop_eq (rest : List (String × Unit)) (pre : List String) :
    StringsSetKeysLoop rest pre.length (pre ++ List.replicate rest.length "") =
      pre ++ rest.map Prod.fst := by
  induction rest generalizing pre with
  | nil => simp [StringsSetKeysLoop]
  | cons entry more ih =>
    have hset : (pre ++ List.replicate (more.length + 1) "").set pre.length entry.1 =
        (pre ++ [entry.1]) ++ List.replicate more.length "" := by
      rw [List.replicate_succ, set_length_append]
      simp
    have hlen : pre.length + 1 = (pre ++ [entry.1]).length := by simp
    simp only [StringsSetKeysLoop, List.length_cons, hset]
    rw [hlen, ih (pre ++ [entry.1])]
    simp

/-- On a set with distinct keys, `StringsSetKeys` sorts the keys in visiting order. -/
theorem StringsSetKeys_eq (set : List (String × Unit)) (hnodup : (set.map Prod.fst).Nodup) :
    StringsSetKeys set = sortStrings (set.map Prod.fst) := by
  have hlen : mapLen set = set.length := by
    simp [mapLen, hnodup.dedup]
  have hloop := StringsSetKeysLoop_eq set []
  simp only [List.length_nil, List.nil_append] at hloop
  simp only [StringsSetKeys, hlen, hloop]

/-- C27: for every string set, given as the entries of the map with their
distinct keys in any visiting order, `StringsSetKeys` returns exactly the keys
of the set, each once, as many as the set has, in strictly ascending
lexicographic order. -/
theorem StringsSetKeys_contract (set : List (String × Unit))
    (hnodup : (set.map Prod.fst).Nodup) :
    (∀ k : String, k ∈ StringsSetKeys set ↔ (mapIndex set k).isSome = true) ∧
    (StringsSetKeys set).Nodup ∧
    (StringsSetKeys set).length = mapLen set ∧
    (StringsSetKeys set).Sorted (fun s t => s < t) := by
  have hperm : (StringsSetKeys set).Perm (set.map Prod.fst) := by
    rw [StringsSetKeys_eq set hnodup]
    exact List.perm_insertionSort _ _
  have hnd : (StringsSetKeys set).Nodup := hperm.nodup_iff.mpr hnodup
  refine ⟨?_, hnd, ?_, ?_⟩
  · intro k
    rw [mapIndex_isSome_iff_mem]
    exact hperm.mem_iff
  · rw [hperm.length_eq]
    simp [mapLen, hnodup.dedup]
  · have hsorted : (StringsSetKeys set).Sorted (fun s t => s ≤ t) := by
      rw [StringsSetKeys_eq set hnodup]
      exact List.sorted_insertionSort _ _
    exact hsorted.lt_of_le hnd

/-- Witness of C27: the set of `b`, `a`, `c` in that visiting order gives `a`, `b`, `c`. -/
theorem StringsSetKeys_contract_witness :
    ([("b", ()), ("a", ()), ("c", ())].map Prod.fst).Nodup ∧
    StringsSetKeys [("b", ()), ("a", ()), ("c", ())] = ["a", "b", "c"] ∧
    (StringsSetKeys [("b", ()), ("a", ()), ("c", ())]).Sorted (fun s t => s < t) :=
  ⟨by decide,
    by
      simp [StringsSetKeys, sortStrings, StringsSetKeysLoop, mapLen, List.dedup, List.pwFilter,
        List.insertionSort, List.orderedInsert]
      decide,
    (StringsSetKeys_contract [("b", ()), ("a", ()), ("c", ())] (by decide)).2.2.2⟩

/-! ## Sections of `Ctx.Init` -/

/-- C28, on the code: with `GHA2DB_HTTP_TIMEOUT` unset, `Init` leaves 3 in
`HTTPTimeout`, where the field is documented with the default 2; with the
variable set to `2` or to `10`, it leaves that integer. -/
theorem initHTTPTimeout_default_is_three :
    initHTTPTimeout (fun _ => "") = Except.ok 3 ∧
    initHTTPTimeout (fun _ => "") ≠ Except.ok 2 ∧
    initHTTPTimeout (fun name => if name = "GHA2DB_HTTP_TIMEOUT" then "2" else "")
      = Except.ok 2 ∧
    initHTTPTimeout (fun name => if name = "GHA2DB_HTTP_TIMEOUT" then "10" else "")
      = Except.ok 10 := by
  refine ⟨rfl, ?_, rfl, rfl⟩
  intro h
  cases h

/-- C29, on the code: with `GHA2DB_HTTP_RETRY` unset, `Init` leaves 5 in
`HTTPRetry`, where the field is documented with the default 4; with the
variable set to `4` or to `7`, it leaves that integer. -/
theorem initHTTPRetry_default_is_five :
    initHTTPRetry (fun _ => "") = Except.ok 5 ∧
    initHTTPRetry (fun _ => "") ≠ Except.ok 4 ∧
    initHTTPRetry (fun name => if name = "GHA2DB_HTTP_RETRY" then "4" else "")
      = Except.ok 4 ∧
    initHTTPRetry (fun name => if name = "GHA2DB_HTTP_RETRY" then "7" else "")
      = Except.ok 7 := by
  refine ⟨rfl, ?_, rfl, rfl⟩
  intro h
  cases h

theorem mk_cons_eq_minus_append (c : Char) (cs : List Char) (name : String) :
    (String.mk (c :: cs) = "-" ++ name) ↔ (c = '-' ∧ String.mk cs = name) := by
  rw [String.ext_iff]
  simp [String.data_append]
  intro _
  constructor
  · intro h
    exact String.ext h
  · intro h
    rw [← h]

theorem mk_cons_eq_plus_append (c : Char) (cs : List Char) (name : String) :
    (String.mk (c :: cs) = "+" ++ name) ↔ (c = '+' ∧ String.mk cs = name) := by
  rw [String.ext_iff]
  simp [String.data_append]
  intro _
  constructor
  · intro h
    exact String.ext h
  · intro h
    rw [← h]

theorem mk_eq_empty_iff (cs : List Char) : (String.mk cs = "") ↔ cs = [] := by
  simp [String.ext_iff]

theorem mk_singleton_eq_minus (c : Char) : (String.mk [c] = "-") ↔ c = '-' := by
  simp [String.ext_iff]

theorem mk_singleton_eq_plus (c : Char) : (String.mk [c] = "+") ↔ c = '+' := by
  simp [String.ext_iff]

/-- One turn of the override loop never panics, leaves the empty name without an
entry of its own, and changes the entry of a non-empty name exactly when the
item is that name behind a `-` or a `+`. -/
theorem overrideStep_spec (m : List (String × Bool)) (override : String) :
    ∃ m1, overrideStep m override = some m1 ∧
      mapIndex m1 "" = mapIndex m "" ∧
      ∀ name : String, name ≠ "" →
        mapIndex m1 name =
          if override = "-" ++ name then some false
          else if override = "+" ++ name then some true
          else mapIndex m name := by
  obtain ⟨cs⟩ := override
  cases cs with
  | nil =>
    refine ⟨m, by simp [overrideStep, mk_eq_empty_iff], rfl, ?_⟩
    intro name _
    have h1 : ¬ (String.mk [] = "-" ++ name) := by simp [String.ext_iff, String.data_append]
    have h2 : ¬ (String.mk [] = "+" ++ name) := by simp [String.ext_iff, String.data_append]
    simp [h1, h2]
  | cons c rest =>
    have hne : ¬ (String.mk (c :: rest) = "") := by simp [mk_eq_empty_iff]
    have hfrom : sliceFrom (String.mk (c :: rest)) 1 = some (String.mk rest) := by
      simp [sliceFrom, String.length]
    have hto : sliceTo (String.mk (c :: rest)) 1 = some (String.mk [c]) := by
      simp [sliceTo, String.length]
    by_cases hrest : rest = []
    · subst hrest
      refine ⟨m, by simp [overrideStep, hne, hfrom, mk_eq_empty_iff], rfl, ?_⟩
      intro name hname
      have hname' : ¬ (String.mk [] = name) := fun h => hname h.symm
      simp [mk_cons_eq_minus_append, mk_cons_eq_plus_append, hname']
    · have hproj : ¬ (String.mk rest = "") := by simp [mk_eq_empty_iff, hrest]
      by_cases hminus : c = '-'
      · subst hminus
        refine ⟨mapAssign m (String.mk rest) false,
          by simp [overrideStep, hne, hfrom, hto, hproj], ?_, ?_⟩
        · rw [mapIndex_mapAssign, if_neg hproj]
        · intro name _
          rw [mapIndex_mapAssign]
          simp [mk_cons_eq_minus_append, mk_cons_eq_plus_append]
      · by_cases hplus : c = '+'
        · subst hplus
          refine ⟨mapAssign m (String.mk rest) true,
            by simp [overrideStep, hne, hfrom, hto, hproj, mk_singleton_eq_minus,
              mk_singleton_eq_plus], ?_, ?_⟩
          · rw [mapIndex_mapAssign, if_neg hproj]
          · intro name _
            rw [mapIndex_mapAssign]
            simp [mk_cons_eq_minus_append, mk_cons_eq_plus_append]
        · refine ⟨m, by simp [overrideStep, hne, hfrom, hto, hproj, mk_singleton_eq_minus,
            mk_singleton_eq_plus, hminus, hplus], rfl, ?_⟩
          intro name _
          simp [mk_cons_eq_minus_append, mk_cons_eq_plus_append, hminus, hplus]

/-- The override loop never panics, and after it the entry of a non-empty name
is the mode of the last item for that name, or the entry it had before when
there is no such item. -/
theorem overrideLoop_spec (items : List String) (m : List (String × Bool)) :
    ∃ m', overrideLoop items m = some m' ∧
      mapIndex m' "" = mapIndex m "" ∧
      ∀ name : String, name ≠ "" →
        mapIndex m' name =
          match lastOverrideOf name items with
          | some mode => some mode
          | none => mapIndex m name := by
  induction items generalizing m with
  | nil => exact ⟨m, rfl, rfl, fun name _ => rfl⟩
  | cons item rest ih =>
    obtain ⟨m1, hstep, hempty1, hname1⟩ := overrideStep_spec m item
    obtain ⟨m', hloop, hempty, hname⟩ := ih m1
    refine ⟨m', by simp [overrideLoop, hstep, hloop], by rw [hempty, hempty1], ?_⟩
    intro name hne
    rw [hname name hne, hname1 name hne]
    cases hlast : lastOverrideOf name rest with
    | some mode => simp [lastOverrideOf, hlast]
    | none =>
      simp only [lastOverrideOf, hlast]
      split_ifs <;> rfl

/-- C30: for every value of `GHA2DB_PROJECTS_OVERRIDE`, `Init` ends the section
without a slicing panic, and the map it leaves holds, for every non-empty
name, the mode of the last item of the comma-separated list that is `-name`
(`false`) or `+name` (`true`), and no entry when no item is one of the two;
the empty name has no entry. Items of any other form change nothing. -/
theorem initProjectsOverride_reads_items (getenv : String → String) :
    ∃ m, initProjectsOverride getenv = some m ∧
      mapIndex m "" = none ∧
      ∀ name : String, name ≠ "" →
        mapIndex m name =
          lastOverrideOf name (stringsSplit (getenv "GHA2DB_PROJECTS_OVERRIDE") ',') := by
  by_cases hset : getenv "GHA2DB_PROJECTS_OVERRIDE" = ""
  · refine ⟨[], by simp [initProjectsOverride, hset], rfl, ?_⟩
    intro name hne
    have h1 : ¬ ("" = "-" ++ name) := by simp [String.ext_iff, String.data_append]
    have h2 : ¬ ("" = "+" ++ name) := by simp [String.ext_iff, String.data_append]
    have hsplit : stringsSplit "" ',' = [""] := by decide
    simp [hset, hsplit, lastOverrideOf, mapIndex, h1, h2]
  · obtain ⟨m, hloop, hempty, hname⟩ :=
      overrideLoop_spec (stringsSplit (getenv "GHA2DB_PROJECTS_OVERRIDE") ',') []
    refine ⟨m, by simp [initProjectsOverride, hset, hloop], by rw [hempty]; rfl, ?_⟩
    intro name hne
    rw [hname name hne]
    cases lastOverrideOf name (stringsSplit (getenv "GHA2DB_PROJECTS_OVERRIDE") ',') <;> rfl

/-- Witness of C30: the documented example, and a list with items of every form. -/
theorem initProjectsOverride_reads_items_witness :
    initProjectsOverride (fun _ => "-pro1,+pro2") = some [("pro1", false), ("pro2", true)] ∧
    initProjectsOverride (fun _ => "-pro1,+,x,,-,pro2,+pro1") = some [("pro1", true)] ∧
    ∃ m, initProjectsOverride (fun _ => "-pro1,+pro2") = some m ∧
      mapIndex m "" = none ∧
      ∀ name : String, name ≠ "" →
        mapIndex m name = lastOverrideOf name (stringsSplit "-pro1,+pro2" ',') :=
  ⟨by decide, by decide, initProjectsOverride_reads_items (fun _ => "-pro1,+pro2")⟩

/-- C32: whenever `Init` gets past the section, `RecalcReciprocal` is strictly
positive. It is 24 when `GHA2DB_RECALC_RECIPROCAL` is unset, the integer the
variable holds when that is positive, and 24 when that is zero or negative;
the section ends the process only on a value that is not an integer. -/
theorem initRecalcReciprocal_positive (getenv : String → String) :
    (getenv "GHA2DB_RECALC_RECIPROCAL" = "" → initRecalcReciprocal getenv = Except.ok 24) ∧
    (∀ n : Int, getenv "GHA2DB_RECALC_RECIPROCAL" ≠ "" →
      Atoi (getenv "GHA2DB_RECALC_RECIPROCAL") = Except.ok n → 0 < n →
        initRecalcReciprocal getenv = Except.ok n) ∧
    (∀ n : Int, getenv "GHA2DB_RECALC_RECIPROCAL" ≠ "" →
      Atoi (getenv "GHA2DB_RECALC_RECIPROCAL") = Except.ok n → n ≤ 0 →
        initRecalcReciprocal getenv = Except.ok 24) ∧
    (∀ err : String, getenv "GHA2DB_RECALC_RECIPROCAL" ≠ "" →
      Atoi (getenv "GHA2DB_RECALC_RECIPROCAL") = Except.error err →
        initRecalcReciprocal getenv = Except.error err) ∧
    (∀ v : Int, initRecalcReciprocal getenv = Except.ok v → 0 < v) := by
  refine ⟨?_, ?_, ?_, ?_, ?_⟩
  · intro hunset
    simp [initRecalcReciprocal, hunset]
  · intro n hset hn hpos
    simp [initRecalcReciprocal, hset, hn, hpos]
  · intro n hset hn hle
    have hnot : ¬ n > 0 := not_lt.mpr hle
    simp [initRecalcReciprocal, hset, hn, hnot]
  · intro err hset herr
    simp [initRecalcReciprocal, hset, herr]
  · intro v hv
    by_cases hunset : getenv "GHA2DB_RECALC_RECIPROCAL" = ""
    · simp [initRecalcReciprocal, hunset] at hv
      omega
    · cases hatoi : Atoi (getenv "GHA2DB_RECALC_RECIPROCAL") with
      | error err => simp [initRecalcReciprocal, hunset, hatoi] at hv
      | ok rr =>
        by_cases hpos : rr > 0
        · simp [initRecalcReciprocal, hunset, hatoi, hpos] at hv
          omega
        · simp [initRecalcReciprocal, hunset, hatoi, hpos] at hv
          omega

/-- Witness of C32: the variable unset, and holding `12`, `0` and `-3`. -/
theorem initRecalcReciprocal_positive_witness :
    initRecalcReciprocal (fun _ => "") = Except.ok 24 ∧
    initRecalcReciprocal (fun _ => "12") = Except.ok 12 ∧
    initRecalcReciprocal (fun _ => "0") = Except.ok 24 ∧
    initRecalcReciprocal (fun _ => "-3") = Except.ok 24 ∧
    (0 : Int) < 12 :=
  ⟨(initRecalcReciprocal_positive (fun _ => "")).1 rfl,
    (initRecalcReciprocal_positive (fun _ => "12")).2.1 12 (by decide) rfl (by decide),
    (initRecalcReciprocal_positive (fun _ => "0")).2.2.1 0 (by decide) rfl (by decide),
    (initRecalcReciprocal_positive (fun _ => "-3")).2.2.1 (-3) (by decide) rfl (by decide),
    (initRecalcReciprocal_positive (fun _ => "12")).2.2.2.2 12 rfl⟩

/-! ## The order in which parameters are visited -/

/-- The error `getPayloadStringParam` writes for a name without a string in the
payload: the one of an absent key, or the one of a value that is not a string. -/
theorem getPayloadStringParam_invalid_form (x : Extern) (apiName paramName : String)
    (w : ResponseWriter) (payload : Payload)
    (h : ∀ s : String, payload.index paramName ≠ some (Value.str s)) :
    ∃ msg, getPayloadStringParam x apiName paramName w payload =
        (w ++ [Call.WriteHeader 400, Call.EncodeError { Error := msg }], "", false) ∧
      ((payload.index paramName = none ∧
          msg = "API '" ++ apiName ++ "' missing '" ++ paramName
            ++ "' field in 'payload' section") ∨
        (∃ v : Value, payload.index paramName = some v ∧ (∀ s : String, v ≠ Value.str s) ∧
          msg = "API '" ++ apiName ++ "' 'payload' '" ++ paramName ++ "' field '"
            ++ x.fmtValue v ++ "' is not a string")) := by
  cases hidx : payload.index paramName with
  | none =>
    exact ⟨"API '" ++ apiName ++ "' missing '" ++ paramName ++ "' field in 'payload' section",
      by simp [getPayloadStringParam, hidx, returnError, StatusBadRequest],
      Or.inl ⟨rfl, rfl⟩⟩
  | some v =>
    have hv : ∀ s : String, v ≠ Value.str s := by
      intro s hs
      subst hs
      exact h s hidx
    have hassert : v.assertString = none := (Value.assertString_eq_none_iff v).mpr hv
    exact ⟨"API '" ++ apiName ++ "' 'payload' '" ++ paramName ++ "' field '"
        ++ x.fmtValue v ++ "' is not a string",
      by simp [getPayloadStringParam, hidx, hassert, returnError, StatusBadRequest],
      Or.inr ⟨v, rfl, hv, rfl⟩⟩

/-- When the first visited name has no string in the payload, the loop stops on its error. -/
theorem paramsLoop_head_invalid (x : Extern) (apiName : String) (payload : Payload)
    (name : String) (rest : List String) (w : ResponseWriter) (params : List (String × String))
    (h : ∀ s : String, payload.index name ≠ some (Value.str s)) :
    paramsLoop x apiName payload (name :: rest) w params =
      ((getPayloadStringParam x apiName name w payload).1, none) := by
  obtain ⟨msg, hmsg⟩ := getPayloadStringParam_of_invalid x apiName name w payload h
  simp [paramsLoop, hmsg]

/-- C33: in `apiDevActCntRepoGrp`, with a project that is a string and a key of
the registry and at least one of the five parameters absent or not a string:
for every order in which the five names are visited, exactly one error is
written, and it is the error of `getPayloadStringParam` for a parameter that is
absent or not a string in the payload, naming that parameter; when only one
parameter is absent or not a string, the outcome is the same for every order;
and every parameter that is absent or not a string is the one reported under
some order, so that with two or more of them the report depends on the order. -/
theorem apiDevActCntRepoGrp_error_any_order (x : Extern) (g : Registry) (w : ResponseWriter)
    (payload : Payload) (p db : String)
    (hkey : payload.index "project" = some (Value.str p)) (hreg : mapIndex g p = some db)
    (hinvalid : ∃ name ∈ paramNames, ∀ s : String, payload.index name ≠ some (Value.str s)) :
    (∀ visit : List String, visit.Perm paramNames →
      ∃ name ∈ paramNames, (∀ s : String, payload.index name ≠ some (Value.str s)) ∧
        ∃ msg, apiDevActCntRepoGrp x g visit w payload =
            (w ++ [Call.WriteHeader 400, Call.EncodeError { Error := msg }], []) ∧
          ((payload.index name = none ∧
              msg = "API '" ++ x.DevActCntRepoGrp ++ "' missing '" ++ name
                ++ "' field in 'payload' section") ∨
            (∃ v : Value, payload.index name = some v ∧ (∀ s : String, v ≠ Value.str s) ∧
              msg = "API '" ++ x.DevActCntRepoGrp ++ "' 'payload' '" ++ name ++ "' field '"
                ++ x.fmtValue v ++ "' is not a string"))) ∧
    ((∀ n1 ∈ paramNames, ∀ n2 ∈ paramNames,
        (∀ s : String, payload.index n1 ≠ some (Value.str s)) →
        (∀ s : String, payload.index n2 ≠ some (Value.str s)) → n1 = n2) →
      ∀ visit visit' : List String, visit.Perm paramNames → visit'.Perm paramNames →
        apiDevActCntRepoGrp x g visit w payload = apiDevActCntRepoGrp x g visit' w payload) ∧
    (∀ name ∈ paramNames, (∀ s : String, payload.index name ≠ some (Value.str s)) →
      ∃ visit : List String, visit.Perm paramNames ∧
        apiDevActCntRepoGrp x g visit w payload =
          ((getPayloadStringParam x x.DevActCntRepoGrp name w payload).1, [])) := by
  have hshared := handleSharedPayload_of_known x g x.DevActCntRepoGrp w payload p db hkey hreg
  have hrun : ∀ visit : List String, visit.Perm paramNames →
      ∃ name ∈ paramNames, (∀ s : String, payload.index name ≠ some (Value.str s)) ∧
        apiDevActCntRepoGrp x g visit w payload =
          ((getPayloadStringParam x x.DevActCntRepoGrp name w payload).1, []) := by
    intro visit hperm
    obtain ⟨name0, hmem0, hinv0⟩ := hinvalid
    obtain ⟨n, hn, hinv, hloop⟩ := paramsLoop_fail x x.DevActCntRepoGrp payload visit w
      (paramNames.map (fun name => (name, ""))) ⟨name0, hperm.mem_iff.mpr hmem0, hinv0⟩
    exact ⟨n, hperm.mem_iff.mp hn, hinv, by simp [apiDevActCntRepoGrp, hshared, hloop]⟩
  refine ⟨?_, ?_, ?_⟩
  · intro visit hperm
    obtain ⟨n, hn, hinv, hrun'⟩ := hrun visit hperm
    obtain ⟨msg, hmsg, hform⟩ :=
      getPayloadStringParam_invalid_form x x.DevActCntRepoGrp n w payload hinv
    exact ⟨n, hn, hinv, msg, by rw [hrun', hmsg], hform⟩
  · intro hone visit visit' hperm hperm'
    obtain ⟨n, hn, hinv, hrun1⟩ := hrun visit hperm
    obtain ⟨n', hn', hinv', hrun2⟩ := hrun visit' hperm'
    rw [hrun1, hrun2, hone n hn n' hn' hinv hinv']
  · intro name hmem hinv
    refine ⟨name :: paramNames.erase name, (List.perm_cons_erase hmem).symm, ?_⟩
    have hloop := paramsLoop_head_invalid x x.DevActCntRepoGrp payload name
      (paramNames.erase name) w (paramNames.map (fun n => (n, ""))) hinv
    simp [apiDevActCntRepoGrp, hshared, hloop]

/-- Witness of C33: with `range` given as `null` and `country` absent, the order
as written reports `range` and the reverse order reports `country`; in both
one error is written and nothing is handed off. -/
theorem apiDevActCntRepoGrp_error_any_order_witness :
    (∃ name ∈ paramNames, (∀ s : String, twoInvalidPayload.index name ≠ some (Value.str s)) ∧
      ∃ msg, apiDevActCntRepoGrp (sampleExtern scenarioProjects emptyEnvelope emptyRows)
            scenarioRegistry paramNames [] twoInvalidPayload =
            ([] ++ [Call.WriteHeader 400, Call.EncodeError { Error := msg }], []) ∧
          ((twoInvalidPayload.index name = none ∧
              msg = "API '" ++ "dev_act_cnt_repo_grp" ++ "' missing '" ++ name
                ++ "' field in 'payload' section") ∨
            (∃ v : Value, twoInvalidPayload.index name = some v ∧
              (∀ s : String, v ≠ Value.str s) ∧
              msg = "API '" ++ "dev_act_cnt_repo_grp" ++ "' 'payload' '" ++ name ++ "' field '"
                ++ (sampleExtern scenarioProjects emptyEnvelope emptyRows).fmtValue v
                ++ "' is not a string"))) ∧
    apiDevActCntRepoGrp (sampleExtern scenarioProjects emptyEnvelope emptyRows)
        scenarioRegistry paramNames [] twoInvalidPayload =
      ([Call.WriteHeader 400, Call.EncodeError
        { Error := "API 'dev_act_cnt_repo_grp' 'payload' 'range' field '<nil>' is not a string" }],
        []) ∧
    apiDevActCntRepoGrp (sampleExtern scenarioProjects emptyEnvelope emptyRows)
        scenarioRegistry paramNames.reverse [] twoInvalidPayload =
      ([Call.WriteHeader 400, Call.EncodeError
        { Error := "API 'dev_act_cnt_repo_grp' missing 'country' field in 'payload' section" }],
        []) :=
  ⟨(apiDevActCntRepoGrp_error_any_order (sampleExtern scenarioProjects emptyEnvelope emptyRows)
      scenarioRegistry [] twoInvalidPayload "kubernetes" "db1" rfl (by decide)
      ⟨"country", by decide, fun s h => by
        have h2 : (none : Option Value) = some (Value.str s) := h
        cases h2⟩).1 paramNames (List.Perm.refl _),
    by decide, by decide⟩

/-! ## The forced periods -/

theorem mem_boolSetInsert (set : List Bool) (a b : Bool) :
    a ∈ boolSetInsert set b ↔ a ∈ set ∨ a = b := by
  unfold boolSetInsert
  split_ifs with h
  · constructor
    · exact Or.inl
    · rintro (h1 | h1)
      · exact h1
      · rw [h1]
        exact h
  · simp

/-- A turn on an item that names the period `period` with the flag `hist`: the
map is made if it was nil, and the flag is added to the set of the period. -/
theorem periodsStep_of_forced (cp : Option (List (String × List Bool))) (data period : String)
    (hist : Bool) (h : forcedPeriodOf data = some (period, hist)) :
    ∃ m, periodsStep cp data = some m ∧
      (∀ q : String, q ≠ period →
        mapIndex m q = mapIndex (cp.getD []) q) ∧
      ∃ set, mapIndex m period = some set ∧
        ∀ b : Bool, b ∈ set ↔
          (b = hist ∨ ∃ set0, mapIndex (cp.getD []) period
            = some set0 ∧ b ∈ set0) := by
  cases hsplit : stringsSplit data ':' with
  | nil => simp [forcedPeriodOf, hsplit] at h
  | cons a t =>
    cases t with
    | nil => simp [forcedPeriodOf, hsplit] at h
    | cons second t2 =>
      cases t2 with
      | cons c t3 => simp [forcedPeriodOf, hsplit] at h
      | nil =>
        have hvalid : ¬ (TrimSpace second ≠ "t" ∧ TrimSpace second ≠ "f") := by
          by_cases ht : TrimSpace second = "t"
          · simp [ht]
          · by_cases hf : TrimSpace second = "f"
            · simp [hf]
            · simp [forcedPeriodOf, hsplit, ht, hf] at h
        have hpair : a = period ∧ decide (TrimSpace second = "t") = hist := by
          by_cases ht : TrimSpace second = "t"
          · simp [forcedPeriodOf, hsplit, ht] at h
            simp [ht, h.1, h.2]
          · by_cases hf : TrimSpace second = "f"
            · simp [forcedPeriodOf, hsplit, ht, hf] at h
              simp [ht, h.1, h.2]
            · simp [forcedPeriodOf, hsplit, ht, hf] at h
        obtain ⟨ha, hh⟩ := hpair
        subst ha
        have hnot : ¬ (¬ TrimSpace second = "t" ∧ ¬ TrimSpace second = "f") := hvalid
        rcases cp with _ | m0
        · refine ⟨mapAssign (mapAssign [] a []) a (boolSetInsert [] hist), ?_, ?_, ?_⟩
          · simp [periodsStep, hsplit, hnot, hh, mapIndex, mapAssign]
          · intro q hq
            have hq' : ¬ a = q := fun e => hq e.symm
            simp [mapIndex_mapAssign, hq']
          · exact ⟨boolSetInsert [] hist, by simp [mapIndex_mapAssign], fun b => by
              simp [mem_boolSetInsert, mapIndex]⟩
        · cases hidx : mapIndex m0 a with
          | none =>
            refine ⟨mapAssign (mapAssign m0 a []) a (boolSetInsert [] hist), ?_, ?_, ?_⟩
            · simp [periodsStep, hsplit, hnot, hh, hidx, mapIndex_mapAssign]
            · intro q hq
              have hq' : ¬ a = q := fun e => hq e.symm
              simp [mapIndex_mapAssign, hq']
            · exact ⟨boolSetInsert [] hist, by simp [mapIndex_mapAssign], fun b => by
                simp [mem_boolSetInsert, hidx]⟩
          | some set0 =>
            refine ⟨mapAssign m0 a (boolSetInsert set0 hist), ?_, ?_, ?_⟩
            · simp [periodsStep, hsplit, hnot, hh, hidx]
            · intro q hq
              have hq' : ¬ a = q := fun e => hq e.symm
              simp [mapIndex_mapAssign, hq']
            · exact ⟨boolSetInsert set0 hist, by simp [mapIndex_mapAssign], fun b => by
                simp [mem_boolSetInsert, hidx, or_comm]⟩

/-- A turn on an item that names nothing leaves the map as it was. -/
theorem periodsStep_of_skipped (cp : Option (List (String × List Bool))) (data : String)
    (h : forcedPeriodOf data = none) : periodsStep cp data = cp := by
  cases hsplit : stringsSplit data ':' with
  | nil => simp [periodsStep, hsplit]
  | cons a t =>
    cases t with
    | nil => simp [periodsStep, hsplit]
    | cons second t2 =>
      cases t2 with
      | cons c t3 => simp [periodsStep, hsplit]
      | nil =>
        have hinvalid : TrimSpace second ≠ "t" ∧ TrimSpace second ≠ "f" := by
          by_cases ht : TrimSpace second = "t"
          · simp [forcedPeriodOf, hsplit, ht] at h
          · by_cases hf : TrimSpace second = "f"
            · simp [forcedPeriodOf, hsplit, ht, hf] at h
            · exact ⟨ht, hf⟩
        simp only [periodsStep, hsplit]
        rw [if_pos hinvalid]

theorem computePeriodsHas_iff (cp : Option (List (String × List Bool))) (q : String)
    (b : Bool) :
    computePeriodsHas cp q b = true ↔
      ∃ set0, mapIndex (cp.getD []) q = some set0 ∧
        b ∈ set0 := by
  rcases cp with _ | m
  · simp [computePeriodsHas, mapIndex]
  · cases h : mapIndex m q <;> simp [computePeriodsHas, h]

/-- After a turn, a flag is in the set of a period exactly when it was there
before or the item names that period with that flag. -/
theorem periodsStep_has (cp : Option (List (String × List Bool))) (data q : String)
    (b : Bool) :
    computePeriodsHas (periodsStep cp data) q b = true ↔
      computePeriodsHas cp q b = true ∨ forcedPeriodOf data = some (q, b) := by
  cases hf : forcedPeriodOf data with
  | none =>
    rw [periodsStep_of_skipped cp data hf]
    simp
  | some pr =>
    obtain ⟨period, hist⟩ := pr
    obtain ⟨m, hm, hother, set, hset, hmem⟩ := periodsStep_of_forced cp data period hist hf
    rw [hm, computePeriodsHas_iff, computePeriodsHas_iff]
    simp only [Option.getD_some]
    by_cases hq : q = period
    · subst hq
      rw [hset]
      constructor
      · rintro ⟨set0, hs, hb⟩
        injection hs with hs
        subst hs
        rcases (hmem b).mp hb with h1 | h1
        · exact Or.inr (by rw [h1])
        · exact Or.inl h1
      · rintro (h1 | h1)
        · exact ⟨set, rfl, (hmem b).mpr (Or.inr h1)⟩
        · have hb : hist = b := by
            injection h1 with h1
            injection h1
          exact ⟨set, rfl, (hmem b).mpr (Or.inl hb.symm)⟩
    · rw [hother q hq]
      constructor
      · exact Or.inl
      · rintro (h1 | h1)
        · exact h1
        · have hp : period = q := by
            injection h1 with h1
            injection h1
          exact absurd hp.symm hq

theorem periodsStep_eq_none (cp : Option (List (String × List Bool))) (data : String) :
    periodsStep cp data = none ↔ cp = none ∧ forcedPeriodOf data = none := by
  cases hf : forcedPeriodOf data with
  | none =>
    rw [periodsStep_of_skipped cp data hf]
    simp
  | some pr =>
    obtain ⟨period, hist⟩ := pr
    obtain ⟨m, hm, _⟩ := periodsStep_of_forced cp data period hist hf
    rw [hm]
    simp

/-- A turn keeps every set of the map non-empty. -/
theorem periodsStep_nonempty (cp : Option (List (String × List Bool))) (data : String)
    (h : ∀ (q : String) (set : List Bool),
      mapIndex (cp.getD []) q = some set → set ≠ []) :
    ∀ (q : String) (set : List Bool),
      mapIndex ((periodsStep cp data).getD []) q = some set →
        set ≠ [] := by
  cases hf : forcedPeriodOf data with
  | none =>
    rw [periodsStep_of_skipped cp data hf]
    exact h
  | some pr =>
    obtain ⟨period, hist⟩ := pr
    obtain ⟨m, hm, hother, set1, hset, hmem⟩ := periodsStep_of_forced cp data period hist hf
    rw [hm]
    intro q set hq
    simp only [Option.getD_some] at hq
    by_cases hqp : q = period
    · subst hqp
      rw [hset] at hq
      injection hq with hq
      subst hq
      intro hnil
      have hin : hist ∈ set1 := (hmem hist).mpr (Or.inl rfl)
      rw [hnil] at hin
      cases hin
    · rw [hother q hqp] at hq
      exact h q set hq

/-- After the loop, a flag is in the set of a period exactly when it was there
before or some item names that period with that flag. -/
theorem periodsLoop_has (items : List String) (cp : Option (List (String × List Bool)))
    (q : String) (b : Bool) :
    computePeriodsHas (periodsLoop items cp) q b = true ↔
      computePeriodsHas cp q b = true ∨ ∃ item ∈ items, forcedPeriodOf item = some (q, b) := by
  induction items generalizing cp with
  | nil => simp [periodsLoop]
  | cons data rest ih =>
    simp only [periodsLoop]
    rw [ih, periodsStep_has]
    simp only [List.mem_cons, exists_eq_or_imp]
    tauto

theorem periodsLoop_eq_none (items : List String) (cp : Option (List (String × List Bool))) :
    periodsLoop items cp = none ↔
      cp = none ∧ ∀ item ∈ items, forcedPeriodOf item = none := by
  induction items generalizing cp with
  | nil => simp [periodsLoop]
  | cons data rest ih =>
    simp only [periodsLoop]
    rw [ih, periodsStep_eq_none]
    simp only [List.mem_cons, forall_eq_or_imp]
    tauto

theorem periodsLoop_nonempty (items : List String) (cp : Option (List (String × List Bool)))
    (h : ∀ (q : String) (set : List Bool),
      mapIndex (cp.getD []) q = some set → set ≠ []) :
    ∀ (q : String) (set : List Bool),
      mapIndex ((periodsLoop items cp).getD []) q = some set →
        set ≠ [] := by
  induction items generalizing cp with
  | nil => exact h
  | cons data rest ih =>
    simp only [periodsLoop]
    exact ih (periodsStep cp data) (periodsStep_nonempty cp data h)

/-- C31: in a fresh context, after the section of `Init` that reads
`GHA2DB_FORCE_PERIODS` as a comma-separated list, the flag `b` is in the set
`ComputePeriods[period]` exactly when some item splits on `:` into exactly the
two parts `period` and a second part that, trimmed of white space, is `t` (for
`true`) or `f` (for `false`); every other item changes nothing. The map stays
nil exactly when no item is of that form, in particular when the variable is
unset, and no period of the map has an empty set. -/
theorem initComputePeriods_reads_items (getenv : String → String) :
    (∀ (period : String) (b : Bool),
      computePeriodsHas (initComputePeriods getenv none) period b = true ↔
        ∃ item ∈ stringsSplit (getenv "GHA2DB_FORCE_PERIODS") ',',
          forcedPeriodOf item = some (period, b)) ∧
    (initComputePeriods getenv none = none ↔
      ∀ item ∈ stringsSplit (getenv "GHA2DB_FORCE_PERIODS") ',', forcedPeriodOf item = none) ∧
    (getenv "GHA2DB_FORCE_PERIODS" = "" → initComputePeriods getenv none = none) ∧
    (∀ (m : List (String × List Bool)) (period : String) (set : List Bool),
      initComputePeriods getenv none = some m → mapIndex m period = some set → set ≠ []) := by
  have hsplit : stringsSplit "" ',' = [""] := by decide
  have hempty : forcedPeriodOf "" = none := by decide
  by_cases hset : getenv "GHA2DB_FORCE_PERIODS" = ""
  · have hnone : initComputePeriods getenv none = none := by
      simp [initComputePeriods, hset]
    refine ⟨?_, ?_, fun _ => hnone, ?_⟩
    · intro period b
      simp [hnone, hset, hsplit, hempty, computePeriodsHas]
    · simp [hnone, hset, hsplit, hempty]
    · intro m period set hm
      rw [hnone] at hm
      cases hm
  · have hloop : initComputePeriods getenv none =
        periodsLoop (stringsSplit (getenv "GHA2DB_FORCE_PERIODS") ',') none := by
      simp [initComputePeriods, hset]
    refine ⟨?_, ?_, fun h => absurd h hset, ?_⟩
    · intro period b
      rw [hloop, periodsLoop_has]
      simp [computePeriodsHas]
    · rw [hloop, periodsLoop_eq_none]
      simp
    · intro m period set hm hidx
      have hne := periodsLoop_nonempty (stringsSplit (getenv "GHA2DB_FORCE_PERIODS") ',') none
        (fun q set0 h0 => by simp [mapIndex] at h0) period set
      rw [← hloop, hm] at hne
      exact hne hidx

/-- Witness of C31: the documented example gives `y10` with the set of `true`
and `m` with the set of `false`; a list without a valid item leaves the map nil. -/
theorem initComputePeriods_reads_items_witness :
    initComputePeriods (fun _ => "y10:t,m:f") none = some [("y10", [true]), ("m", [false])] ∧
    initComputePeriods (fun _ => "q,w:x,a:b:c") none = none ∧
    computePeriodsHas (initComputePeriods (fun _ => "y10:t,m:f") none) "y10" true = true ∧
    computePeriodsHas (initComputePeriods (fun _ => "y10:t,m: f ") none) "m" false = true :=
  ⟨by decide, by decide,
    ((initComputePeriods_reads_items (fun _ => "y10:t,m:f")).1 "y10" true).mpr
      ⟨"y10:t", by decide, by decide⟩,
    ((initComputePeriods_reads_items (fun _ => "y10:t,m: f ")).1 "m" false).mpr
      ⟨"m: f ", by decide, by decide⟩⟩

end Devstats
